import Mathlib

/-!
# TensorRT graph lowering (`runtime/contrib/tensorrt/tensorrt_builder.cc`)

A shallow embedding of `TensorRTBuilder` and of the two weight transpose kernels,
followed by theorems about them.

Conventions of the embedding.

* A C++ `int` is an `Int`; every `int` multiplication and addition of the source goes
  through `wrapInt32` (two's-complement wrap-around), a `size_t` is a `Nat` reduced
  modulo `2^64`.
* A `float` is represented by its 32-bit pattern (`float := Nat`): the builder only ever
  copies floats.
* An access outside a buffer or a vector is undefined behaviour in C++; the kernels
  return `none` for it and the builder stops with `Err.undefined`.
* A failed `CHECK` or a `LOG(FATAL)` stops the builder with `Err.fatal`; the builder state
  reached at that point is part of the result.
-/

namespace TensorRT

/-! ## Machine integers -/

/-- The value of a C++ `int` expression whose mathematical value is `x`
(two's-complement wrap-around to 32 bits). -/
def wrapInt32 (x : Int) : Int := (x + 2147483648) % 4294967296 - 2147483648

/-- Multiplication of two `int` values. -/
def intMul (x y : Int) : Int := wrapInt32 (x * y)

/-- Addition of two `int` values. -/
def intAdd (x y : Int) : Int := wrapInt32 (x + y)

/-- The value of a `size_t` expression whose mathematical value is `x`. -/
def wrapSizeT (x : Int) : Nat := (x % 18446744073709551616).toNat

/-! ## Buffers -/

/-- Read `buf[i]` for an `int` index; `none` when the access is out of bounds. -/
def readAt {α : Type} (buf : List α) (i : Int) : Option α :=
  if 0 ≤ i then buf.get? i.toNat else none

/-- Store `buf[i] = v` for an `int` index; `none` when the access is out of bounds. -/
def writeAt {α : Type} (buf : List α) (i : Int) (v : α) : Option (List α) :=
  if 0 ≤ i ∧ i.toNat < buf.length then some (buf.set i.toNat v) else none

/-- The loop `for (int i = 0; i < n; i++) body(i)` threading a state through the body. -/
def forInt {σ : Type} (n : Int) (body : Int → σ → Option σ) (init : σ) : Option σ :=
  (List.range n.toNat).foldlM (fun s (i : Nat) => body (i : Int) s) init

/-! ## The transpose kernels -/

/-- `TransposeWeights4D`: strided copy of a 4-D weight. `output_values` is the freshly
allocated output buffer, the result is its content after the four nested loops. -/
def TransposeWeights4D {α : Type} (original_shape : List Int) (output_strides : List Int)
    (input_values : List α) (output_values : List α) : Option (List α) := do
  let s0 ← original_shape.get? 0
  let s1 ← original_shape.get? 1
  let s2 ← original_shape.get? 2
  let s3 ← original_shape.get? 3
  let input_strides : List Int := [intMul (intMul s1 s2) s3, intMul s2 s3, s3, 1]
  forInt s0 (fun i out =>
    forInt s1 (fun j out =>
      forInt s2 (fun k out =>
        forInt s3 (fun l out => do
          let input_index :=
            intAdd (intAdd (intAdd (intMul i (← input_strides.get? 0))
              (intMul j (← input_strides.get? 1)))
              (intMul k (← input_strides.get? 2)))
              (intMul l (← input_strides.get? 3))
          let output_index :=
            intAdd (intAdd (intAdd (intMul i (← output_strides.get? 0))
              (intMul j (← output_strides.get? 1)))
              (intMul k (← output_strides.get? 2)))
              (intMul l (← output_strides.get? 3))
          let v ← readAt input_values input_index
          writeAt out output_index v) out) out) out) output_values

/-- `TransposeWeights2D`: plain matrix transpose of a `[c, k]` weight. -/
def TransposeWeights2D {α : Type} (original_shape : List Int)
    (input_values : List α) (output_values : List α) : Option (List α) := do
  let c ← original_shape.get? 0
  let k ← original_shape.get? 1
  forInt c (fun i out =>
    forInt k (fun j out => do
      let input_index := intAdd (intMul i k) j
      let output_index := intAdd (intMul j c) i
      let v ← readAt input_values input_index
      writeAt out output_index v) out) output_values

/-! ## Runtime tensors and target-engine values -/

/-- A `float`, represented by its 32-bit pattern. -/
abbrev float := Nat

/-- The DLPack element type descriptor `DLDataType`. -/
structure DLDataType where
  code : Nat
  bits : Nat
  lanes : Nat
deriving DecidableEq, Repr

/-- DLPack type code `kDLInt`. -/
def kDLInt : Nat := 0
/-- DLPack type code `kDLUInt`. -/
def kDLUInt : Nat := 1
/-- DLPack type code `kDLFloat`. -/
def kDLFloat : Nat := 2
/-- DLPack device type `kDLCPU`. -/
def kDLCPU : Nat := 1
/-- DLPack device type `kDLGPU`. -/
def kDLGPU : Nat := 2

/-- The DLPack tensor descriptor `DLTensor`: `data` is the content in 4-byte units,
`device_type` is `ctx.device_type`, `ndim` is the length of `shape` (`int64_t` entries). -/
structure DLTensor where
  data : List float
  device_type : Nat
  dtype : DLDataType
  shape : List Int
deriving DecidableEq, Repr

/-- The engine element type `nvinfer1::DataType`. -/
inductive DataType where
  | kFLOAT
  | kHALF
  | kINT8
  | kINT32
deriving DecidableEq, Repr

/-- A heap array obtained from `new float[n]`: its address (the number of arrays allocated
before it) and its content. -/
structure Buffer where
  addr : Nat
  data : List float
deriving DecidableEq, Repr

/-- The engine weight descriptor `nvinfer1::Weights`; `values = none` is `nullptr`. -/
structure Weights where
  type : DataType
  values : Option Buffer
  count : Nat
deriving DecidableEq, Repr

/-- A handle `nvinfer1::ITensor*` to a tensor of the network under construction. -/
abbrev ITensor := Nat

/-- The declared kind of a converter input, `TrtInputType`. -/
inductive TrtInputType where
  | kTensor
  | kWeight
deriving DecidableEq, Repr

/-- Modelled from the spec: `TrtOpInput` (declared in tensorrt_ops.h, which is missing).
An output slot is a tagged union, exactly one of a tensor handle or a weight together with
its logical shape. -/
inductive TrtOpInput where
  | tensor (tensor : ITensor)
  | weight (weight : Weights) (weight_shape : List Int)
deriving DecidableEq, Repr

/-- The tag of a slot. -/
def TrtOpInput.type : TrtOpInput → TrtInputType
  | .tensor _ => .kTensor
  | .weight _ _ => .kWeight

/-- One entry of the target network. -/
inductive NetworkNode where
  | input (name : String) (type : DataType) (dims : List Int) (output : ITensor)
  | constant (dims : List Int) (weights : Weights) (output : ITensor)
  | layer (description : String) (inputs : List TrtOpInput) (outputs : List ITensor)
deriving DecidableEq, Repr

/-- Modelled from the spec: `nvinfer1::INetworkDefinition` (the target engine, which is
missing): an append-only graph under construction. `nodes` are the entries in the order they
were added, tensor handles are `0 .. num_tensors - 1`, `names` records `setName`, `outputs`
records `markOutput` in call order. -/
structure INetworkDefinition where
  nodes : List NetworkNode
  num_tensors : Nat
  names : List (ITensor × String)
  outputs : List ITensor
  destroyed : Bool
deriving DecidableEq, Repr

/-- The network returned by `createNetwork`. -/
def INetworkDefinition.create : INetworkDefinition :=
  { nodes := [], num_tensors := 0, names := [], outputs := [], destroyed := false }

/-- Modelled from the spec: `add_input(name, dtype, dims) -> TensorHandle`. -/
def INetworkDefinition.addInput (n : INetworkDefinition) (name : String) (type : DataType)
    (dims : List Int) : INetworkDefinition × ITensor :=
  ({ n with nodes := n.nodes ++ [NetworkNode.input name type dims n.num_tensors],
            num_tensors := n.num_tensors + 1 }, n.num_tensors)

/-- Modelled from the spec: `add_constant(dims, weight) -> TensorHandle`; the result is the
output 0 of the new constant layer (`none` would be a null layer). -/
def INetworkDefinition.addConstant (n : INetworkDefinition) (dims : List Int)
    (weights : Weights) : Option (INetworkDefinition × ITensor) :=
  some ({ n with nodes := n.nodes ++ [NetworkNode.constant dims weights n.num_tensors],
                 num_tensors := n.num_tensors + 1 }, n.num_tensors)

/-- Modelled from the spec: `mark_output(TensorHandle)`. -/
def INetworkDefinition.markOutput (n : INetworkDefinition) (t : ITensor) : INetworkDefinition :=
  { n with outputs := n.outputs ++ [t] }

/-- The inputs declared on a network, as name and dimensions, in declaration order. -/
def INetworkDefinition.inputs (n : INetworkDefinition) : List (String × List Int) :=
  n.nodes.filterMap fun node =>
    match node with
    | .input name _ dims _ => some (name, dims)
    | _ => none

/-- The constants added to a network, as dimensions and weight, in order. -/
def INetworkDefinition.constants (n : INetworkDefinition) : List (List Int × Weights) :=
  n.nodes.filterMap fun node =>
    match node with
    | .constant dims w _ => some (dims, w)
    | _ => none

/-! ## Associative containers -/

/-- Lookup `m.find(key)` in an `unordered_map`. -/
def mapFind {κ β : Type} [DecidableEq κ] (m : List (κ × β)) (key : κ) : Option β :=
  (m.find? fun e => e.1 == key).map Prod.snd

/-- Assignment `m[key] = value` in an `unordered_map`: replaces the entry of `key` or
adds one. -/
def mapAssign {κ β : Type} [DecidableEq κ] (m : List (κ × β)) (key : κ) (value : β) :
    List (κ × β) :=
  match m with
  | [] => [(key, value)]
  | e :: rest => if e.1 == key then (key, value) :: rest else e :: mapAssign rest key value

/-! ## The IR -/

/-- A Relay type: a tensor type with constant shape and element type, or anything else. -/
inductive RelayType where
  | tensor (shape : List Int) (dtype : DLDataType)
  | other
deriving DecidableEq, Repr

/-- Call attributes: `TransposeAttrs` with its `axes`, or anything else. -/
inductive Attrs where
  | transpose (axes : List Int)
  | other
deriving DecidableEq, Repr

/-- A `VarNode`; `ptr` is the identity (address) of the node. -/
structure VarNode where
  ptr : Nat
  name_hint : String
  checked_type : RelayType
deriving DecidableEq, Repr

/-- A `ConstantNode` with its `NDArray` data. -/
structure ConstantNode where
  ptr : Nat
  data : DLTensor
deriving DecidableEq, Repr

/-- The five IR node variants handled by the builder. `ptr` is the identity of the node, `op`
the name of the operator of a call. -/
inductive Expr where
  | var (node : VarNode)
  | constant (node : ConstantNode)
  | call (ptr : Nat) (op : String) (args : List Expr) (attrs : Attrs)
  | tuple (ptr : Nat) (fields : List Expr)
  | tupleGetItem (ptr : Nat) (tuple : Expr) (index : Int)

/-- The identity of a node (`expr.operator->()`). -/
def Expr.ptr : Expr → Nat
  | .var node => node.ptr
  | .constant node => node.ptr
  | .call ptr _ _ _ => ptr
  | .tuple ptr _ => ptr
  | .tupleGetItem ptr _ _ => ptr

/-! ## Converters -/

/-- Modelled from the spec: `AddTrtLayerParams` (tensorrt_ops.h, missing): what a converter
receives and what it leaves behind. `network` and `trt_weights` are the objects the
parameters point to, `allocated` is the number of heap arrays allocated so far. -/
structure AddTrtLayerParams where
  network : INetworkDefinition
  op_name : String
  attrs : Attrs
  trt_weights : List Weights
  allocated : Nat
  inputs : List TrtOpInput
  outputs : List ITensor

/-- Modelled from the spec: a converter `TrtOpConverter` (tensorrt_ops.h, missing) declares
one input kind per position or a variable number of tensor inputs, and has a single
`Convert` operation; `none` is a fatal error inside the converter. -/
structure TrtOpConverter where
  input_types : List TrtInputType
  variable_input_count : Bool
  Convert : AddTrtLayerParams → Option AddTrtLayerParams

/-- The functions the builder calls that are defined outside this file. -/
structure Env where
  /-- The registry returned by `GetOpConverters()`, as a lookup by operator name. -/
  GetOpConverters : String → Option TrtOpConverter
  /-- The byte size `runtime::GetDataSize` reports for a tensor. -/
  GetDataSize : DLTensor → Nat
  /-- The return code of `TVMArrayCopyToBytes(dptr, buffer, nbytes)`. -/
  TVMArrayCopyToBytes : DLTensor → Nat → Int
  /-- The result of `std::stoi`, `none` when it throws. -/
  stoi : String → Option Int
  /-- The result of `getNbBindings()` on the engine built from a network. -/
  getNbBindings : INetworkDefinition → Nat

/-! ## Builder state and results -/

/-- The state of a `TensorRTBuilder`. The last four fields are bookkeeping of the
embedding: the number of heap arrays allocated so far, the arrays freed by `CleanUp`, the
parameters of every converter invocation and the nodes whose cache entry was assigned, both
in order. -/
structure TensorRTBuilder where
  execution_args_ : List DLTensor
  batch_size_ : Int
  network_ : INetworkDefinition
  trt_weights_ : List Weights
  node_output_map_ : List (Nat × List TrtOpInput)
  network_input_map_ : List (Int × String)
  allocated : Nat
  freed : List (Option Nat)
  converter_calls : List AddTrtLayerParams
  cache_writes : List Nat

/-- How a lowering step stops abnormally: a failed `CHECK`, a `LOG(FATAL)` or a thrown
exception (`fatal`), or undefined behaviour of the C++ source (`undefined`). -/
inductive Err where
  | fatal (msg : String)
  | undefined (what : String)
deriving DecidableEq, Repr

/-- The outcome of a builder operation, with the builder state it leaves. -/
inductive Result (α : Type) where
  | ok (val : α) (s : TensorRTBuilder)
  | error (e : Err) (s : TensorRTBuilder)

/-- The state left by an operation. -/
def Result.state {α : Type} : Result α → TensorRTBuilder
  | .ok _ s => s
  | .error _ s => s

/-- Whether an operation stopped abnormally. -/
def Result.failed {α : Type} : Result α → Bool
  | .ok _ _ => false
  | .error _ _ => true

/-- A builder operation. -/
def M (α : Type) : Type := TensorRTBuilder → Result α

instance : Monad M where
  pure a := fun s => Result.ok a s
  bind x f := fun s =>
    match x s with
    | Result.ok a s1 => f a s1
    | Result.error e s1 => Result.error e s1

/-- Stop with an error. -/
def raise {α : Type} (e : Err) : M α := fun s => Result.error e s

/-- The macro `CHECK(cond) << msg`. -/
def CHECK (cond : Bool) (msg : String) : M Unit :=
  if cond then pure () else raise (Err.fatal msg)

/-- Read the builder state. -/
def getState : M TensorRTBuilder := fun s => Result.ok s s

/-- Replace the builder state. -/
def modifyState (f : TensorRTBuilder → TensorRTBuilder) : M Unit := fun s => Result.ok () (f s)

/-- A value that exists unless the source runs into undefined behaviour. -/
def defined {α : Type} (x : Option α) (what : String) : M α :=
  match x with
  | some a => pure a
  | none => raise (Err.undefined what)

/-- The expression `new float[count]`: a fresh array (its cells are modelled as zero until
they are written). -/
def newFloatArray (count : Nat) : M Buffer := fun s =>
  Result.ok { addr := s.allocated, data := List.replicate count 0 }
    { s with allocated := s.allocated + 1 }

/-- The lookup `node_output_map_.find(node)`. -/
def cacheFind (ptr : Nat) : M (Option (List TrtOpInput)) := fun s =>
  Result.ok (mapFind s.node_output_map_ ptr) s

/-- Reading `node_output_map_[node]`: `operator[]` inserts an empty entry when there is
none. -/
def cacheIndex (ptr : Nat) : M (List TrtOpInput) := fun s =>
  match mapFind s.node_output_map_ ptr with
  | some slots => Result.ok slots s
  | none => Result.ok [] { s with node_output_map_ := s.node_output_map_ ++ [(ptr, [])] }

/-- The assignment `node_output_map_[node] = slots`. -/
def cacheAssign (ptr : Nat) (slots : List TrtOpInput) : M Unit :=
  modifyState fun s =>
    { s with node_output_map_ := mapAssign s.node_output_map_ ptr slots,
             cache_writes := s.cache_writes ++ [ptr] }

/-- The builder constructor `TensorRTBuilder(args)`; `none` when `args[0]->shape[0]` does
not exist. -/
def TensorRTBuilder.create (args : List DLTensor) : Option TensorRTBuilder := do
  let arg0 ← args.get? 0
  let batch ← arg0.shape.get? 0
  pure { execution_args_ := args, batch_size_ := wrapInt32 batch,
         network_ := INetworkDefinition.create, trt_weights_ := [],
         node_output_map_ := [], network_input_map_ := [],
         allocated := 0, freed := [], converter_calls := [], cache_writes := [] }

/-! ## Helpers declared outside the builder -/

/-- Modelled from the spec: `GetShape` (common_utils.h, missing): the shape of a tensor type
as a `std::vector<int>`; any other type is rejected. -/
def GetShape (type : RelayType) : M (List Int) :=
  match type with
  | .tensor shape _ => pure shape
  | .other => raise (Err.fatal "GetShape: not a tensor type")

/-- Modelled from the spec: `VectorToTrtDims` (utils.h, missing): the dimension sequence
itself. -/
def VectorToTrtDims (shape : List Int) : List Int := shape

/-- Modelled from the spec: `runtime::TypeMatch` (missing): the element type has the given
code and width, and a single lane. -/
def TypeMatch (t : DLDataType) (code : Nat) (bits : Nat) : Bool :=
  t.code == code && t.bits == bits && t.lanes == 1

/-- Modelled from the spec: the bytes `TVMArrayCopyToBytes` stores into the destination
array ("copies the source bytes into it"), in 4-byte units. -/
def copiedValues (dptr : DLTensor) (count : Nat) : List float :=
  (List.range count).map fun i => dptr.data.getD i 0

/-! ## Weight materialisation -/

/-- `TensorRTBuilder::GetDLTensorAsWeights`. -/
def GetDLTensorAsWeights (env : Env) (dptr : DLTensor) (src_device : Nat) : M Weights := do
  CHECK (dptr.device_type == src_device) "Check failed: dptr->ctx.device_type == src_device"
  CHECK (dptr.dtype.code == kDLFloat)
    "Check failed: static_cast<int>(dptr->dtype.code) == kDLFloat"
  let weight_bytes := env.GetDataSize dptr
  let count : Nat := dptr.shape.foldl (fun count dim => wrapSizeT ((count : Int) * dim)) 1
  CHECK (wrapSizeT ((count : Int) * 4) == weight_bytes) "Check failed: count * 4 == weight_bytes"
  let values ← newFloatArray count
  CHECK (env.TVMArrayCopyToBytes dptr weight_bytes == 0) "TVMGetLastError"
  let weight : Weights :=
    { type := DataType.kFLOAT,
      values := some { values with data := copiedValues dptr count },
      count := count }
  modifyState fun s => { s with trt_weights_ := s.trt_weights_ ++ [weight] }
  return weight

/-- `TensorRTBuilder::GetNdArrayAsWeights`. -/
def GetNdArrayAsWeights (env : Env) (array : DLTensor) (src_device : Nat) : M Weights :=
  GetDLTensorAsWeights env array src_device

/-- `TensorRTBuilder::TrackVarNode`: the integer after the 14 characters of
`tensorrt_input` in the name of the variable. -/
def TrackVarNode (env : Env) (node : VarNode) : M Int := do
  let trim_length := "tensorrt_input".length
  CHECK (trim_length ≤ node.name_hint.length) "std::out_of_range"
  match env.stoi (node.name_hint.drop trim_length) with
  | some var_node_idx => pure var_node_idx
  | none => raise (Err.fatal "std::stoi")

/-- `TensorRTBuilder::GetInputAsWeights`. -/
def GetInputAsWeights (env : Env) (node : VarNode) : M Unit := do
  let var_node_idx ← TrackVarNode env node
  let arg ← defined (readAt (← getState).execution_args_ var_node_idx) "execution_args_[i]"
  let weight ← GetDLTensorAsWeights env arg kDLGPU
  let shape ← GetShape node.checked_type
  cacheAssign node.ptr [TrtOpInput.weight weight shape]

/-- `TensorRTBuilder::GetConstantAsWeights`. -/
def GetConstantAsWeights (env : Env) (node : ConstantNode) : M Unit := do
  let weight ← GetNdArrayAsWeights env node.data kDLCPU
  let shape_long := node.data.shape
  let shape := shape_long.map wrapInt32
  cacheAssign node.ptr [TrtOpInput.weight weight shape]

/-- The loop of `GetInputAsTransposedWeights` that reads the axes: `order[i] = axis` and
`new_shape[i] = shape[axis]`. -/
def readAxes (shape : List Int) : List Int → Option (List Int × List Int)
  | [] => some ([], [])
  | a :: rest => do
    let axis := wrapInt32 a
    let dim ← readAt shape axis
    let (order, new_shape) ← readAxes shape rest
    pure (axis :: order, dim :: new_shape)

/-- The block "Perform transpose" of `GetInputAsTransposedWeights`: the content of `values`
after the kernel selected by `order` has run, a fatal error for any other order. -/
def performTranspose (order shape : List Int) (original_values values : List float) :
    M (List float) :=
  if order = [3, 2, 0, 1] then do
    let shape0 ← defined (shape.get? 0) "shape[0]"
    let shape1 ← defined (shape.get? 1) "shape[1]"
    let shape2 ← defined (shape.get? 2) "shape[2]"
    let output_strides : List Int :=
      [shape1, 1, intMul shape0 shape1, intMul (intMul shape0 shape1) shape2]
    defined (TransposeWeights4D shape output_strides original_values values)
      "TransposeWeights4D"
  else if order = [2, 3, 0, 1] then do
    let shape0 ← defined (shape.get? 0) "shape[0]"
    let shape1 ← defined (shape.get? 1) "shape[1]"
    let shape3 ← defined (shape.get? 3) "shape[3]"
    let output_strides : List Int :=
      [shape1, 1, intMul (intMul shape0 shape1) shape3, intMul shape0 shape1]
    defined (TransposeWeights4D shape output_strides original_values values)
      "TransposeWeights4D"
  else if order = [1, 0] then
    defined (TransposeWeights2D shape original_values values) "TransposeWeights2D"
  else
    raise (Err.fatal "Constant transpose is not supported.")

/-- `TensorRTBuilder::GetInputAsTransposedWeights`; `transpose` is the identity of the
transpose call and `attrs` its attributes. -/
def GetInputAsTransposedWeights (env : Env) (transpose : Nat) (attrs : Attrs)
    (node : VarNode) : M Unit := do
  GetInputAsWeights env node
  CHECK ((← cacheIndex node.ptr).length == 1) "Check failed: node_output_map_[node].size() == 1"
  let (original_weight, shape) ←
    match (← cacheIndex node.ptr).get? 0 with
    | some (TrtOpInput.weight w sh) => pure (w, sh)
    | _ => raise (Err.undefined "node_output_map_[node][0].weight")
  let original_values ← defined (original_weight.values.map Buffer.data) "original_weight.values"
  let values ← newFloatArray original_weight.count
  -- Get order and new shape.
  let axes ←
    match attrs with
    | .transpose axes => pure axes
    | .other => raise (Err.undefined "transpose->attrs.as<TransposeAttrs>()")
  let (order, new_shape) ← defined (readAxes shape axes) "shape[axis]"
  -- Perform transpose.
  let data ← performTranspose order shape original_values values.data
  -- Map as output of transpose op.
  let transposed_weight : Weights :=
    { type := DataType.kFLOAT, values := some { values with data := data },
      count := original_weight.count }
  modifyState fun s => { s with trt_weights_ := s.trt_weights_ ++ [transposed_weight] }
  cacheAssign transpose [TrtOpInput.weight transposed_weight new_shape]

/-! ## Visiting variables and constants -/

/-- `TensorRTBuilder::VisitExpr_(const VarNode*)`. -/
def VisitExpr_VarNode (env : Env) (node : VarNode) : M Unit := do
  let id ← TrackVarNode env node
  let tensor_name := node.name_hint
  let shape ← GetShape node.checked_type
  -- Remove batch dim
  let shape := if shape.length > 1 then shape.tail else shape
  let dims := VectorToTrtDims shape
  let type_ok :=
    match node.checked_type with
    | .tensor _ dtype => TypeMatch dtype kDLFloat 32
    | .other => false
  CHECK type_ok "Only FP32 inputs are supported."
  let input ← fun s =>
    let r := s.network_.addInput tensor_name DataType.kFLOAT dims
    Result.ok r.2 { s with network_ := r.1 }
  modifyState fun s =>
    { s with network_input_map_ := mapAssign s.network_input_map_ id tensor_name }
  cacheAssign node.ptr [TrtOpInput.tensor input]

/-- `TensorRTBuilder::VisitExpr_(const ConstantNode*)`. -/
def VisitExpr_ConstantNode (env : Env) (node : ConstantNode) : M Unit := do
  let weight ← GetNdArrayAsWeights env node.data kDLCPU
  let shape := node.data.shape
  -- Remove batch dim.
  let shape := if shape.length > 1 && shape.head? == some 1 then shape.tail else shape
  let dims := VectorToTrtDims shape
  let const_layer := (← getState).network_.addConstant dims weight
  match const_layer with
  | none => raise (Err.fatal "Check failed: const_layer != nullptr")
  | some (network, output) =>
    modifyState fun s => { s with network_ := network }
    cacheAssign node.ptr [TrtOpInput.tensor output]

/-! ## Visiting calls, tuples and projections -/

/-- Modelled from the spec: the memoisation of `ExprVisitor::VisitExpr` (expr_functor.cc,
missing): "a node already present in the cache is never revisited". -/
def memoized (ptr : Nat) (visit : M Unit) : M Unit := do
  match (← cacheFind ptr) with
  | some _ => pure ()
  | none => visit

/-- The special case of `VisitExpr_(const CallNode*)` for an argument that must be a
weight: a variable, a constant, or a transpose of a variable. -/
def materializeWeightArg (env : Env) (arg : Expr) : M Unit :=
  match arg with
  | .var var => GetInputAsWeights env var
  | .constant node => GetConstantAsWeights env node
  | .call transpose op args attrs =>
    if op = "transpose" then
      match args.get? 0 with
      | some (.var weights) => GetInputAsTransposedWeights env transpose attrs weights
      | some _ => raise (Err.fatal "TRT requires a constant input here.")
      | none => raise (Err.undefined "transpose->args[0]")
    else raise (Err.fatal "TRT requires a constant input here.")
  | _ => raise (Err.fatal "TRT requires a constant input here.")

/-- The loop "Get inputs" of `VisitExpr_(const CallNode*)` over the identities of the
arguments; `inputs` is `params.inputs` so far. -/
def gatherInputs : List Nat → List TrtOpInput → M (List TrtOpInput)
  | [], inputs => pure inputs
  | arg :: rest, inputs => do
    match (← cacheFind arg) with
    | none => raise (Err.fatal "Input was not found.")
    | some slots => gatherInputs rest (inputs ++ slots)

/-- The second half of `VisitExpr_(const CallNode*)`: gather the inputs, check the arity,
invoke the converter and store its outputs. -/
def convertCall (converter : TrtOpConverter) (call : Nat) (op_name : String)
    (attrs : Attrs) (args : List Nat) : M Unit := do
  -- Get inputs.
  let inputs ← gatherInputs args []
  (if !converter.variable_input_count then
    CHECK (converter.input_types.length == inputs.length)
      "Op expected a different number of inputs."
  else pure ())
  -- Convert op to TRT.
  let s ← getState
  let params : AddTrtLayerParams :=
    { network := s.network_, op_name := op_name, attrs := attrs,
      trt_weights := s.trt_weights_, allocated := s.allocated,
      inputs := inputs, outputs := [] }
  modifyState fun s => { s with converter_calls := s.converter_calls ++ [params] }
  match converter.Convert params with
  | none => raise (Err.fatal "Convert")
  | some params =>
    modifyState fun s =>
      { s with network_ := params.network, trt_weights_ := params.trt_weights,
               allocated := params.allocated }
    -- Get outputs.
    cacheAssign call (params.outputs.map TrtOpInput.tensor)

mutual
/-- `VisitExpr`: the memoised dispatch to the `VisitExpr_` overload of the node. -/
def VisitExpr (env : Env) : Expr → M Unit
  | .var node => memoized node.ptr (VisitExpr_VarNode env node)
  | .constant node => memoized node.ptr (VisitExpr_ConstantNode env node)
  | .call call op args attrs =>
    -- `VisitExpr_(const CallNode*)`
    memoized call (
      -- Look up converter.
      match env.GetOpConverters op with
      | none => raise (Err.fatal ("Unsupported operator conversion to TRT, op name: " ++ op))
      | some converter => do
        VisitArgs env converter 0 args
        convertCall converter call op attrs (args.map Expr.ptr))
  | .tuple op fields =>
    -- `VisitExpr_(const TupleNode*)`
    memoized op (do
      let outputs ← VisitFields env fields []
      cacheAssign op outputs)
  | .tupleGetItem op (.tuple _ fields) index =>
    -- `VisitExpr_(const TupleGetItemNode*)`, literal tuple
    memoized op (do
      let item ← defined (readAt fields index) "tuple->fields[op->index]"
      VisitNth env fields index.toNat
      let slots ← cacheIndex item.ptr
      cacheAssign op slots)
  | .tupleGetItem op tuple index =>
    -- `VisitExpr_(const TupleGetItemNode*)`, any other operand
    memoized op (do
      VisitExpr env tuple
      -- Index into tensor outputs from expr.
      let slots ← cacheIndex tuple.ptr
      let slot ← defined (readAt slots index) "node_output_map_[op->tuple][op->index]"
      cacheAssign op [slot])
termination_by structural e => e
/-- The first loop of `VisitExpr_(const CallNode*)`, from argument position `i` on: visit
the inputs first, materialising those the converter declares as weights. -/
def VisitArgs (env : Env) (converter : TrtOpConverter) : Nat → List Expr → M Unit
  | _, [] => pure ()
  | i, arg :: rest => do
    (if converter.variable_input_count then
      VisitExpr env arg
    else
      match converter.input_types.get? i with
      | none => raise (Err.undefined "converter->input_types[i]")
      | some t =>
        if t ≠ TrtInputType.kWeight then VisitExpr env arg
        else materializeWeightArg env arg)
    VisitArgs env converter (i + 1) rest
termination_by structural _ args => args
/-- The loop of `VisitExpr_(const TupleNode*)`; `outputs` is the vector built so far. -/
def VisitFields (env : Env) : List Expr → List TrtOpInput → M (List TrtOpInput)
  | [], outputs => pure outputs
  | item :: rest, outputs => do
    VisitExpr env item
    let item_outputs ← cacheIndex item.ptr
    VisitFields env rest (outputs ++ item_outputs)
termination_by structural fields _ => fields
/-- The call `VisitExpr(tuple->fields[n])`. -/
def VisitNth (env : Env) : List Expr → Nat → M Unit
  | [], _ => raise (Err.undefined "tuple->fields[op->index]")
  | item :: _, 0 => VisitExpr env item
  | _ :: rest, n + 1 => VisitNth env rest n
termination_by structural fields _ => fields
end

/-! ## Building the engine -/

/-- `TrtEngineAndContext`: the compiled engine (represented by the network it was built
from), the input-index to name bindings and the output names. -/
structure TrtEngineAndContext where
  engine : INetworkDefinition
  network_input_map : List (Int × String)
  network_output_names : List String

/-- The loop "Mark outputs" of `BuildEngine`, from output position `i` on. -/
def markOutputs : List TrtOpInput → Nat → List String → M (List String)
  | [], _, network_output_names => pure network_output_names
  | .tensor out_tensor :: rest, i, network_output_names => do
    let output_name := "tensorrt_output" ++ toString i
    modifyState fun s =>
      { s with network_ :=
          ({ s.network_ with names := mapAssign s.network_.names out_tensor output_name }
            ).markOutput out_tensor }
    markOutputs rest (i + 1) (network_output_names ++ [output_name])
  | .weight _ _ :: _, _, _ =>
    raise (Err.fatal "Check failed: network_outputs[i].type == kTensor")

/-- `TensorRTBuilder::CleanUp`. -/
def CleanUp : M Unit :=
  modifyState fun s =>
    { s with network_ := { s.network_ with destroyed := true },
             freed := s.freed ++ s.trt_weights_.map fun w => w.values.map Buffer.addr }

/-- `TensorRTBuilder::BuildEngine`. -/
def BuildEngine (env : Env) (expr : Expr) : M TrtEngineAndContext := do
  -- Process graph and create INetworkDefinition.
  VisitExpr env expr
  -- Mark outputs.
  match (← cacheFind expr.ptr) with
  | none => raise (Err.fatal "Output was not found.")
  | some network_outputs =>
    let network_output_names ← markOutputs network_outputs 0 []
    let engine := (← getState).network_
    CHECK (env.getNbBindings engine ==
        (← getState).network_input_map_.length + network_outputs.length)
      "Check failed: engine->getNbBindings() == inputs + outputs"
    CleanUp
    return { engine := engine, network_input_map := (← getState).network_input_map_,
             network_output_names := network_output_names }

/-! ## The operator `topi::nn::dilate` -/

/-- Modelled from the spec: an expression of the tensor language (`tvm::Expr`, declared in
tvm/expr.h, which is missing), as far as `dilate` looks at it: an integer immediate or any
other expression, with the integer it evaluates to. -/
inductive IndexExpr where
  | imm (value : Int)
  | other (value : Int)
deriving DecidableEq, Repr

/-- The integer an expression evaluates to. -/
def IndexExpr.value : IndexExpr → Int
  | .imm value => value
  | .other value => value

/-- Modelled from the spec: `IsConstInt` (tvm/expr_operator.h, missing): whether the
expression is an integer immediate. -/
def IsConstInt : IndexExpr → Bool
  | .imm _ => true
  | .other _ => false

/-- Modelled from the spec: `GetConstInt` (tvm/expr_operator.h, missing): the value of an
integer immediate. -/
def GetConstInt (e : IndexExpr) : Int := e.value

/-- The operators `indexdiv` and `indexmod` of the tensor language (tvm/expr_operator.h,
missing), taken as parameters. -/
structure IndexOps where
  indexdiv : Int → Int → Int
  indexmod : Int → Int → Int

/-- Modelled from the spec: a tensor of the tensor language (`tvm::Tensor`, declared in
tvm/tensor.h, which is missing): the values of its shape expressions and of its elements. -/
structure Tensor where
  shape : List Int
  elem : List Int → Int

/-- Whether an index tuple lies within a shape: one index per dimension, each at least `0` and
below the extent of its dimension. -/
def inBounds (shape : List Int) (indices : List Int) : Bool :=
  indices.length == shape.length &&
    (List.zipWith (fun (index extent : Int) => decide (0 ≤ index ∧ index < extent))
      indices shape).all id

/-- The read `x(indices)`; `none` when it is out of bounds. -/
def Tensor.read (x : Tensor) (indices : List Int) : Option Int :=
  if inBounds x.shape indices then some (x.elem indices) else none

/-- Modelled from the spec: the tensor built by `tvm::compute` (tvm/operation.h, missing): its
shape and, for an index tuple, the value of the compute body, `none` when evaluating the body
reads out of bounds. -/
structure ComputedTensor where
  shape : List Int
  elem : List Int → Option Int

/-- The array `out_shape` of `dilate`: for every dimension
`(x->shape[i] - 1) * cast(DataType::Int(32), strides[i] + 1)`. -/
def dilateOutShape (shape : List Int) (strides : List IndexExpr) : List Int :=
  List.zipWith
    (fun (extent : Int) (stride : IndexExpr) =>
      intMul (wrapInt32 (extent - 1)) (wrapInt32 (stride.value + 1)))
    shape strides

/-- The array `index_tuple` that the compute body of `dilate` builds from the output indices:
`indices[i]` for a stride that is the constant 1, `indexdiv(indices[i], strides[i])` for any
other stride. -/
def dilateIndexTuple (ops : IndexOps) : List IndexExpr → List Int → List Int
  | stride :: strides, index :: indices =>
    (if IsConstInt stride && GetConstInt stride == 1 then index
     else ops.indexdiv index stride.value) :: dilateIndexTuple ops strides indices
  | _, _ => []

/-- The array `not_zero` that the compute body of `dilate` builds: one condition
`indexmod(indices[i], strides[i]) == 0` for every stride that is not the constant 1. -/
def dilateNotZero (ops : IndexOps) : List IndexExpr → List Int → List Bool
  | stride :: strides, index :: indices =>
    if IsConstInt stride && GetConstInt stride == 1 then dilateNotZero ops strides indices
    else (ops.indexmod index stride.value == 0) :: dilateNotZero ops strides indices
  | _, _ => []

/-- `topi::nn::dilate`; `none` when the `CHECK_EQ` on the number of strides fails. The element
at an index tuple is the value of the compute body there (meaningful for one index per
dimension). -/
def dilate (ops : IndexOps) (x : Tensor) (strides : List IndexExpr) : Option ComputedTensor :=
  let n := x.shape.length
  if n ≠ strides.length then none
  else
    some
      { shape := dilateOutShape x.shape strides,
        elem := fun indices =>
          if indices.length ≠ n then none
          else
            let not_zero := dilateNotZero ops strides indices
            let index_tuple := dilateIndexTuple ops strides indices
            if not_zero.length > 0 then
              (if not_zero.all id then x.read index_tuple else some 0)
            else x.read index_tuple }

/-! ## Auxiliary definitions for the proofs -/

/-- The pure counterpart of a loop that stores `v x` at position `g x` for every `x`. -/
def scatter {α ι : Type} (g : ι → Nat) (v : ι → α) (xs : List ι) (out : List α) : List α :=
  xs.foldl (fun o x => o.set (g x) (v x)) out

/-- Loop indices of four nested counting loops, in execution order. -/
def idx4 (a b c d : Nat) : List (Nat × Nat × Nat × Nat) :=
  (List.range a).flatMap fun i => (List.range b).flatMap fun j =>
    (List.range c).flatMap fun k => (List.range d).map fun l => (i, j, k, l)

/-- Loop indices of two nested counting loops, in execution order. -/
def idx2 (c k : Nat) : List (Nat × Nat) :=
  (List.range c).flatMap fun i => (List.range k).map fun j => (i, j)

/-- The network after the loop "Mark outputs" of `BuildEngine` has named and marked the
tensors `ts`, the first of them being output number `i`. -/
def markedNetwork (n : INetworkDefinition) : List ITensor → Nat → INetworkDefinition
  | [], _ => n
  | t :: rest, i =>
    markedNetwork
      (({ n with names := mapAssign n.names t ("tensorrt_output" ++ toString i) }
        ).markOutput t) rest (i + 1)

/-- The value returned by an operation, `none` when it stopped abnormally. -/
def Result.value? {α : Type} : Result α → Option α
  | .ok a _ => some a
  | .error _ _ => none

/-- Whether a node has an entry in the node output cache. -/
def cached (s : TensorRTBuilder) (ptr : Nat) : Prop :=
  (mapFind s.node_output_map_ ptr).isSome = true

/-- The three shapes of argument accepted where a converter declares a weight: a Variable,
a Constant, or a Call to the operator named `transpose` whose first operand is a Variable. -/
def acceptedWeightArg : Expr → Bool
  | .var _ => true
  | .constant _ => true
  | .call _ op (.var _ :: _) _ => op == "transpose"
  | _ => false

/-- The names given to `k` outputs from output number `i` on. -/
def outputNames (i k : Nat) : List String :=
  (List.range k).map fun j => "tensorrt_output" ++ toString (i + j)

/-- An operation leaves every state related by `R` to the state it started from, whether it
returns or stops. -/
def Preserves (R : TensorRTBuilder → TensorRTBuilder → Prop) {α : Type} (m : M α) : Prop :=
  ∀ s, R s (m s).state

/-- Every node cached in `s` is cached in `s'`. -/
def KeysLe (s s' : TensorRTBuilder) : Prop := ∀ p, cached s p → cached s' p

/-- Whenever the operation returns, the node `ptr` has an entry in the node output cache. -/
def Caches (ptr : Nat) {α : Type} (m : M α) : Prop :=
  ∀ s a s', m s = Result.ok a s' → cached s' ptr

/-- The target network and the input bindings of `s'` are those of `s`. -/
def NetSame (s s' : TensorRTBuilder) : Prop :=
  s'.network_ = s.network_ ∧ s'.network_input_map_ = s.network_input_map_

/-- Whenever the operation returns, the cache entry of node `ptr` is a single weight slot. -/
def CachesWeight (ptr : Nat) {α : Type} (m : M α) : Prop :=
  ∀ s a s', m s = Result.ok a s' →
    ∃ w shape, mapFind s'.node_output_map_ ptr = some [TrtOpInput.weight w shape]

/-- The body of the argument loop of `VisitExpr_(const CallNode*)` for the argument at
position `i`. -/
def visitArgument (env : Env) (converter : TrtOpConverter) (i : Nat) (arg : Expr) : M Unit :=
  if converter.variable_input_count then VisitExpr env arg
  else
    match converter.input_types.get? i with
    | none => raise (Err.undefined "converter->input_types[i]")
    | some t =>
      if t ≠ TrtInputType.kWeight then VisitExpr env arg
      else materializeWeightArg env arg

/-- Lowering the fields one after the other from state `s` succeeds and ends in `s'`; `outs` is
the concatenation, in field order, of the slots each field has in the cache when its visit
returns. -/
def LowersInOrder (env : Env) : List Expr → TensorRTBuilder → List TrtOpInput →
    TensorRTBuilder → Prop
  | [], s, outs, s' => outs = [] ∧ s' = s
  | field :: rest, s, outs, s' =>
    ∃ s1 slots outs', VisitExpr env field s = Result.ok () s1 ∧
      mapFind s1.node_output_map_ field.ptr = some slots ∧
      LowersInOrder env rest s1 outs' s' ∧ outs = slots ++ outs'

/-- The node output cache and the record of its assignments in `s'` are those of `s`. -/
def CacheSame (s s' : TensorRTBuilder) : Prop :=
  s'.node_output_map_ = s.node_output_map_ ∧ s'.cache_writes = s.cache_writes

/-- The operation leaves the cache alone or assigns the entry of `ptr`, once. -/
def AssignsAtMost (ptr : Nat) {α : Type} (m : M α) : Prop :=
  ∀ s, CacheSame s (m s).state ∨
    ∃ slots, (m s).state.node_output_map_ = mapAssign s.node_output_map_ ptr slots ∧
      (m s).state.cache_writes = s.cache_writes ++ [ptr]

/-- An assignment to the node output cache that a lowering pass may perform: by the memoised
visit of the node (`lowered`), or by the weight materialiser for an argument that a converter
declares as a weight (`weight`). -/
inductive CacheWrite where
  | lowered (ptr : Nat)
  | weight (ptr : Nat)
deriving DecidableEq, Repr

/-- Whether the argument loop hands the argument at position `i` to the weight materialiser. -/
def weightPosition (converter : TrtOpConverter) (i : Nat) : Bool :=
  !converter.variable_input_count && converter.input_types.get? i == some TrtInputType.kWeight

/-- The nodes whose cache entry the weight materialiser assigns for an argument, in order. -/
def weightWrites : Expr → List Nat
  | .var node => [node.ptr]
  | .constant node => [node.ptr]
  | .call transpose op args _ =>
    if op = "transpose" then
      match args.get? 0 with
      | some (.var weights) => [weights.ptr, transpose]
      | _ => []
    else []
  | _ => []

mutual
/-- The cache assignments that a visit of the expression may perform, read off the graph
without regard to the memoisation: one memoised visit for every occurrence of a node reached as
a tensor, one materialisation for every occurrence of an argument in a weight position. A
subgraph that is shared counts once for each of its occurrences. -/
def writeEvents (env : Env) : Expr → List CacheWrite
  | .var node => [CacheWrite.lowered node.ptr]
  | .constant node => [CacheWrite.lowered node.ptr]
  | .call call op args _ =>
    CacheWrite.lowered call ::
      (match env.GetOpConverters op with
       | none => []
       | some converter => argsWriteEvents env converter 0 args)
  | .tuple op fields => CacheWrite.lowered op :: fieldsWriteEvents env fields
  | .tupleGetItem op tuple _ => CacheWrite.lowered op :: writeEvents env tuple
termination_by structural e => e
/-- The cache assignments of the argument loop from position `i` on. -/
def argsWriteEvents (env : Env) (converter : TrtOpConverter) : Nat → List Expr → List CacheWrite
  | _, [] => []
  | i, arg :: rest =>
    (if weightPosition converter i then (weightWrites arg).map CacheWrite.weight
     else writeEvents env arg) ++ argsWriteEvents env converter (i + 1) rest
termination_by structural _ args => args
/-- The cache assignments of lowering the fields of a tuple. -/
def fieldsWriteEvents (env : Env) : List Expr → List CacheWrite
  | [] => []
  | field :: rest => writeEvents env field ++ fieldsWriteEvents env rest
termination_by structural fields => fields
end

mutual
/-- Node identities are acyclic: no node reached as a tensor has the identity of a node that is
lowered beneath it. -/
def acyclic (env : Env) : Expr → Bool
  | .var _ => true
  | .constant _ => true
  | .call call op args _ =>
    match env.GetOpConverters op with
    | none => true
    | some converter =>
      !(argsWriteEvents env converter 0 args).contains (CacheWrite.lowered call) &&
        argsAcyclic env converter 0 args
  | .tuple op fields =>
    !(fieldsWriteEvents env fields).contains (CacheWrite.lowered op) && fieldsAcyclic env fields
  | .tupleGetItem op tuple _ =>
    !(writeEvents env tuple).contains (CacheWrite.lowered op) && acyclic env tuple
termination_by structural e => e
/-- Acyclicity of the arguments lowered as tensors, from position `i` on. -/
def argsAcyclic (env : Env) (converter : TrtOpConverter) : Nat → List Expr → Bool
  | _, [] => true
  | i, arg :: rest =>
    (weightPosition converter i || acyclic env arg) && argsAcyclic env converter (i + 1) rest
termination_by structural _ args => args
/-- Acyclicity of the fields of a tuple. -/
def fieldsAcyclic (env : Env) : List Expr → Bool
  | [] => true
  | field :: rest => acyclic env field && fieldsAcyclic env rest
termination_by structural fields => fields
end

/-- No node is materialised as a weight more than once, and no node materialised as a weight
is also lowered as a tensor. -/
def weightsUnshared (events : List CacheWrite) : Bool :=
  events.all fun
    | .weight ptr =>
      decide (events.count (CacheWrite.weight ptr) ≤ 1) &&
        !events.contains (CacheWrite.lowered ptr)
    | .lowered _ => true

/-- The assignments `l` appended to the record of cache writes between `s` and `s'` stay within
`events`: a node is assigned at most once per materialisation as a weight, and at most once
more if it is lowered as a tensor, was not cached in `s` and is cached in `s'`. No cache entry
is removed. -/
def WriteBound (events : List CacheWrite) (s s' : TensorRTBuilder) : Prop :=
  KeysLe s s' ∧
  ∃ l, s'.cache_writes = s.cache_writes ++ l ∧
    ∀ p, l.count p ≤ events.count (CacheWrite.weight p) ∨
      (l.count p ≤ events.count (CacheWrite.weight p) + 1 ∧
        CacheWrite.lowered p ∈ events ∧ ¬ cached s p ∧ cached s' p)

/-- The body of the memoised visit of node `ptr`: run after earlier steps bounded by `before`
from a state in which `ptr` was not cached, it stays within the bound extended by `events` and
by the one assignment of `ptr` itself. -/
def LowersNode (ptr : Nat) (events : List CacheWrite) {α : Type} (m : M α) : Prop :=
  ∀ (s0 s1 : TensorRTBuilder) (before : List CacheWrite), ¬ cached s0 ptr →
    CacheWrite.lowered ptr ∉ before → WriteBound before s0 s1 →
      WriteBound (CacheWrite.lowered ptr :: (before ++ events)) s0 (m s1).state

/-- The `input_index` of `TransposeWeights4D` at the loop indices `t = (i, j, k, l)`, for a
shape `[_, b, c, d]`. -/
def inputIndex4 (b c d : Int) (t : Nat × Nat × Nat × Nat) : Int :=
  intAdd (intAdd (intAdd (intMul (t.1 : Nat) (intMul (intMul b c) d))
    (intMul (t.2.1 : Nat) (intMul c d))) (intMul (t.2.2.1 : Nat) d)) (intMul (t.2.2.2 : Nat) 1)

/-- The `output_index` of `TransposeWeights4D` at the loop indices `t = (i, j, k, l)`, for the
output strides `[S0, S1, S2, S3]`. -/
def outputIndex4 (S0 S1 S2 S3 : Int) (t : Nat × Nat × Nat × Nat) : Int :=
  intAdd (intAdd (intAdd (intMul (t.1 : Nat) S0) (intMul (t.2.1 : Nat) S1))
    (intMul (t.2.2.1 : Nat) S2)) (intMul (t.2.2.2 : Nat) S3)

/-- The `input_index` of `TransposeWeights2D` at the loop indices `t = (i, j)`. -/
def inputIndex2 (k : Int) (t : Nat × Nat) : Int := intAdd (intMul (t.1 : Nat) k) (t.2 : Nat)

/-- The `output_index` of `TransposeWeights2D` at the loop indices `t = (i, j)`. -/
def outputIndex2 (c : Int) (t : Nat × Nat) : Int := intAdd (intMul (t.2 : Nat) c) (t.1 : Nat)

/-- The loop visits no index tuple twice, and `index` maps the index tuples of the loop
one-to-one onto the positions `0 .. n - 1`. -/
def IndexBijection {ι : Type} (loop : List ι) (n : Nat) (index : ι → Int) : Prop :=
  loop.Nodup ∧
  (∀ t ∈ loop, 0 ≤ index t ∧ index t < n) ∧
  (∀ t ∈ loop, ∀ t' ∈ loop, index t = index t' → t = t') ∧
  (∀ p : Nat, p < n → ∃ t ∈ loop, index t = p)

/-- The node whose cache entry an assignment writes. -/
def CacheWrite.ptr : CacheWrite → Nat
  | .lowered ptr => ptr
  | .weight ptr => ptr

/-- The steps of the memoised visit of node `ptr` from state `s`: none when the node has a cache
entry, otherwise those of the body (`events`) followed by the assignment of the node itself. -/
def memoEvents (ptr : Nat) (events : List CacheWrite) (s : TensorRTBuilder) : List CacheWrite :=
  match mapFind s.node_output_map_ ptr with
  | some _ => []
  | none => events ++ [CacheWrite.lowered ptr]

/-- The steps for the argument at position `i` of a call: those of its visit (`visited`), or,
where the converter declares a weight, the assignments of the weight materialiser. -/
def argumentEvents (converter : TrtOpConverter) (i : Nat) (arg : Expr)
    (visited : List CacheWrite) : List CacheWrite :=
  if converter.variable_input_count then visited
  else
    match converter.input_types.get? i with
    | none => []
    | some t =>
      if t ≠ TrtInputType.kWeight then visited
      else (weightWrites arg).map CacheWrite.weight

mutual
/-- The lowering steps that `VisitExpr` takes when it runs from state `s`, in the order in
which they assign the node output cache: a memoised visit (`lowered`) for every node that is
reached as a tensor and has no cache entry when it is reached, listed after the steps of its
body, and a materialisation (`weight`) for every argument handed to the weight materialiser. A
node that has a cache entry when it is reached is skipped with all that lies beneath it, and
after a step that stops only the nodes whose visit is under way are listed. -/
def visitEvents (env : Env) : Expr → TensorRTBuilder → List CacheWrite
  | .var node, s => memoEvents node.ptr [] s
  | .constant node, s => memoEvents node.ptr [] s
  | .call call op args _, s =>
    memoEvents call
      (match env.GetOpConverters op with
       | none => []
       | some converter => argsEvents env converter 0 args s) s
  | .tuple op fields, s => memoEvents op (fieldsEvents env fields s) s
  | .tupleGetItem op (.tuple _ fields) index, s =>
    memoEvents op
      (match readAt fields index with
       | none => []
       | some _ => nthEvents env fields index.toNat s) s
  | .tupleGetItem op tuple _, s => memoEvents op (visitEvents env tuple s) s
termination_by structural e _ => e
/-- The steps of the argument loop `VisitArgs` run from state `s`. -/
def argsEvents (env : Env) (converter : TrtOpConverter) :
    Nat → List Expr → TensorRTBuilder → List CacheWrite
  | _, [], _ => []
  | i, arg :: rest, s =>
    argumentEvents converter i arg (visitEvents env arg s) ++
      (match visitArgument env converter i arg s with
       | .ok _ s1 => argsEvents env converter (i + 1) rest s1
       | .error _ _ => [])
termination_by structural _ args _ => args
/-- The steps of the field loop `VisitFields` run from state `s`. -/
def fieldsEvents (env : Env) : List Expr → TensorRTBuilder → List CacheWrite
  | [], _ => []
  | item :: rest, s =>
    visitEvents env item s ++
      (match VisitExpr env item s with
       | .ok _ s1 => fieldsEvents env rest (cacheIndex item.ptr s1).state
       | .error _ _ => [])
termination_by structural fields _ => fields
/-- The steps of `VisitNth` run from state `s`. -/
def nthEvents (env : Env) : List Expr → Nat → TensorRTBuilder → List CacheWrite
  | [], _, _ => []
  | item :: _, 0, s => visitEvents env item s
  | _ :: rest, n + 1, s => nthEvents env rest n s
termination_by structural fields _ _ => fields
end

/-- Whenever the operation returns, it has appended exactly `l` to the record of cache
writes. -/
def Writes (l : List Nat) {α : Type} (m : M α) : Prop :=
  ∀ s a s', m s = Result.ok a s' → s'.cache_writes = s.cache_writes ++ l

/-- Whenever the operation returns from a state `s`, it has appended exactly the nodes of
`events s`, in order, to the record of cache writes. -/
def WritesEvents (events : TensorRTBuilder → List CacheWrite) {α : Type} (m : M α) : Prop :=
  ∀ s a s', m s = Result.ok a s' →
    s'.cache_writes = s.cache_writes ++ (events s).map CacheWrite.ptr

/-! ## Concrete instances used to exercise the theorems -/

/-- The element type `float32`. -/
def float32 : DLDataType := { code := kDLFloat, bits := 32, lanes := 1 }

/-- A converter with inputs `(tensor, weight)` that adds one layer with one output. -/
def sampleConverter : TrtOpConverter :=
  { input_types := [TrtInputType.kTensor, TrtInputType.kWeight],
    variable_input_count := false,
    Convert := fun p => some { p with
      network := { p.network with
        nodes := p.network.nodes ++
          [NetworkNode.layer p.op_name p.inputs [p.network.num_tensors]],
        num_tensors := p.network.num_tensors + 1 },
      outputs := [p.network.num_tensors] } }

/-- A converter with a single weight input that adds one layer with one output. -/
def sampleWeightConverter : TrtOpConverter :=
  { input_types := [TrtInputType.kWeight],
    variable_input_count := false,
    Convert := sampleConverter.Convert }

/-- An environment: two registered converters, the byte size of a compact tensor, a copy
that always succeeds, decimal parsing of a single digit, and an engine with one binding per
declared input and marked output. -/
def sampleEnv : Env :=
  { GetOpConverters := fun name =>
      if name = "op_x" then some sampleConverter
      else if name = "op_w" then some sampleWeightConverter
      else none,
    GetDataSize := fun d =>
      (d.shape.foldl (fun x y => x * y) 1).toNat * ((d.dtype.bits * d.dtype.lanes + 7) / 8),
    TVMArrayCopyToBytes := fun _ _ => 0,
    stoi := fun s =>
      if s = "0" then some 0 else if s = "1" then some 1 else none,
    getNbBindings := fun n => n.inputs.length + n.outputs.length }

/-- A builder right after construction, with two execution arguments: a `[8, 5]` tensor
and a `[2, 3]` tensor, both `float32` on the GPU. -/
def sampleBuilder : TensorRTBuilder :=
  { execution_args_ :=
      [{ data := List.range 40, device_type := kDLGPU, dtype := float32, shape := [8, 5] },
       { data := [10, 11, 12, 13, 14, 15], device_type := kDLGPU, dtype := float32,
         shape := [2, 3] }],
    batch_size_ := 8,
    network_ := INetworkDefinition.create, trt_weights_ := [],
    node_output_map_ := [], network_input_map_ := [],
    allocated := 0, freed := [], converter_calls := [], cache_writes := [] }

/-- A `float32` tensor of shape `[4, 3]` on the CPU. -/
def sampleTensor43 : DLTensor :=
  { data := List.range 12, device_type := kDLCPU, dtype := float32, shape := [4, 3] }

/-- A 16-bit float tensor with no element, on the GPU. -/
def emptyHalfTensor : DLTensor :=
  { data := [], device_type := kDLGPU, dtype := { code := kDLFloat, bits := 16, lanes := 1 },
    shape := [0] }

/-- A tensor of three two-lane 16-bit floats, on the GPU. -/
def halfx2Tensor : DLTensor :=
  { data := [1, 2, 3], device_type := kDLGPU,
    dtype := { code := kDLFloat, bits := 16, lanes := 2 }, shape := [3] }

/-- A variable of rank 1: shape `[5]`. -/
def rank1Var : VarNode :=
  { ptr := 100, name_hint := "tensorrt_input0", checked_type := RelayType.tensor [5] float32 }

/-- A variable of shape `[8, 5]`. -/
def sampleVar : VarNode :=
  { ptr := 100, name_hint := "tensorrt_input0",
    checked_type := RelayType.tensor [8, 5] float32 }

/-- A constant of rank 1 whose only dimension is 1. -/
def rank1Constant : ConstantNode :=
  { ptr := 101,
    data := { data := [7], device_type := kDLCPU, dtype := float32, shape := [1] } }

/-- A constant of shape `[1, 3]`. -/
def sampleConstant13 : ConstantNode :=
  { ptr := 101,
    data := { data := [7, 8, 9], device_type := kDLCPU, dtype := float32, shape := [1, 3] } }

/-- A `float32` tensor of shape `[2, 3, 2, 2]` on the GPU holding `0 .. 23`. -/
def sampleTensor4D : DLTensor :=
  { data := List.range 24, device_type := kDLGPU, dtype := float32, shape := [2, 3, 2, 2] }

/-- A builder whose only execution argument is `sampleTensor4D`. -/
def sampleBuilder4D : TensorRTBuilder :=
  { sampleBuilder with execution_args_ := [sampleTensor4D], batch_size_ := 2 }

/-- A variable of shape `[2, 3, 2, 2]` bound to execution argument 0. -/
def sampleVar4D : VarNode :=
  { ptr := 5, name_hint := "tensorrt_input0",
    checked_type := RelayType.tensor [2, 3, 2, 2] float32 }

/-- A variable of shape `[2, 3]` bound to execution argument 1. -/
def sampleVar2D : VarNode :=
  { ptr := 6, name_hint := "tensorrt_input1",
    checked_type := RelayType.tensor [2, 3] float32 }

/-- A constant of shape `[4, 3]` holding `0 .. 11`. -/
def sampleConstant43 : ConstantNode := { ptr := 101, data := sampleTensor43 }


/-- A tensor of 32-bit integers on the GPU. -/
def intTensor : DLTensor :=
  { data := [1, 2], device_type := kDLGPU, dtype := { code := kDLInt, bits := 32, lanes := 1 },
    shape := [2] }

/-- The call `op_x(tensorrt_input0, constant)` of the end-to-end scenario. -/
def sampleCall : Expr :=
  Expr.call 102 "op_x" [Expr.var sampleVar, Expr.constant sampleConstant43] Attrs.other


/-- A call `op_x(tensorrt_input0, constant, constant)` with one argument more than `op_x`
declares input kinds. -/
def sampleCall3 : Expr :=
  Expr.call 103 "op_x"
    [Expr.var sampleVar, Expr.constant sampleConstant43, Expr.constant sampleConstant43]
    Attrs.other

/-- A call `op_x((tensorrt_input0, tensorrt_input0), constant)` whose first argument is a
tuple that contributes two slots. -/
def sampleCallWide : Expr :=
  Expr.call 106 "op_x"
    [Expr.tuple 107 [Expr.var sampleVar, Expr.var sampleVar], Expr.constant sampleConstant43]
    Attrs.other

/-- The tuple `(tensorrt_input0, constant)`. -/
def sampleTuple : Expr :=
  Expr.tuple 110 [Expr.var sampleVar, Expr.constant sampleConstant43]

/-- The projection `(tensorrt_input0, constant).1` of a literal tuple. -/
def sampleProjection : Expr :=
  Expr.tupleGetItem 111 sampleTuple 1

/-- The projection `op_x(tensorrt_input0, constant).0` of the result of a call. -/
def sampleCallProjection : Expr :=
  Expr.tupleGetItem 112 sampleCall 0

/-- The call `op_x(tensorrt_input0, tensorrt_input0)`: the same variable as the tensor and as
the weight argument. -/
def sampleCallShared : Expr :=
  Expr.call 120 "op_x" [Expr.var sampleVar, Expr.var sampleVar] Attrs.other

/-- The call `op_x(op_w(tensorrt_input0), tensorrt_input0)`: the same variable as the weight
argument of two calls. -/
def sampleTwoWeightUses : Expr :=
  Expr.call 122 "op_x"
    [Expr.call 121 "op_w" [Expr.var sampleVar] Attrs.other, Expr.var sampleVar] Attrs.other

/-- The sample environment with a byte copy that reports failure. -/
def failingCopyEnv : Env := { sampleEnv with TVMArrayCopyToBytes := fun _ _ => 1 }

/-- The operators `indexdiv` and `indexmod` on integers. -/
def sampleOps : IndexOps := { indexdiv := fun a b => a / b, indexmod := fun a b => a % b }

/-- A tensor of shape `[3]` holding `10, 11, 12`. -/
def sampleTensor3 : Tensor := { shape := [3], elem := fun indices => 10 + indices.headD 0 }

/-- A tensor of shape `[1]` holding `10`. -/
def sampleTensor1 : Tensor := { shape := [1], elem := fun indices => 10 + indices.headD 0 }

/-- A converter with inputs `(tensor, tensor)` that adds one layer with one output. -/
def sampleAddConverter : TrtOpConverter :=
  { input_types := [TrtInputType.kTensor, TrtInputType.kTensor],
    variable_input_count := false,
    Convert := sampleConverter.Convert }

/-- The environment `sampleEnv` with the converter `add` registered as well. -/
def sampleAddEnv : Env :=
  { sampleEnv with
    GetOpConverters := fun name =>
      if name = "add" then some sampleAddConverter else sampleEnv.GetOpConverters name }

/-- The call `add(t, t)` whose two arguments are the same call
`t = op_x(tensorrt_input0, constant)`. -/
def sampleAddShared : Expr :=
  Expr.call 300 "add" [sampleCall, sampleCall] Attrs.other

/-- The tuple `(t, t)` whose two fields are the same call `t = op_w(tensorrt_input0)`. -/
def sampleTupleShared : Expr :=
  Expr.tuple 130
    [Expr.call 121 "op_w" [Expr.var sampleVar] Attrs.other,
     Expr.call 121 "op_w" [Expr.var sampleVar] Attrs.other]

/-! ## Arithmetic helpers -/

theorem wrapInt32_of_range (x : Int) (h0 : 0 ≤ x) (h1 : x < 2147483648) : wrapInt32 x = x := by
  unfold wrapInt32; omega

theorem intMul_cast (x y : Nat) (h : x * y < 2147483648) :
    intMul (x : Int) (y : Int) = ((x * y : Nat) : Int) := by
  unfold intMul
  rw [wrapInt32_of_range] <;> push_cast <;> first | rfl | positivity | exact_mod_cast h

theorem intAdd_cast (x y : Nat) (h : x + y < 2147483648) :
    intAdd (x : Int) (y : Int) = ((x + y : Nat) : Int) := by
  unfold intAdd
  rw [wrapInt32_of_range] <;> push_cast <;> first | rfl | positivity | exact_mod_cast h

theorem radix_lt (i a M r : Nat) (hi : i < a) (hr : r < M) : i * M + r < a * M := by
  calc i * M + r < i * M + M := by omega
    _ = (i + 1) * M := by ring
    _ ≤ a * M := Nat.mul_le_mul_right M hi

theorem radix_inj (M i i' r r' : Nat) (hr : r < M) (hr' : r' < M)
    (h : i * M + r = i' * M + r') : i = i' ∧ r = r' := by
  have hM : 0 < M := by omega
  have h1 : (i * M + r) / M = i := by
    rw [Nat.add_comm, Nat.add_mul_div_right _ _ hM, Nat.div_eq_of_lt hr]; simp
  have h2 : (i' * M + r') / M = i' := by
    rw [Nat.add_comm, Nat.add_mul_div_right _ _ hM, Nat.div_eq_of_lt hr']; simp
  have hi : i = i' := by rw [← h1, ← h2, h]
  subst hi
  exact ⟨rfl, by omega⟩

/-! ## Loops that scatter values into a buffer -/

theorem forInt_cast {σ : Type} (n : Nat) (body : Int → σ → Option σ) (init : σ) :
    forInt (n : Int) body init =
      (List.range n).foldlM (fun s (i : Nat) => body (i : Int) s) init := by
  simp only [forInt, Int.toNat_ofNat]

theorem foldlM_flatMap_option {σ ι κ : Type} (xs : List ι) (f : ι → List κ)
    (step : σ → κ → Option σ) (init : σ) :
    (xs.flatMap f).foldlM step init = xs.foldlM (fun s x => (f x).foldlM step s) init := by
  induction xs generalizing init with
  | nil => rfl
  | cons x xs ih =>
    simp only [List.flatMap_cons, List.foldlM_append, List.foldlM_cons]
    cases (f x).foldlM step init with
    | none => rfl
    | some s => exact ih s

theorem scatter_length {α ι : Type} (g : ι → Nat) (v : ι → α) (xs : List ι) (out : List α) :
    (scatter g v xs out).length = out.length := by
  induction xs generalizing out with
  | nil => rfl
  | cons x xs ih => simp [scatter, List.foldl_cons] at ih ⊢; rw [ih]; simp

theorem scatter_get_untouched {α ι : Type} (g : ι → Nat) (v : ι → α) (xs : List ι)
    (out : List α) (p : Nat) (h : ∀ y ∈ xs, g y ≠ p) :
    (scatter g v xs out).get? p = out.get? p := by
  induction xs generalizing out with
  | nil => rfl
  | cons x xs ih =>
    have hx : g x ≠ p := h x (List.mem_cons_self _ _)
    have := ih (out.set (g x) (v x)) (fun y hy => h y (List.mem_cons_of_mem _ hy))
    simp only [scatter, List.foldl_cons] at this ⊢
    rw [this]
    simp [List.getElem?_set, hx]

theorem scatter_get {α ι : Type} (g : ι → Nat) (v : ι → α) (xs : List ι)
    (out : List α) (x : ι) (hx : x ∈ xs) (hlt : g x < out.length)
    (huniq : ∀ y ∈ xs, g y = g x → v y = v x) :
    (scatter g v xs out).get? (g x) = some (v x) := by
  induction xs generalizing out x with
  | nil => cases hx
  | cons y ys ih =>
    by_cases hmem : ∃ z ∈ ys, g z = g x
    · obtain ⟨z, hz, hgz⟩ := hmem
      have hvz : v z = v x := huniq z (List.mem_cons_of_mem _ hz) hgz
      have := ih (out.set (g y) (v y)) z hz (by simpa [hgz] using hlt)
        (fun w hw hgw => by
          rw [hvz]; exact huniq w (List.mem_cons_of_mem _ hw) (hgw.trans hgz))
      simp only [scatter, List.foldl_cons] at this ⊢
      rw [← hgz, this, hvz]
    · have hnot : ∀ z ∈ ys, g z ≠ g x := fun z hz hg => hmem ⟨z, hz, hg⟩
      have hxy : x = y ∨ x ∈ ys := by simpa using hx
      have hgy : g y = g x := by
        rcases hxy with rfl | h
        · rfl
        · exact absurd rfl (hnot x h)
      have hvy : v y = v x := huniq y (List.mem_cons_self _ _) hgy
      have := scatter_get_untouched g v ys (out.set (g y) (v y)) (g x) hnot
      simp only [scatter, List.foldl_cons] at this ⊢
      rw [this, hgy, hvy]
      simp [List.getElem?_set, hlt]

theorem foldlM_eq_scatter {α ι : Type} (g : ι → Nat) (v : ι → α) (N : Nat)
    (step : List α → ι → Option (List α)) (xs : List ι) (out : List α)
    (hlen : out.length = N)
    (hstep : ∀ x ∈ xs, ∀ o : List α, o.length = N → step o x = some (o.set (g x) (v x))) :
    xs.foldlM step out = some (scatter g v xs out) := by
  induction xs generalizing out with
  | nil => rfl
  | cons x xs ih =>
    rw [List.foldlM_cons, hstep x (List.mem_cons_self _ _) out hlen]
    have := ih (out.set (g x) (v x)) (by simpa using hlen)
      (fun y hy => hstep y (List.mem_cons_of_mem _ hy))
    simpa [scatter] using this


theorem mem_idx4 (a b c d : Nat) (t : Nat × Nat × Nat × Nat) :
    t ∈ idx4 a b c d ↔ t.1 < a ∧ t.2.1 < b ∧ t.2.2.1 < c ∧ t.2.2.2 < d := by
  obtain ⟨i, j, k, l⟩ := t
  simp only [idx4, List.mem_flatMap, List.mem_map, List.mem_range, Prod.mk.injEq]
  constructor
  · rintro ⟨i', hi, j', hj, k', hk, l', hl, rfl, rfl, rfl, rfl⟩
    exact ⟨hi, hj, hk, hl⟩
  · rintro ⟨hi, hj, hk, hl⟩
    exact ⟨i, hi, j, hj, k, hk, l, hl, rfl, rfl, rfl, rfl⟩

theorem nested4_flat {σ : Type} (a b c d : Nat) (F : Nat → Nat → Nat → Nat → σ → Option σ)
    (init : σ) :
    (List.range a).foldlM (fun s i => (List.range b).foldlM (fun s j =>
      (List.range c).foldlM (fun s k => (List.range d).foldlM (fun s l => F i j k l s) s) s) s)
      init
    = (idx4 a b c d).foldlM (fun s t => F t.1 t.2.1 t.2.2.1 t.2.2.2 s) init := by
  simp only [idx4, foldlM_flatMap_option, List.foldlM_map]

theorem TransposeWeights4D_unfold {α : Type} (a b c d S0 S1 S2 S3 : Nat) (inp out0 : List α) :
    TransposeWeights4D [(a : Int), b, c, d] [(S0 : Int), S1, S2, S3] inp out0 =
    (idx4 a b c d).foldlM (fun out t =>
      (readAt inp (intAdd (intAdd (intAdd (intMul (t.1 : Nat) (intMul (intMul b c) d))
        (intMul (t.2.1 : Nat) (intMul c d))) (intMul (t.2.2.1 : Nat) d)) (intMul (t.2.2.2 : Nat) 1))).bind
      (fun v => writeAt out (intAdd (intAdd (intAdd (intMul (t.1 : Nat) S0)
        (intMul (t.2.1 : Nat) S1)) (intMul (t.2.2.1 : Nat) S2)) (intMul (t.2.2.2 : Nat) S3)) v)) out0 := by
  refine Eq.trans ?_ (nested4_flat a b c d (fun i j k l out =>
      (readAt inp (intAdd (intAdd (intAdd (intMul (i : Nat) (intMul (intMul b c) d))
        (intMul (j : Nat) (intMul c d))) (intMul (k : Nat) d)) (intMul (l : Nat) 1))).bind
      (fun v => writeAt out (intAdd (intAdd (intAdd (intMul (i : Nat) S0)
        (intMul (j : Nat) S1)) (intMul (k : Nat) S2)) (intMul (l : Nat) S3)) v)) out0)
  simp only [TransposeWeights4D, List.get?_cons_zero, List.get?_cons_succ, Option.bind_eq_bind,
    Option.some_bind, forInt_cast, Option.pure_def, Option.bind_some]


theorem intMul_cast_one (x : Nat) (h : x < 2147483648) : intMul (x : Int) 1 = (x : Int) := by
  have := intMul_cast x 1 (by omega)
  simpa using this

theorem readAt_cast {α : Type} (buf : List α) (n : Nat) : readAt buf (n : Int) = buf.get? n := by
  simp [readAt]

theorem writeAt_cast {α : Type} (buf : List α) (n : Nat) (v : α) (h : n < buf.length) :
    writeAt buf (n : Int) v = some (buf.set n v) := by
  simp [writeAt, h]

theorem inIndex4_lt (a b c d i j k l : Nat) (hi : i < a) (hj : j < b) (hk : k < c) (hl : l < d) :
    i * (b * c * d) + j * (c * d) + k * d + l < a * b * c * d := by
  have h1 : k * d + l < c * d := radix_lt k c d l hk hl
  have h2 := radix_lt j b (c * d) _ hj h1
  have h3 := radix_lt i a (b * (c * d)) _ hi h2
  calc i * (b * c * d) + j * (c * d) + k * d + l
      = i * (b * (c * d)) + (j * (c * d) + (k * d + l)) := by ring
    _ < a * (b * (c * d)) := h3
    _ = a * b * c * d := by ring

theorem TransposeWeights4D_spec {α : Type} (a b c d S0 S1 S2 S3 : Nat) (inp out0 : List α)
    (hN : a * b * c * d < 2147483648)
    (hin : inp.length = a * b * c * d) (hout : out0.length = a * b * c * d)
    (hg : ∀ i j k l, i < a → j < b → k < c → l < d →
      i * S0 + j * S1 + k * S2 + l * S3 < a * b * c * d)
    (hinj : ∀ i j k l i' j' k' l', i < a → j < b → k < c → l < d →
      i' < a → j' < b → k' < c → l' < d →
      i * S0 + j * S1 + k * S2 + l * S3 = i' * S0 + j' * S1 + k' * S2 + l' * S3 →
      i = i' ∧ j = j' ∧ k = k' ∧ l = l') :
    ∃ out, TransposeWeights4D [(a : Int), b, c, d] [(S0 : Int), S1, S2, S3] inp out0 = some out ∧
      out.length = a * b * c * d ∧
      ∀ i j k l, i < a → j < b → k < c → l < d →
        out.get? (i * S0 + j * S1 + k * S2 + l * S3) = inp.get? (((i * b + j) * c + k) * d + l) := by
  by_cases hz : a * b * c * d = 0
  · have hnil : idx4 a b c d = [] := by
      apply List.eq_nil_iff_forall_not_mem.2
      intro t ht
      obtain ⟨hi, hj, hk, hl⟩ := (mem_idx4 a b c d _).1 ht
      have : 0 < a * b * c * d := by
        have h1 : 0 < a := by omega
        have h2 : 0 < b := by omega
        have h3 : 0 < c := by omega
        have h4 : 0 < d := by omega
        positivity
      omega
    refine ⟨out0, ?_, hout, ?_⟩
    · rw [TransposeWeights4D_unfold, hnil]; rfl
    · intro i j k l hi hj hk hl
      have := (mem_idx4 a b c d (i, j, k, l)).2 ⟨hi, hj, hk, hl⟩
      rw [hnil] at this
      cases this
  have ha : 0 < a := Nat.pos_of_ne_zero (fun h => hz (by simp [h]))
  have hb : 0 < b := Nat.pos_of_ne_zero (fun h => hz (by simp [h]))
  have hc : 0 < c := Nat.pos_of_ne_zero (fun h => hz (by simp [h]))
  have hd : 0 < d := Nat.pos_of_ne_zero (fun h => hz (by simp [h]))
  have hNpos : 0 < a * b * c * d := by positivity
  obtain ⟨x0, rest, rfl⟩ : ∃ x0 rest, inp = x0 :: rest := by
    cases inp with
    | nil => simp at hin; omega
    | cons x xs => exact ⟨x, xs, rfl⟩
  set inp := x0 :: rest with hinp
  let f : Nat × Nat × Nat × Nat → Nat := fun t =>
    t.1 * (b * c * d) + t.2.1 * (c * d) + t.2.2.1 * d + t.2.2.2
  let g : Nat × Nat × Nat × Nat → Nat := fun t =>
    t.1 * S0 + t.2.1 * S1 + t.2.2.1 * S2 + t.2.2.2 * S3
  let v : Nat × Nat × Nat × Nat → α := fun t => inp.getD (f t) x0
  have hbcd : b * c * d ≤ a * b * c * d := by
    calc b * c * d ≤ a * (b * c * d) := Nat.le_mul_of_pos_left _ ha
      _ = a * b * c * d := by ring
  have hbc : b * c ≤ b * c * d := Nat.le_mul_of_pos_right _ hd
  have hcd : c * d ≤ b * c * d := by
    calc c * d ≤ b * (c * d) := Nat.le_mul_of_pos_left _ hb
      _ = b * c * d := by ring
  have hstep : ∀ t ∈ idx4 a b c d, ∀ o : List α, o.length = a * b * c * d →
      (readAt inp (intAdd (intAdd (intAdd (intMul (t.1 : Nat) (intMul (intMul b c) d))
        (intMul (t.2.1 : Nat) (intMul c d))) (intMul (t.2.2.1 : Nat) d)) (intMul (t.2.2.2 : Nat) 1))).bind
      (fun v => writeAt o (intAdd (intAdd (intAdd (intMul (t.1 : Nat) S0)
        (intMul (t.2.1 : Nat) S1)) (intMul (t.2.2.1 : Nat) S2)) (intMul (t.2.2.2 : Nat) S3)) v)
      = some (o.set (g t) (v t)) := by
    rintro ⟨i, j, k, l⟩ ht o ho
    obtain ⟨hi, hj, hk, hl⟩ := (mem_idx4 a b c d _).1 ht
    have hf := inIndex4_lt a b c d i j k l hi hj hk hl
    have hgt := hg i j k l hi hj hk hl
    simp only
    rw [intMul_cast b c (by omega), intMul_cast (b * c) d (by omega), intMul_cast c d (by omega),
      intMul_cast i (b * c * d) (by omega), intMul_cast j (c * d) (by omega),
      intMul_cast k d (by omega), intMul_cast_one l (by omega),
      intAdd_cast _ _ (by omega), intAdd_cast _ _ (by omega), intAdd_cast _ _ (by omega),
      intMul_cast i S0 (by omega), intMul_cast j S1 (by omega), intMul_cast k S2 (by omega),
      intMul_cast l S3 (by omega),
      intAdd_cast _ _ (by omega), intAdd_cast _ _ (by omega), intAdd_cast _ _ (by omega),
      readAt_cast]
    have hlt : i * (b * c * d) + j * (c * d) + k * d + l < inp.length := by rw [hin]; exact hf
    rw [List.get?_eq_get hlt]
    simp only [Option.some_bind, Option.bind]
    rw [writeAt_cast _ _ _ (by rw [ho]; exact hgt)]
    simp [v, f, g, List.getElem?_eq_getElem hlt]
  refine ⟨scatter g v (idx4 a b c d) out0, ?_, ?_, ?_⟩
  · rw [TransposeWeights4D_unfold]
    exact foldlM_eq_scatter g v (a * b * c * d) _ _ out0 hout hstep
  · rw [scatter_length, hout]
  · intro i j k l hi hj hk hl
    have hmem : (i, j, k, l) ∈ idx4 a b c d := (mem_idx4 a b c d _).2 ⟨hi, hj, hk, hl⟩
    have hf := inIndex4_lt a b c d i j k l hi hj hk hl
    have := scatter_get g v (idx4 a b c d) out0 (i, j, k, l) hmem
      (by rw [hout]; exact hg i j k l hi hj hk hl)
      (by
        rintro ⟨i', j', k', l'⟩ ht hgeq
        obtain ⟨hi', hj', hk', hl'⟩ := (mem_idx4 a b c d _).1 ht
        obtain ⟨rfl, rfl, rfl, rfl⟩ := hinj i' j' k' l' i j k l hi' hj' hk' hl' hi hj hk hl hgeq
        rfl)
    have hlt : i * (b * c * d) + j * (c * d) + k * d + l < inp.length := by rw [hin]; exact hf
    have e : ((i * b + j) * c + k) * d + l = i * (b * c * d) + j * (c * d) + k * d + l := by ring
    rw [e, List.get?_eq_get hlt]
    simpa [g, v, f, List.getElem?_eq_getElem hlt] using this


theorem radix4_lt (n0 n1 n2 n3 x0 x1 x2 x3 : Nat) (h0 : x0 < n0) (h1 : x1 < n1) (h2 : x2 < n2)
    (h3 : x3 < n3) :
    x3 * (n2 * (n1 * n0)) + (x2 * (n1 * n0) + (x1 * n0 + x0)) < n3 * (n2 * (n1 * n0)) :=
  radix_lt x3 n3 _ _ h3 (radix_lt x2 n2 _ _ h2 (radix_lt x1 n1 n0 x0 h1 h0))

theorem radix4_inj (n0 n1 n2 x0 x1 x2 x3 y0 y1 y2 y3 : Nat) (h0 : x0 < n0) (h1 : x1 < n1)
    (h2 : x2 < n2) (k0 : y0 < n0) (k1 : y1 < n1) (k2 : y2 < n2)
    (h : x3 * (n2 * (n1 * n0)) + (x2 * (n1 * n0) + (x1 * n0 + x0)) =
      y3 * (n2 * (n1 * n0)) + (y2 * (n1 * n0) + (y1 * n0 + y0))) :
    x3 = y3 ∧ x2 = y2 ∧ x1 = y1 ∧ x0 = y0 := by
  have a1 := radix_lt x1 n1 n0 x0 h1 h0
  have b1 := radix_lt y1 n1 n0 y0 k1 k0
  have a2 := radix_lt x2 n2 _ _ h2 a1
  have b2 := radix_lt y2 n2 _ _ k2 b1
  obtain ⟨e3, r3⟩ := radix_inj _ _ _ _ _ a2 b2 h
  obtain ⟨e2, r2⟩ := radix_inj _ _ _ _ _ a1 b1 r3
  obtain ⟨e1, e0⟩ := radix_inj _ _ _ _ _ h0 k0 r2
  exact ⟨e3, e2, e1, e0⟩

/-- The 4-D kernel with the output strides chosen for the permutation (3,2,0,1). -/
theorem TransposeWeights4D_3201 {α : Type} (a b c d : Nat) (inp out0 : List α)
    (hN : a * b * c * d < 2147483648)
    (hin : inp.length = a * b * c * d) (hout : out0.length = a * b * c * d) :
    ∃ out, TransposeWeights4D [(a : Int), b, c, d]
        [(b : Int), ((1 : Nat) : Int), ((a * b : Nat) : Int), ((a * b * c : Nat) : Int)] inp out0
        = some out ∧
      out.length = a * b * c * d ∧
      ∀ i j k l, i < a → j < b → k < c → l < d →
        out.get? (((l * c + k) * a + i) * b + j) = inp.get? (((i * b + j) * c + k) * d + l) := by
  have e : ∀ i j k l : Nat, i * b + j * 1 + k * (a * b) + l * (a * b * c) =
      l * (c * (a * b)) + (k * (a * b) + (i * b + j)) := by intros; ring
  obtain ⟨out, h1, h2, h3⟩ := TransposeWeights4D_spec a b c d b 1 (a * b) (a * b * c) inp out0 hN
    hin hout
    (by
      intro i j k l hi hj hk hl
      rw [e]
      calc _ < d * (c * (a * b)) := radix4_lt b a c d j i k l hj hi hk hl
        _ = a * b * c * d := by ring)
    (by
      intro i j k l i' j' k' l' hi hj hk hl hi' hj' hk' hl' h
      rw [e, e] at h
      obtain ⟨h3, h2, h1, h0⟩ := radix4_inj b a c j i k l j' i' k' l' hj hi hk hj' hi' hk' h
      exact ⟨h1, h0, h2, h3⟩)
  refine ⟨out, h1, h2, ?_⟩
  intro i j k l hi hj hk hl
  rw [← h3 i j k l hi hj hk hl]
  congr 1
  ring

/-- The 4-D kernel with the output strides chosen for the permutation (2,3,0,1). -/
theorem TransposeWeights4D_2301 {α : Type} (a b c d : Nat) (inp out0 : List α)
    (hN : a * b * c * d < 2147483648)
    (hin : inp.length = a * b * c * d) (hout : out0.length = a * b * c * d) :
    ∃ out, TransposeWeights4D [(a : Int), b, c, d]
        [(b : Int), ((1 : Nat) : Int), ((a * b * d : Nat) : Int), ((a * b : Nat) : Int)] inp out0
        = some out ∧
      out.length = a * b * c * d ∧
      ∀ i j k l, i < a → j < b → k < c → l < d →
        out.get? (((k * d + l) * a + i) * b + j) = inp.get? (((i * b + j) * c + k) * d + l) := by
  have e : ∀ i j k l : Nat, i * b + j * 1 + k * (a * b * d) + l * (a * b) =
      k * (d * (a * b)) + (l * (a * b) + (i * b + j)) := by intros; ring
  obtain ⟨out, h1, h2, h3⟩ := TransposeWeights4D_spec a b c d b 1 (a * b * d) (a * b) inp out0 hN
    hin hout
    (by
      intro i j k l hi hj hk hl
      rw [e]
      calc _ < c * (d * (a * b)) := radix4_lt b a d c j i l k hj hi hl hk
        _ = a * b * c * d := by ring)
    (by
      intro i j k l i' j' k' l' hi hj hk hl hi' hj' hk' hl' h
      rw [e, e] at h
      obtain ⟨h3, h2, h1, h0⟩ := radix4_inj b a d j i l k j' i' l' k' hj hi hl hj' hi' hl' h
      exact ⟨h1, h0, h3, h2⟩)
  refine ⟨out, h1, h2, ?_⟩
  intro i j k l hi hj hk hl
  rw [← h3 i j k l hi hj hk hl]
  congr 1
  ring


theorem mem_idx2 (c k : Nat) (t : Nat × Nat) : t ∈ idx2 c k ↔ t.1 < c ∧ t.2 < k := by
  obtain ⟨i, j⟩ := t
  simp only [idx2, List.mem_flatMap, List.mem_map, List.mem_range, Prod.mk.injEq]
  constructor
  · rintro ⟨i', hi, j', hj, rfl, rfl⟩
    exact ⟨hi, hj⟩
  · rintro ⟨hi, hj⟩
    exact ⟨i, hi, j, hj, rfl, rfl⟩

theorem TransposeWeights2D_unfold {α : Type} (c k : Nat) (inp out0 : List α) :
    TransposeWeights2D [(c : Int), k] inp out0 =
    (idx2 c k).foldlM (fun out t =>
      (readAt inp (intAdd (intMul (t.1 : Nat) k) (t.2 : Nat))).bind
      (fun v => writeAt out (intAdd (intMul (t.2 : Nat) c) (t.1 : Nat)) v)) out0 := by
  simp only [idx2, foldlM_flatMap_option, List.foldlM_map]
  simp only [TransposeWeights2D, List.get?_cons_zero, List.get?_cons_succ, Option.bind_eq_bind,
    Option.some_bind, forInt_cast, Option.pure_def, Option.bind_some]

/-- The 2-D kernel is a matrix transpose. -/
theorem TransposeWeights2D_spec {α : Type} (c k : Nat) (inp out0 : List α)
    (hN : c * k < 2147483648)
    (hin : inp.length = c * k) (hout : out0.length = c * k) :
    ∃ out, TransposeWeights2D [(c : Int), k] inp out0 = some out ∧
      out.length = c * k ∧
      ∀ i j, i < c → j < k → out.get? (j * c + i) = inp.get? (i * k + j) := by
  by_cases hz : idx2 c k = []
  · refine ⟨out0, ?_, hout, ?_⟩
    · rw [TransposeWeights2D_unfold, hz]; rfl
    · intro i j hi hj
      have := (mem_idx2 c k (i, j)).2 ⟨hi, hj⟩
      rw [hz] at this
      cases this
  obtain ⟨⟨i0, j0⟩, ht0⟩ := List.exists_mem_of_ne_nil _ hz
  obtain ⟨hi0, hj0⟩ := (mem_idx2 c k _).1 ht0
  have h00 : i0 * k + j0 < c * k := radix_lt i0 c k j0 hi0 hj0
  obtain ⟨x0, rest, rfl⟩ : ∃ x0 rest, inp = x0 :: rest := by
    cases inp with
    | nil => simp at hin; omega
    | cons x xs => exact ⟨x, xs, rfl⟩
  set inp := x0 :: rest with hinp
  let f : Nat × Nat → Nat := fun t => t.1 * k + t.2
  let g : Nat × Nat → Nat := fun t => t.2 * c + t.1
  let v : Nat × Nat → α := fun t => inp.getD (f t) x0
  have hglt : ∀ i j, i < c → j < k → j * c + i < c * k := by
    intro i j hi hj
    calc j * c + i < k * c := radix_lt j k c i hj hi
      _ = c * k := by ring
  have hstep : ∀ t ∈ idx2 c k, ∀ o : List α, o.length = c * k →
      (readAt inp (intAdd (intMul (t.1 : Nat) k) (t.2 : Nat))).bind
      (fun v => writeAt o (intAdd (intMul (t.2 : Nat) c) (t.1 : Nat)) v)
      = some (o.set (g t) (v t)) := by
    rintro ⟨i, j⟩ ht o ho
    obtain ⟨hi, hj⟩ := (mem_idx2 c k _).1 ht
    have hf : i * k + j < c * k := radix_lt i c k j hi hj
    have hgt := hglt i j hi hj
    simp only at hi hj ⊢
    rw [intMul_cast i k (by omega), intAdd_cast _ _ (by omega), intMul_cast j c (by omega),
      intAdd_cast _ _ (by omega), readAt_cast]
    have hlt : i * k + j < inp.length := by rw [hin]; exact hf
    rw [List.get?_eq_get hlt]
    simp only [Option.some_bind, Option.bind]
    rw [writeAt_cast _ _ _ (by rw [ho]; exact hgt)]
    simp [v, f, g, List.getElem?_eq_getElem hlt]
  refine ⟨scatter g v (idx2 c k) out0, ?_, ?_, ?_⟩
  · rw [TransposeWeights2D_unfold]
    exact foldlM_eq_scatter g v (c * k) _ _ out0 hout hstep
  · rw [scatter_length, hout]
  · intro i j hi hj
    have hmem : (i, j) ∈ idx2 c k := (mem_idx2 c k _).2 ⟨hi, hj⟩
    have hf : i * k + j < c * k := radix_lt i c k j hi hj
    have := scatter_get g v (idx2 c k) out0 (i, j) hmem
      (by rw [hout]; exact hglt i j hi hj)
      (by
        rintro ⟨i', j'⟩ ht hgeq
        obtain ⟨hi', hj'⟩ := (mem_idx2 c k _).1 ht
        obtain ⟨rfl, rfl⟩ := radix_inj c j' j i' i hi' hi hgeq
        rfl)
    have hlt : i * k + j < inp.length := by rw [hin]; exact hf
    rw [List.get?_eq_get hlt]
    simpa [g, v, f, List.getElem?_eq_getElem hlt] using this

/-! ## Reasoning about builder operations -/

@[simp] theorem pure_apply {α : Type} (a : α) (s : TensorRTBuilder) :
    (pure a : M α) s = Result.ok a s := rfl

@[simp] theorem bind_apply {α β : Type} (x : M α) (f : α → M β) (s : TensorRTBuilder) :
    (x >>= f) s =
      match x s with
      | Result.ok a s1 => f a s1
      | Result.error e s1 => Result.error e s1 := rfl

@[simp] theorem raise_apply {α : Type} (e : Err) (s : TensorRTBuilder) :
    (raise e : M α) s = Result.error e s := rfl

@[simp] theorem CHECK_apply (cond : Bool) (msg : String) (s : TensorRTBuilder) :
    CHECK cond msg s = if cond then Result.ok () s else Result.error (Err.fatal msg) s := by
  cases cond <;> rfl

@[simp] theorem getState_apply (s : TensorRTBuilder) : getState s = Result.ok s s := rfl

@[simp] theorem modifyState_apply (f : TensorRTBuilder → TensorRTBuilder) (s : TensorRTBuilder) :
    modifyState f s = Result.ok () (f s) := rfl

@[simp] theorem defined_some {α : Type} (a : α) (what : String) (s : TensorRTBuilder) :
    defined (some a) what s = Result.ok a s := rfl

@[simp] theorem defined_none {α : Type} (what : String) (s : TensorRTBuilder) :
    (defined none what : M α) s = Result.error (Err.undefined what) s := rfl

theorem wrapSizeT_cast (x : Nat) (h : x < 18446744073709551616) : wrapSizeT (x : Int) = x := by
  unfold wrapSizeT
  omega

theorem wrapSizeT_mul_wrapSizeT (x y : Int) :
    wrapSizeT ((wrapSizeT x : Int) * y) = wrapSizeT (x * y) := by
  unfold wrapSizeT
  have h : (0 : Int) ≤ x % 18446744073709551616 := Int.emod_nonneg _ (by norm_num)
  rw [Int.toNat_of_nonneg h, Int.mul_emod, Int.emod_emod_of_dvd _ (dvd_refl _), ← Int.mul_emod]

/-- The element count computed by the loop of `GetDLTensorAsWeights`. -/
theorem count_fold (shape : List Int) (init : Int) :
    shape.foldl (fun (count : Nat) dim => wrapSizeT ((count : Int) * dim)) (wrapSizeT init)
      = wrapSizeT (init * shape.prod) := by
  induction shape generalizing init with
  | nil => simp
  | cons x xs ih =>
    simp only [List.foldl_cons, List.prod_cons]
    rw [wrapSizeT_mul_wrapSizeT, ih, mul_assoc]

theorem count_eq (shape : List Int) :
    shape.foldl (fun (count : Nat) dim => wrapSizeT ((count : Int) * dim)) 1
      = wrapSizeT shape.prod := by
  have := count_fold shape 1
  simpa [wrapSizeT] using this

theorem GetDLTensorAsWeights_eq (env : Env) (dptr : DLTensor) (src_device : Nat)
    (s : TensorRTBuilder) :
    GetDLTensorAsWeights env dptr src_device s =
      if dptr.device_type ≠ src_device then
        Result.error (Err.fatal "Check failed: dptr->ctx.device_type == src_device") s
      else if dptr.dtype.code ≠ kDLFloat then
        Result.error
          (Err.fatal "Check failed: static_cast<int>(dptr->dtype.code) == kDLFloat") s
      else if wrapSizeT ((wrapSizeT dptr.shape.prod : Int) * 4) ≠ env.GetDataSize dptr then
        Result.error (Err.fatal "Check failed: count * 4 == weight_bytes") s
      else if env.TVMArrayCopyToBytes dptr (env.GetDataSize dptr) ≠ 0 then
        Result.error (Err.fatal "TVMGetLastError") { s with allocated := s.allocated + 1 }
      else
        Result.ok
          { type := DataType.kFLOAT,
            values := some { addr := s.allocated,
                             data := copiedValues dptr (wrapSizeT dptr.shape.prod) },
            count := wrapSizeT dptr.shape.prod }
          { s with allocated := s.allocated + 1,
                   trt_weights_ := s.trt_weights_ ++
                     [{ type := DataType.kFLOAT,
                        values := some { addr := s.allocated,
                                         data := copiedValues dptr (wrapSizeT dptr.shape.prod) },
                        count := wrapSizeT dptr.shape.prod }] } := by
  unfold GetDLTensorAsWeights
  simp only [count_eq, bind_apply, pure_apply]
  by_cases h1 : dptr.device_type = src_device
  · by_cases h2 : dptr.dtype.code = kDLFloat
    · by_cases h3 : wrapSizeT ((wrapSizeT dptr.shape.prod : Int) * 4) = env.GetDataSize dptr
      · by_cases h4 : env.TVMArrayCopyToBytes dptr (env.GetDataSize dptr) = 0
        · simp [h1, h2, h3, h4, newFloatArray]
        · simp [h1, h2, h3, h4, newFloatArray]
      · simp [h1, h2, h3]
    · simp [h1, h2]
  · simp [h1]


/-! ## Weight materialisation (C9, C10) -/

theorem copiedValues_length (dptr : DLTensor) (count : Nat) :
    (copiedValues dptr count).length = count := by
  simp [copiedValues]

theorem copiedValues_eq (dptr : DLTensor) (count : Nat) (h : dptr.data.length = count) :
    copiedValues dptr count = dptr.data := by
  apply List.ext_getElem
  · simp [copiedValues, h]
  · intro i h1 h2
    simp [copiedValues, List.getD_eq_getElem?_getD, List.getElem?_eq_getElem h2]

/-- C9. Weight byte-count invariant: for a 32-bit float tensor descriptor on the expected
device whose dimensions are non-negative and whose byte size `4 * ∏S` fits a `size_t`,
`GetDLTensorAsWeights` fails when the reported byte size differs from `4 * ∏S`; otherwise,
the byte copy reporting success, it returns a float weight of exactly `∏S` elements whose
buffer is fresh and holds the copied source data, and registers it. -/
theorem GetDLTensorAsWeights_byte_count (env : Env) (dptr : DLTensor) (src_device : Nat)
    (s : TensorRTBuilder)
    (hdev : dptr.device_type = src_device)
    (htype : dptr.dtype = { code := kDLFloat, bits := 32, lanes := 1 })
    (hdims : ∀ x ∈ dptr.shape, 0 ≤ x)
    (hfit : 4 * dptr.shape.prod < 18446744073709551616) :
    ((env.GetDataSize dptr : Int) ≠ 4 * dptr.shape.prod →
      GetDLTensorAsWeights env dptr src_device s =
        Result.error (Err.fatal "Check failed: count * 4 == weight_bytes") s) ∧
    ((env.GetDataSize dptr : Int) = 4 * dptr.shape.prod →
      env.TVMArrayCopyToBytes dptr (env.GetDataSize dptr) = 0 →
      ∃ w buf, GetDLTensorAsWeights env dptr src_device s =
          Result.ok w { s with allocated := s.allocated + 1,
                               trt_weights_ := s.trt_weights_ ++ [w] } ∧
        w.type = DataType.kFLOAT ∧ (w.count : Int) = dptr.shape.prod ∧
        w.values = some buf ∧ buf.addr = s.allocated ∧ buf.data.length = w.count ∧
        buf.data = copiedValues dptr w.count) := by
  have hprod : 0 ≤ dptr.shape.prod := List.prod_nonneg hdims
  have hcount : (wrapSizeT dptr.shape.prod : Int) = dptr.shape.prod := by
    unfold wrapSizeT; omega
  have hbytes : (wrapSizeT ((wrapSizeT dptr.shape.prod : Int) * 4) : Int)
      = 4 * dptr.shape.prod := by
    rw [hcount]; unfold wrapSizeT; omega
  have hcode : dptr.dtype.code = kDLFloat := by rw [htype]
  constructor
  · intro hne
    rw [GetDLTensorAsWeights_eq]
    have h3 : wrapSizeT ((wrapSizeT dptr.shape.prod : Int) * 4) ≠ env.GetDataSize dptr := by
      intro h; apply hne; rw [← h, hbytes]
    simp [hdev, hcode, h3]
  · intro heq hcopy
    have h3 : wrapSizeT ((wrapSizeT dptr.shape.prod : Int) * 4) = env.GetDataSize dptr := by
      have : (wrapSizeT ((wrapSizeT dptr.shape.prod : Int) * 4) : Int)
          = (env.GetDataSize dptr : Int) := by rw [hbytes, heq]
      exact_mod_cast this
    refine ⟨{ type := DataType.kFLOAT,
              values := some { addr := s.allocated,
                               data := copiedValues dptr (wrapSizeT dptr.shape.prod) },
              count := wrapSizeT dptr.shape.prod },
            { addr := s.allocated, data := copiedValues dptr (wrapSizeT dptr.shape.prod) },
            ?_, rfl, hcount, rfl, rfl, ?_, rfl⟩
    · rw [GetDLTensorAsWeights_eq]
      simp [hdev, hcode, h3, hcopy]
    · exact copiedValues_length _ _

/-- Witness of C9 on a `[4, 3]` tensor: 48 bytes are reported, the weight has 12 elements. -/
theorem GetDLTensorAsWeights_byte_count_witness :
    ∃ w, GetDLTensorAsWeights sampleEnv sampleTensor43 kDLCPU sampleBuilder =
        Result.ok w { sampleBuilder with allocated := 1, trt_weights_ := [w] } ∧
      w.count = 12 := by
  obtain ⟨w, buf, h, _, hc, _⟩ :=
    (GetDLTensorAsWeights_byte_count sampleEnv sampleTensor43 kDLCPU sampleBuilder rfl rfl
      (by decide) (by decide)).2 (by decide) (by decide)
  refine ⟨w, h, ?_⟩
  have : (w.count : Int) = 12 := by rw [hc]; decide
  exact_mod_cast this

/-- A tensor whose type code is not `kDLFloat` is rejected before anything is allocated. -/
theorem GetDLTensorAsWeights_rejects_code (env : Env) (dptr : DLTensor) (src_device : Nat)
    (s : TensorRTBuilder) (hcode : dptr.dtype.code ≠ kDLFloat) :
    ∃ msg, GetDLTensorAsWeights env dptr src_device s = Result.error (Err.fatal msg) s := by
  rw [GetDLTensorAsWeights_eq]
  by_cases hdev : dptr.device_type = src_device
  · exact ⟨"Check failed: static_cast<int>(dptr->dtype.code) == kDLFloat", by simp [hdev, hcode]⟩
  · exact ⟨"Check failed: dptr->ctx.device_type == src_device", by simp [hdev]⟩

/-- C10, evaluated at the failing inputs: a 16-bit float tensor without elements and a
tensor of two-lane 16-bit floats both pass the checks of `GetDLTensorAsWeights`, which
returns a float weight for them. -/
theorem GetDLTensorAsWeights_accepts_half :
    GetDLTensorAsWeights sampleEnv emptyHalfTensor kDLGPU sampleBuilder =
      Result.ok { type := DataType.kFLOAT, values := some { addr := 0, data := [] }, count := 0 }
        { sampleBuilder with
          allocated := 1,
          trt_weights_ :=
            [{ type := DataType.kFLOAT, values := some { addr := 0, data := [] }, count := 0 }] } ∧
    GetDLTensorAsWeights sampleEnv halfx2Tensor kDLGPU sampleBuilder =
      Result.ok
        { type := DataType.kFLOAT, values := some { addr := 0, data := [1, 2, 3] }, count := 3 }
        { sampleBuilder with
          allocated := 1,
          trt_weights_ :=
            [{ type := DataType.kFLOAT, values := some { addr := 0, data := [1, 2, 3] },
               count := 3 }] } := by
  constructor <;> rfl


/-! ## Batch dimension of variables and constants (C7, C8) -/

theorem inputs_addInput (n : INetworkDefinition) (name : String) (type : DataType)
    (dims : List Int) :
    (n.addInput name type dims).1.inputs = n.inputs ++ [(name, dims)] := by
  simp [INetworkDefinition.addInput, INetworkDefinition.inputs, List.filterMap_append]

theorem constants_addInput (n : INetworkDefinition) (name : String) (type : DataType)
    (dims : List Int) :
    (n.addInput name type dims).1.constants = n.constants := by
  simp [INetworkDefinition.addInput, INetworkDefinition.constants, List.filterMap_append]

/-- What `VisitExpr_(const VarNode*)` does to a variable of 32-bit float tensor type whose
name encodes the index `id`. -/
theorem VisitExpr_VarNode_ok (env : Env) (node : VarNode) (s : TensorRTBuilder)
    (shape : List Int) (id : Int)
    (htype : node.checked_type = RelayType.tensor shape { code := kDLFloat, bits := 32, lanes := 1 })
    (hidx : TrackVarNode env node s = Result.ok id s) :
    VisitExpr_VarNode env node s =
      Result.ok ()
        { s with
          network_ := (s.network_.addInput node.name_hint DataType.kFLOAT
            (if shape.length > 1 then shape.tail else shape)).1,
          network_input_map_ := mapAssign s.network_input_map_ id node.name_hint,
          node_output_map_ :=
            mapAssign s.node_output_map_ node.ptr [TrtOpInput.tensor s.network_.num_tensors],
          cache_writes := s.cache_writes ++ [node.ptr] } := by
  unfold VisitExpr_VarNode
  simp only [bind_apply, hidx, htype, GetShape, pure_apply, TypeMatch, VectorToTrtDims,
    CHECK_apply, cacheAssign, modifyState_apply]
  simp [INetworkDefinition.addInput]

/-- C7 (amended). Variable batch-dimension stripping: for a Variable of 32-bit float type
with shape `[B, d1, ..., dn]`, `n ≥ 1`, visiting it as a tensor input succeeds and declares
one more network input, named after the variable, whose shape is exactly `[d1, ..., dn]`,
whatever `B` is. -/
theorem VisitExpr_VarNode_strips_batch (env : Env) (node : VarNode) (s : TensorRTBuilder)
    (B d : Int) (ds : List Int) (id : Int)
    (htype : node.checked_type =
      RelayType.tensor (B :: d :: ds) { code := kDLFloat, bits := 32, lanes := 1 })
    (hidx : TrackVarNode env node s = Result.ok id s) :
    ∃ s', VisitExpr_VarNode env node s = Result.ok () s' ∧
      s'.network_.inputs = s.network_.inputs ++ [(node.name_hint, d :: ds)] := by
  refine ⟨_, VisitExpr_VarNode_ok env node s _ id htype hidx, ?_⟩
  simp [inputs_addInput]

/-- Witness of C7 on a variable of shape `[8, 5]`. -/
theorem VisitExpr_VarNode_strips_batch_witness :
    ∃ s', VisitExpr_VarNode sampleEnv sampleVar sampleBuilder = Result.ok () s' ∧
      s'.network_.inputs = sampleBuilder.network_.inputs ++ [(sampleVar.name_hint, [5])] :=
  VisitExpr_VarNode_strips_batch sampleEnv sampleVar sampleBuilder 8 5 [] 0 rfl rfl

/-- Counterexample to C7 as stated (`n = 0`): a Variable of shape `[5]` is declared with
shape `[5]`, the leading dimension is not removed. -/
theorem VisitExpr_VarNode_rank1_keeps_shape :
    (VisitExpr_VarNode sampleEnv rank1Var sampleBuilder).failed = false ∧
    (VisitExpr_VarNode sampleEnv rank1Var sampleBuilder).state.network_.inputs
      = [("tensorrt_input0", [5])] ∧
    (VisitExpr_VarNode sampleEnv rank1Var sampleBuilder).state.network_.inputs
      ≠ [("tensorrt_input0", [])] := by
  decide

/-- What `VisitExpr_(const ConstantNode*)` does once the data is materialised. -/
theorem VisitExpr_ConstantNode_ok (env : Env) (node : ConstantNode) (s s1 : TensorRTBuilder)
    (w : Weights)
    (hw : GetNdArrayAsWeights env node.data kDLCPU s = Result.ok w s1) :
    VisitExpr_ConstantNode env node s =
      Result.ok ()
        { s1 with
          network_ :=
            { s1.network_ with
              nodes := s1.network_.nodes ++
                [NetworkNode.constant
                  (if node.data.shape.length > 1 && node.data.shape.head? == some 1
                    then node.data.shape.tail else node.data.shape)
                  w s1.network_.num_tensors],
              num_tensors := s1.network_.num_tensors + 1 },
          node_output_map_ :=
            mapAssign s1.node_output_map_ node.ptr [TrtOpInput.tensor s1.network_.num_tensors],
          cache_writes := s1.cache_writes ++ [node.ptr] } := by
  unfold VisitExpr_ConstantNode
  simp only [bind_apply, hw, pure_apply, VectorToTrtDims, getState_apply,
    INetworkDefinition.addConstant, cacheAssign, modifyState_apply]

/-- C8 (amended). Constant batch-dimension elision: for a Constant visited as a tensor whose
data is materialised as the weight `w`, the shape passed to the add-constant operation is the
data shape `S` without its first element when `S` has rank at least 2 and leading dimension
exactly 1, and `S` unchanged when the leading dimension is not 1. -/
theorem VisitExpr_ConstantNode_elides_unit_batch (env : Env) (node : ConstantNode)
    (s s1 : TensorRTBuilder) (w : Weights)
    (hw : GetNdArrayAsWeights env node.data kDLCPU s = Result.ok w s1) :
    ∃ s', VisitExpr_ConstantNode env node s = Result.ok () s' ∧
      (∀ d ds, node.data.shape = 1 :: d :: ds →
        s'.network_.constants = s1.network_.constants ++ [(d :: ds, w)]) ∧
      (∀ x ds, node.data.shape = x :: ds → x ≠ 1 →
        s'.network_.constants = s1.network_.constants ++ [(x :: ds, w)]) := by
  refine ⟨_, VisitExpr_ConstantNode_ok env node s s1 w hw, ?_, ?_⟩
  · intro d ds h
    simp [INetworkDefinition.constants, List.filterMap_append, h]
  · intro x ds h hx
    simp [INetworkDefinition.constants, List.filterMap_append, h, hx]

/-- Witness of C8 on a constant of shape `[1, 3]`. -/
theorem VisitExpr_ConstantNode_elides_unit_batch_witness :
    ∃ s', VisitExpr_ConstantNode sampleEnv sampleConstant13 sampleBuilder = Result.ok () s' ∧
      s'.network_.constants.map Prod.fst = [[3]] := by
  obtain ⟨s', h, h1, _⟩ :=
    VisitExpr_ConstantNode_elides_unit_batch sampleEnv sampleConstant13 sampleBuilder _ _
      (show GetNdArrayAsWeights sampleEnv sampleConstant13.data kDLCPU sampleBuilder
        = Result.ok _ _ from rfl)
  refine ⟨s', h, ?_⟩
  rw [h1 3 [] rfl]
  rfl

/-- Counterexample to C8 as stated (rank 1): a Constant of shape `[1]` is added with the
shape `[1]`, the leading 1 is not removed. -/
theorem VisitExpr_ConstantNode_rank1_keeps_shape :
    (VisitExpr_ConstantNode sampleEnv rank1Constant sampleBuilder).failed = false ∧
    (VisitExpr_ConstantNode sampleEnv rank1Constant sampleBuilder).state.network_.constants.map
      Prod.fst = [[1]] ∧
    (VisitExpr_ConstantNode sampleEnv rank1Constant sampleBuilder).state.network_.constants.map
      Prod.fst ≠ [[]] := by
  decide


/-! ## The layout transposer (C1, C2, C3, C6) -/

theorem mapFind_mapAssign_self {κ β : Type} [DecidableEq κ] (m : List (κ × β)) (key : κ)
    (value : β) : mapFind (mapAssign m key value) key = some value := by
  induction m with
  | nil => simp [mapAssign, mapFind]
  | cons e rest ih =>
    by_cases h : e.1 = key
    · simp [mapAssign, mapFind, h]
    · simp only [mapAssign, beq_iff_eq, h, if_false]
      simpa [mapFind, h] using ih

theorem mapFind_mapAssign_ne {κ β : Type} [DecidableEq κ] (m : List (κ × β)) (key key' : κ)
    (value : β) (hne : key ≠ key') :
    mapFind (mapAssign m key value) key' = mapFind m key' := by
  induction m with
  | nil => simp [mapAssign, mapFind, hne]
  | cons e rest ih =>
    by_cases h : e.1 = key
    · have h' : e.1 ≠ key' := by rw [h]; exact hne
      simp [mapAssign, mapFind, h, h', hne]
    · simp only [mapAssign, beq_iff_eq, h, if_false]
      by_cases h' : e.1 = key'
      · simp [mapFind, h']
      · simpa [mapFind, h'] using ih

/-- `GetDLTensorAsWeights` on a well-formed float tensor whose copy succeeds. -/
theorem GetDLTensorAsWeights_ok (env : Env) (dptr : DLTensor) (src_device : Nat)
    (s : TensorRTBuilder) (count : Nat)
    (hdev : dptr.device_type = src_device) (hcode : dptr.dtype.code = kDLFloat)
    (hprod : dptr.shape.prod = (count : Int)) (hfit : count < 2147483648)
    (hdata : dptr.data.length = count)
    (hsize : env.GetDataSize dptr = 4 * count)
    (hcopy : env.TVMArrayCopyToBytes dptr (4 * count) = 0) :
    GetDLTensorAsWeights env dptr src_device s =
      Result.ok
        { type := DataType.kFLOAT, values := some { addr := s.allocated, data := dptr.data },
          count := count }
        { s with allocated := s.allocated + 1,
                 trt_weights_ := s.trt_weights_ ++
                   [{ type := DataType.kFLOAT,
                      values := some { addr := s.allocated, data := dptr.data },
                      count := count }] } := by
  have hcount : wrapSizeT dptr.shape.prod = count := by
    rw [hprod]; exact wrapSizeT_cast _ (by omega)
  have hbytes : wrapSizeT ((count : Int) * 4) = 4 * count := by
    have := wrapSizeT_cast (count * 4) (by omega)
    push_cast at this
    rw [this]; ring
  rw [GetDLTensorAsWeights_eq, hcount, hbytes, hsize, copiedValues_eq _ _ hdata]
  simp [hdev, hcode, hcopy]

/-- `GetInputAsWeights` once the index, the execution argument and its weight are known. -/
theorem GetInputAsWeights_ok (env : Env) (node : VarNode) (s s1 : TensorRTBuilder)
    (idx : Int) (arg : DLTensor) (w : Weights) (shape : List Int) (dtype : DLDataType)
    (hidx : TrackVarNode env node s = Result.ok idx s)
    (harg : readAt s.execution_args_ idx = some arg)
    (hw : GetDLTensorAsWeights env arg kDLGPU s = Result.ok w s1)
    (htype : node.checked_type = RelayType.tensor shape dtype) :
    GetInputAsWeights env node s =
      Result.ok ()
        { s1 with
          node_output_map_ :=
            mapAssign s1.node_output_map_ node.ptr [TrtOpInput.weight w shape],
          cache_writes := s1.cache_writes ++ [node.ptr] } := by
  unfold GetInputAsWeights
  simp only [bind_apply, hidx, getState_apply, harg, defined_some, hw, htype, GetShape,
    pure_apply, cacheAssign, modifyState_apply]

theorem cacheIndex_of_find (ptr : Nat) (slots : List TrtOpInput) (s : TensorRTBuilder)
    (h : mapFind s.node_output_map_ ptr = some slots) :
    cacheIndex ptr s = Result.ok slots s := by
  simp [cacheIndex, h]

/-- `GetInputAsTransposedWeights` for a variable whose execution argument materialises as a
weight, once the axes are read and the kernel has produced `data`. -/
theorem GetInputAsTransposedWeights_ok (env : Env) (transpose : Nat) (node : VarNode)
    (s : TensorRTBuilder) (count : Nat) (shape axes order new_shape : List Int) (idx : Int)
    (arg : DLTensor) (dtype : DLDataType) (data : List float)
    (hN : count < 2147483648)
    (hidx : TrackVarNode env node s = Result.ok idx s)
    (harg : readAt s.execution_args_ idx = some arg)
    (hdev : arg.device_type = kDLGPU) (hcode : arg.dtype.code = kDLFloat)
    (hprod : arg.shape.prod = (count : Int)) (hdata : arg.data.length = count)
    (hsize : env.GetDataSize arg = 4 * count)
    (hcopy : env.TVMArrayCopyToBytes arg (4 * count) = 0)
    (htype : node.checked_type = RelayType.tensor shape dtype)
    (haxes : readAxes shape axes = some (order, new_shape))
    (hkernel : ∀ s2, performTranspose order shape arg.data (List.replicate count 0) s2
      = Result.ok data s2) :
    GetInputAsTransposedWeights env transpose (Attrs.transpose axes) node s =
      Result.ok ()
        { s with
          allocated := s.allocated + 2,
          trt_weights_ := s.trt_weights_ ++
            [{ type := DataType.kFLOAT, values := some { addr := s.allocated, data := arg.data },
               count := count },
             { type := DataType.kFLOAT, values := some { addr := s.allocated + 1, data := data },
               count := count }],
          node_output_map_ :=
            mapAssign (mapAssign s.node_output_map_ node.ptr
              [TrtOpInput.weight
                { type := DataType.kFLOAT,
                  values := some { addr := s.allocated, data := arg.data }, count := count }
                shape])
              transpose
              [TrtOpInput.weight
                { type := DataType.kFLOAT,
                  values := some { addr := s.allocated + 1, data := data }, count := count }
                new_shape],
          cache_writes := s.cache_writes ++ [node.ptr, transpose] } := by
  have hw := GetDLTensorAsWeights_ok env arg kDLGPU s count hdev hcode hprod hN hdata hsize hcopy
  have hgw := GetInputAsWeights_ok env node s _ idx arg _ _ dtype hidx harg hw htype
  simp only at hgw
  unfold GetInputAsTransposedWeights
  simp only [bind_apply, hgw, cacheIndex, mapFind_mapAssign_self,
    List.length_singleton, beq_self_eq_true, CHECK_apply, if_true, List.get?_cons_zero,
    pure_apply, Option.map_some', defined_some, newFloatArray, haxes, hkernel, modifyState_apply,
    cacheAssign, List.append_assoc, List.singleton_append, List.cons_append, List.nil_append]


theorem performTranspose_3201 (a b c d : Nat) (inp out0 out : List float)
    (hc : 0 < c) (hd : 0 < d) (hN : a * b * c * d < 2147483648)
    (hout : TransposeWeights4D [(a : Int), b, c, d]
        [(b : Int), ((1 : Nat) : Int), ((a * b : Nat) : Int), ((a * b * c : Nat) : Int)] inp out0
        = some out) (s2 : TensorRTBuilder) :
    performTranspose [3, 2, 0, 1] [(a : Int), b, c, d] inp out0 s2 = Result.ok out s2 := by
  have hab : a * b ≤ a * b * c * d := by
    calc a * b ≤ a * b * (c * d) := Nat.le_mul_of_pos_right _ (by positivity)
      _ = a * b * c * d := by ring
  have habc : a * b * c ≤ a * b * c * d := Nat.le_mul_of_pos_right _ hd
  have h1 := intMul_cast a b (by omega)
  have h2 := intMul_cast (a * b) c (by omega)
  simp only [Nat.cast_one] at hout
  simp only [performTranspose, if_true, bind_apply, List.get?_cons_zero, List.get?_cons_succ,
    defined_some, h1, h2, hout]

theorem performTranspose_2301 (a b c d : Nat) (inp out0 out : List float)
    (hc : 0 < c) (hd : 0 < d) (hN : a * b * c * d < 2147483648)
    (hout : TransposeWeights4D [(a : Int), b, c, d]
        [(b : Int), ((1 : Nat) : Int), ((a * b * d : Nat) : Int), ((a * b : Nat) : Int)] inp out0
        = some out) (s2 : TensorRTBuilder) :
    performTranspose [2, 3, 0, 1] [(a : Int), b, c, d] inp out0 s2 = Result.ok out s2 := by
  have hab : a * b ≤ a * b * c * d := by
    calc a * b ≤ a * b * (c * d) := Nat.le_mul_of_pos_right _ (by positivity)
      _ = a * b * c * d := by ring
  have habd : a * b * d ≤ a * b * c * d := by
    calc a * b * d ≤ a * b * d * c := Nat.le_mul_of_pos_right _ hc
      _ = a * b * c * d := by ring
  have h1 := intMul_cast a b (by omega)
  have h2 := intMul_cast (a * b) d (by omega)
  have hne : ¬ ([2, 3, 0, 1] : List Int) = [3, 2, 0, 1] := by decide
  simp only [Nat.cast_one] at hout
  simp only [performTranspose, hne, if_false, if_true, bind_apply, List.get?_cons_zero,
    List.get?_cons_succ, defined_some, h1, h2, hout]

theorem performTranspose_10 (shape : List Int) (inp out0 out : List float)
    (hout : TransposeWeights2D shape inp out0 = some out) (s2 : TensorRTBuilder) :
    performTranspose [1, 0] shape inp out0 s2 = Result.ok out s2 := by
  have hne1 : ¬ ([1, 0] : List Int) = [3, 2, 0, 1] := by decide
  have hne2 : ¬ ([1, 0] : List Int) = [2, 3, 0, 1] := by decide
  simp only [performTranspose, hne1, hne2, if_false, if_true, hout, defined_some]

/-- C1. Layout transposer, permutation (3,2,0,1): let the variable `node` have the tensor type
of shape `[a,b,c,d]` (positive dimensions, `a*b*c*d` within `int`) and let its execution
argument be a float tensor of that shape with the `a*b*c*d` elements `arg.data`, materialised
successfully. Then `GetInputAsTransposedWeights` succeeds and records for the transpose call a
single float weight slot whose buffer `out` is fresh, has `a*b*c*d` elements, recorded shape
`[d,c,a,b]`, and `out[((l*c+k)*a+i)*b+j] = in[((i*b+j)*c+k)*d+l]` for all `i<a, j<b, k<c, l<d`;
the weight is registered in `trt_weights_`. -/
theorem GetInputAsTransposedWeights_3201 (env : Env) (transpose : Nat) (node : VarNode)
    (s : TensorRTBuilder) (a b c d : Nat) (idx : Int) (arg : DLTensor) (dtype : DLDataType)
    (_ha : 0 < a) (_hb : 0 < b) (hc : 0 < c) (hd : 0 < d)
    (hN : a * b * c * d < 2147483648)
    (hidx : TrackVarNode env node s = Result.ok idx s)
    (harg : readAt s.execution_args_ idx = some arg)
    (hdev : arg.device_type = kDLGPU) (hcode : arg.dtype.code = kDLFloat)
    (hshape : arg.shape = [(a : Int), b, c, d]) (hdata : arg.data.length = a * b * c * d)
    (hsize : env.GetDataSize arg = 4 * (a * b * c * d))
    (hcopy : env.TVMArrayCopyToBytes arg (4 * (a * b * c * d)) = 0)
    (htype : node.checked_type = RelayType.tensor [(a : Int), b, c, d] dtype) :
    ∃ out s', GetInputAsTransposedWeights env transpose (Attrs.transpose [3, 2, 0, 1]) node s
        = Result.ok () s' ∧
      out.length = a * b * c * d ∧
      mapFind s'.node_output_map_ transpose =
        some [TrtOpInput.weight
          { type := DataType.kFLOAT, values := some { addr := s.allocated + 1, data := out },
            count := a * b * c * d } [(d : Int), c, a, b]] ∧
      { type := DataType.kFLOAT, values := some { addr := s.allocated + 1, data := out },
        count := a * b * c * d } ∈ s'.trt_weights_ ∧
      ∀ i j k l, i < a → j < b → k < c → l < d →
        out.get? (((l * c + k) * a + i) * b + j) = arg.data.get? (((i * b + j) * c + k) * d + l) := by
  have hprod : arg.shape.prod = ((a * b * c * d : Nat) : Int) := by
    rw [hshape]; simp; ring
  obtain ⟨out, hout, hlen, hget⟩ := TransposeWeights4D_3201 a b c d arg.data
    (List.replicate (a * b * c * d) 0) hN hdata (by simp)
  have hrun := GetInputAsTransposedWeights_ok env transpose node s (a * b * c * d)
    [(a : Int), b, c, d] [3, 2, 0, 1] [3, 2, 0, 1] [(d : Int), c, a, b] idx arg dtype out hN hidx
    harg hdev hcode hprod hdata hsize hcopy htype
    (by simp [readAxes, readAt, wrapInt32])
    (performTranspose_3201 a b c d _ _ out hc hd hN hout)
  refine ⟨out, _, hrun, hlen, ?_, ?_, hget⟩
  · simp [mapFind_mapAssign_self]
  · simp

/-- Witness of C1 on the shape `[2,3,2,2]`. -/
theorem GetInputAsTransposedWeights_3201_witness :
    ∃ (out : List float) (s' : TensorRTBuilder), GetInputAsTransposedWeights sampleEnv 7 (Attrs.transpose [3, 2, 0, 1])
        sampleVar4D sampleBuilder4D = Result.ok () s' ∧
      out.length = 24 ∧
      ∀ i j k l, i < 2 → j < 3 → k < 2 → l < 2 →
        out.get? (((l * 2 + k) * 2 + i) * 3 + j)
          = (List.range 24).get? (((i * 3 + j) * 2 + k) * 2 + l) := by
  obtain ⟨out, s', h, hlen, _, _, hget⟩ :=
    GetInputAsTransposedWeights_3201 sampleEnv 7 sampleVar4D sampleBuilder4D 2 3 2 2 0
      sampleTensor4D float32 (by decide) (by decide) (by decide) (by decide) (by decide)
      rfl rfl rfl rfl rfl rfl rfl rfl rfl
  exact ⟨out, s', h, hlen, hget⟩

/-- C2. Layout transposer, permutation (2,3,0,1): in the setting of C1,
`GetInputAsTransposedWeights` succeeds and records for the transpose call a single float
weight slot with recorded shape `[c,d,a,b]` whose buffer `out` satisfies
`out[((k*d+l)*a+i)*b+j] = in[((i*b+j)*c+k)*d+l]` for all `i<a, j<b, k<c, l<d`. -/
theorem GetInputAsTransposedWeights_2301 (env : Env) (transpose : Nat) (node : VarNode)
    (s : TensorRTBuilder) (a b c d : Nat) (idx : Int) (arg : DLTensor) (dtype : DLDataType)
    (_ha : 0 < a) (_hb : 0 < b) (hc : 0 < c) (hd : 0 < d)
    (hN : a * b * c * d < 2147483648)
    (hidx : TrackVarNode env node s = Result.ok idx s)
    (harg : readAt s.execution_args_ idx = some arg)
    (hdev : arg.device_type = kDLGPU) (hcode : arg.dtype.code = kDLFloat)
    (hshape : arg.shape = [(a : Int), b, c, d]) (hdata : arg.data.length = a * b * c * d)
    (hsize : env.GetDataSize arg = 4 * (a * b * c * d))
    (hcopy : env.TVMArrayCopyToBytes arg (4 * (a * b * c * d)) = 0)
    (htype : node.checked_type = RelayType.tensor [(a : Int), b, c, d] dtype) :
    ∃ out s', GetInputAsTransposedWeights env transpose (Attrs.transpose [2, 3, 0, 1]) node s
        = Result.ok () s' ∧
      out.length = a * b * c * d ∧
      mapFind s'.node_output_map_ transpose =
        some [TrtOpInput.weight
          { type := DataType.kFLOAT, values := some { addr := s.allocated + 1, data := out },
            count := a * b * c * d } [(c : Int), d, a, b]] ∧
      ∀ i j k l, i < a → j < b → k < c → l < d →
        out.get? (((k * d + l) * a + i) * b + j) = arg.data.get? (((i * b + j) * c + k) * d + l) := by
  have hprod : arg.shape.prod = ((a * b * c * d : Nat) : Int) := by
    rw [hshape]; simp; ring
  obtain ⟨out, hout, hlen, hget⟩ := TransposeWeights4D_2301 a b c d arg.data
    (List.replicate (a * b * c * d) 0) hN hdata (by simp)
  have hrun := GetInputAsTransposedWeights_ok env transpose node s (a * b * c * d)
    [(a : Int), b, c, d] [2, 3, 0, 1] [2, 3, 0, 1] [(c : Int), d, a, b] idx arg dtype out hN hidx
    harg hdev hcode hprod hdata hsize hcopy htype
    (by simp [readAxes, readAt, wrapInt32])
    (performTranspose_2301 a b c d _ _ out hc hd hN hout)
  refine ⟨out, _, hrun, hlen, ?_, hget⟩
  simp [mapFind_mapAssign_self]

/-- Witness of C2 on the shape `[2,3,2,2]`. -/
theorem GetInputAsTransposedWeights_2301_witness :
    ∃ (out : List float) (s' : TensorRTBuilder), GetInputAsTransposedWeights sampleEnv 7 (Attrs.transpose [2, 3, 0, 1])
        sampleVar4D sampleBuilder4D = Result.ok () s' ∧
      out.length = 24 ∧
      ∀ i j k l, i < 2 → j < 3 → k < 2 → l < 2 →
        out.get? (((k * 2 + l) * 2 + i) * 3 + j)
          = (List.range 24).get? (((i * 3 + j) * 2 + k) * 2 + l) := by
  obtain ⟨out, s', h, hlen, _, hget⟩ :=
    GetInputAsTransposedWeights_2301 sampleEnv 7 sampleVar4D sampleBuilder4D 2 3 2 2 0
      sampleTensor4D float32 (by decide) (by decide) (by decide) (by decide) (by decide)
      rfl rfl rfl rfl rfl rfl rfl rfl rfl
  exact ⟨out, s', h, hlen, hget⟩

/-- C3. Layout transposer, permutation (1,0): let the variable `node` have the tensor type of
shape `[c,k]` (`c*k` within `int`) and let its execution argument be a float tensor of that
shape with the `c*k` elements `arg.data`, materialised successfully. Then
`GetInputAsTransposedWeights` succeeds and records for the transpose call a single float weight
slot with recorded shape `[k,c]` whose buffer `out` satisfies `out[j*c+i] = in[i*k+j]` for all
`i<c, j<k`: a plain matrix transpose. -/
theorem GetInputAsTransposedWeights_10 (env : Env) (transpose : Nat) (node : VarNode)
    (s : TensorRTBuilder) (c k : Nat) (idx : Int) (arg : DLTensor) (dtype : DLDataType)
    (hN : c * k < 2147483648)
    (hidx : TrackVarNode env node s = Result.ok idx s)
    (harg : readAt s.execution_args_ idx = some arg)
    (hdev : arg.device_type = kDLGPU) (hcode : arg.dtype.code = kDLFloat)
    (hshape : arg.shape = [(c : Int), k]) (hdata : arg.data.length = c * k)
    (hsize : env.GetDataSize arg = 4 * (c * k))
    (hcopy : env.TVMArrayCopyToBytes arg (4 * (c * k)) = 0)
    (htype : node.checked_type = RelayType.tensor [(c : Int), k] dtype) :
    ∃ out s', GetInputAsTransposedWeights env transpose (Attrs.transpose [1, 0]) node s
        = Result.ok () s' ∧
      out.length = c * k ∧
      mapFind s'.node_output_map_ transpose =
        some [TrtOpInput.weight
          { type := DataType.kFLOAT, values := some { addr := s.allocated + 1, data := out },
            count := c * k } [(k : Int), c]] ∧
      ∀ i j, i < c → j < k → out.get? (j * c + i) = arg.data.get? (i * k + j) := by
  have hprod : arg.shape.prod = ((c * k : Nat) : Int) := by
    rw [hshape]; simp
  obtain ⟨out, hout, hlen, hget⟩ := TransposeWeights2D_spec c k arg.data
    (List.replicate (c * k) 0) hN hdata (by simp)
  have hrun := GetInputAsTransposedWeights_ok env transpose node s (c * k)
    [(c : Int), k] [1, 0] [1, 0] [(k : Int), c] idx arg dtype out hN hidx
    harg hdev hcode hprod hdata hsize hcopy htype
    (by simp [readAxes, readAt, wrapInt32])
    (performTranspose_10 _ _ _ out hout)
  refine ⟨out, _, hrun, hlen, ?_, hget⟩
  simp [mapFind_mapAssign_self]

/-- Witness of C3 on the `[2,3]` execution argument `[10..15]`. -/
theorem GetInputAsTransposedWeights_10_witness :
    ∃ (out : List float) (s' : TensorRTBuilder), GetInputAsTransposedWeights sampleEnv 7 (Attrs.transpose [1, 0])
        sampleVar2D sampleBuilder = Result.ok () s' ∧
      out.length = 6 ∧
      ∀ i j, i < 2 → j < 3 → out.get? (j * 2 + i) = [10, 11, 12, 13, 14, 15].get? (i * 3 + j) := by
  obtain ⟨out, s', h, hlen, _, hget⟩ :=
    GetInputAsTransposedWeights_10 sampleEnv 7 sampleVar2D sampleBuilder 2 3 1
      { data := [10, 11, 12, 13, 14, 15], device_type := kDLGPU, dtype := float32,
        shape := [2, 3] } float32 (by decide) rfl rfl rfl rfl rfl rfl rfl rfl rfl
  exact ⟨out, s', h, hlen, hget⟩


theorem TrackVarNode_cases (env : Env) (node : VarNode) (s : TensorRTBuilder) :
    (∃ idx, TrackVarNode env node s = Result.ok idx s) ∨
    (∃ e, TrackVarNode env node s = Result.error e s) := by
  unfold TrackVarNode
  simp only [bind_apply, CHECK_apply]
  by_cases hlen : "tensorrt_input".length ≤ node.name_hint.length
  · cases h : env.stoi (node.name_hint.drop "tensorrt_input".length) with
    | none => exact Or.inr ⟨Err.fatal "std::stoi", by simp [hlen, h]⟩
    | some idx => exact Or.inl ⟨idx, by simp [hlen, h]⟩
  · exact Or.inr ⟨Err.fatal "std::out_of_range", by simp [hlen]⟩

theorem GetDLTensorAsWeights_cases (env : Env) (dptr : DLTensor) (src_device : Nat)
    (s : TensorRTBuilder) :
    (∃ w s1, GetDLTensorAsWeights env dptr src_device s = Result.ok w s1 ∧
      s1.node_output_map_ = s.node_output_map_) ∨
    (∃ e s1, GetDLTensorAsWeights env dptr src_device s = Result.error e s1 ∧
      s1.node_output_map_ = s.node_output_map_) := by
  rw [GetDLTensorAsWeights_eq]
  split
  · exact Or.inr ⟨_, _, rfl, rfl⟩
  · split
    · exact Or.inr ⟨_, _, rfl, rfl⟩
    · split
      · exact Or.inr ⟨_, _, rfl, rfl⟩
      · split
        · exact Or.inr ⟨_, _, rfl, rfl⟩
        · exact Or.inl ⟨_, _, rfl, rfl⟩

theorem markedNetwork_outputs (n : INetworkDefinition) (ts : List ITensor) (i : Nat) :
    (markedNetwork n ts i).outputs = n.outputs ++ ts := by
  induction ts generalizing n i with
  | nil => simp [markedNetwork]
  | cons t rest ih => simp [markedNetwork, ih, INetworkDefinition.markOutput]

theorem markedNetwork_nodes (n : INetworkDefinition) (ts : List ITensor) (i : Nat) :
    (markedNetwork n ts i).nodes = n.nodes := by
  induction ts generalizing n i with
  | nil => simp [markedNetwork]
  | cons t rest ih => simp [markedNetwork, ih, INetworkDefinition.markOutput]

theorem outputNames_succ (i k : Nat) :
    outputNames i (k + 1) = ("tensorrt_output" ++ toString i) :: outputNames (i + 1) k := by
  simp only [outputNames, List.range_succ_eq_map, List.map_cons, List.map_map, Nat.add_zero]
  congr 1
  apply List.map_congr_left
  intro j _
  simp only [Function.comp, Nat.succ_eq_add_one]
  congr 2
  omega

/-- The loop "Mark outputs" on a list of tensor slots. -/
theorem markOutputs_tensors (ts : List ITensor) (i : Nat) (names : List String)
    (s : TensorRTBuilder) :
    markOutputs (ts.map TrtOpInput.tensor) i names s =
      Result.ok (names ++ outputNames i ts.length)
        { s with network_ := markedNetwork s.network_ ts i } := by
  induction ts generalizing i names s with
  | nil => simp [markOutputs, outputNames, markedNetwork]
  | cons t rest ih =>
    simp only [List.map_cons, markOutputs, bind_apply, modifyState_apply, ih, List.length_cons,
      outputNames_succ, markedNetwork, List.append_assoc, List.singleton_append]


theorem mapFind_nil {κ β : Type} [DecidableEq κ] (key : κ) :
    mapFind ([] : List (κ × β)) key = none := rfl

theorem memoized_fresh (ptr : Nat) (visit : M Unit) (s : TensorRTBuilder)
    (h : mapFind s.node_output_map_ ptr = none) : memoized ptr visit s = visit s := by
  simp [memoized, cacheFind, h]

theorem VisitExpr_var_fresh (env : Env) (v : VarNode) (s : TensorRTBuilder)
    (h : mapFind s.node_output_map_ v.ptr = none) :
    VisitExpr env (Expr.var v) s = VisitExpr_VarNode env v s := by
  rw [VisitExpr, memoized_fresh _ _ _ h]

theorem VisitExpr_call_fresh (env : Env) (call : Nat) (op : String) (args : List Expr)
    (attrs : Attrs) (conv : TrtOpConverter) (s : TensorRTBuilder)
    (h : mapFind s.node_output_map_ call = none) (hreg : env.GetOpConverters op = some conv) :
    VisitExpr env (Expr.call call op args attrs) s =
      (VisitArgs env conv 0 args >>= fun _ =>
        convertCall conv call op attrs (args.map Expr.ptr)) s := by
  rw [VisitExpr, memoized_fresh _ _ _ h]
  simp only [hreg]

theorem VisitArgs_nil (env : Env) (conv : TrtOpConverter) (i : Nat) (s : TensorRTBuilder) :
    VisitArgs env conv i [] s = Result.ok () s := by
  rw [VisitArgs]; rfl

theorem VisitArgs_cons_tensor (env : Env) (conv : TrtOpConverter) (i : Nat) (arg : Expr)
    (rest : List Expr) (s : TensorRTBuilder) (hfixed : conv.variable_input_count = false)
    (hkind : conv.input_types.get? i = some TrtInputType.kTensor) :
    VisitArgs env conv i (arg :: rest) s =
      (VisitExpr env arg >>= fun _ => VisitArgs env conv (i + 1) rest) s := by
  rw [VisitArgs]
  simp only [hfixed, hkind, Bool.false_eq_true, if_false, ne_eq, not_true_eq_false,
    reduceCtorEq, not_false_eq_true, if_true]

theorem VisitArgs_cons_weight (env : Env) (conv : TrtOpConverter) (i : Nat) (arg : Expr)
    (rest : List Expr) (s : TensorRTBuilder) (hfixed : conv.variable_input_count = false)
    (hkind : conv.input_types.get? i = some TrtInputType.kWeight) :
    VisitArgs env conv i (arg :: rest) s =
      (materializeWeightArg env arg >>= fun _ => VisitArgs env conv (i + 1) rest) s := by
  rw [VisitArgs]
  simp only [hfixed, hkind, Bool.false_eq_true, if_false, ne_eq, not_true_eq_false,
    reduceCtorEq, not_false_eq_true, if_true]

/-- The second half of a call visit once the inputs are gathered, for a converter of fixed
arity that accepts them. -/
theorem convertCall_ok (conv : TrtOpConverter) (call : Nat) (op : String) (attrs : Attrs)
    (args : List Nat) (s : TensorRTBuilder) (inputs : List TrtOpInput) (p' : AddTrtLayerParams)
    (hgather : gatherInputs args [] s = Result.ok inputs s)
    (hfixed : conv.variable_input_count = false)
    (harity : conv.input_types.length = inputs.length)
    (hconv : conv.Convert
      { network := s.network_, op_name := op, attrs := attrs, trt_weights := s.trt_weights_,
        allocated := s.allocated, inputs := inputs, outputs := [] } = some p') :
    convertCall conv call op attrs args s =
      Result.ok ()
        { s with
          network_ := p'.network, trt_weights_ := p'.trt_weights, allocated := p'.allocated,
          converter_calls := s.converter_calls ++
            [{ network := s.network_, op_name := op, attrs := attrs,
               trt_weights := s.trt_weights_, allocated := s.allocated, inputs := inputs,
               outputs := [] }],
          node_output_map_ :=
            mapAssign s.node_output_map_ call (p'.outputs.map TrtOpInput.tensor),
          cache_writes := s.cache_writes ++ [call] } := by
  unfold convertCall
  simp only [bind_apply, hgather, hfixed, Bool.not_false, if_true, CHECK_apply, harity,
    beq_self_eq_true, getState_apply, modifyState_apply, hconv, cacheAssign]


theorem gatherInputs_nil (inputs : List TrtOpInput) (s : TensorRTBuilder) :
    gatherInputs [] inputs s = Result.ok inputs s := rfl

theorem gatherInputs_cons (arg : Nat) (rest : List Nat) (inputs slots : List TrtOpInput)
    (s : TensorRTBuilder) (h : mapFind s.node_output_map_ arg = some slots) :
    gatherInputs (arg :: rest) inputs s = gatherInputs rest (inputs ++ slots) s := by
  simp [gatherInputs, cacheFind, h]

theorem create_fields (args : List DLTensor) (s0 : TensorRTBuilder)
    (h : TensorRTBuilder.create args = some s0) :
    s0.network_ = INetworkDefinition.create ∧ s0.trt_weights_ = [] ∧
    s0.node_output_map_ = [] ∧ s0.network_input_map_ = [] ∧ s0.allocated = 0 ∧
    s0.converter_calls = [] := by
  simp only [TensorRTBuilder.create, Option.bind_eq_bind, Option.bind_eq_some,
    Option.pure_def, Option.some.injEq] at h
  obtain ⟨arg0, _, batch, _, h⟩ := h
  subst h
  exact ⟨rfl, rfl, rfl, rfl, rfl, rfl⟩

/-- C4 (amended). End-to-end scenario: on a freshly constructed builder, lowering the root
`Call(op_x, v, c)` where `v` is a 32-bit float Variable named with index 0 of shape
`[B, d1, ..., dn]` with `n ≥ 1`, `c` a float Constant of shape `[4,3]` on the CPU, and `op_x` a
registered converter with fixed input kinds (tensor, weight) that succeeds, (a) declares
exactly one network input, of shape `[d1, ..., dn]`; (b) materialises `c` as a weight of 12
elements with recorded shape `[4,3]` and adds no constant to the network; (c) invokes the
converter exactly once, with the two inputs (tensor slot of `v`, weight slot of `c`); (d)
stores the reported outputs as the cache entry of the call; (e) marks exactly those outputs
as network outputs. -/
theorem BuildEngine_end_to_end (env : Env) (args : List DLTensor) (s0 : TensorRTBuilder)
    (v : VarNode) (c : ConstantNode) (root : Nat) (op : String) (attrs : Attrs)
    (conv : TrtOpConverter) (B d : Int) (ds : List Int) (p' : AddTrtLayerParams)
    (hs0 : TensorRTBuilder.create args = some s0)
    (hidx : TrackVarNode env v s0 = Result.ok 0 s0)
    (hvtype : v.checked_type =
      RelayType.tensor (B :: d :: ds) { code := kDLFloat, bits := 32, lanes := 1 })
    (hcdev : c.data.device_type = kDLCPU) (hccode : c.data.dtype.code = kDLFloat)
    (hcshape : c.data.shape = [4, 3]) (hcdata : c.data.data.length = 12)
    (hcsize : env.GetDataSize c.data = 48)
    (hccopy : env.TVMArrayCopyToBytes c.data 48 = 0)
    (hne : v.ptr ≠ c.ptr)
    (hreg : env.GetOpConverters op = some conv)
    (hkinds : conv.input_types = [TrtInputType.kTensor, TrtInputType.kWeight])
    (hfixed : conv.variable_input_count = false)
    (hconv : conv.Convert
      { network := (INetworkDefinition.create.addInput v.name_hint DataType.kFLOAT (d :: ds)).1,
        op_name := op, attrs := attrs,
        trt_weights :=
          [{ type := DataType.kFLOAT, values := some { addr := 0, data := c.data.data },
             count := 12 }],
        allocated := 1,
        inputs :=
          [TrtOpInput.tensor 0,
           TrtOpInput.weight
             { type := DataType.kFLOAT, values := some { addr := 0, data := c.data.data },
               count := 12 } [4, 3]],
        outputs := [] } = some p')
    (hbind : env.getNbBindings (markedNetwork p'.network p'.outputs 0)
      = 1 + p'.outputs.length) :
    ∃ (r : TrtEngineAndContext) (s' : TensorRTBuilder) (params : AddTrtLayerParams),
      BuildEngine env (Expr.call root op [Expr.var v, Expr.constant c] attrs) s0
        = Result.ok r s' ∧
      params.network.inputs = [(v.name_hint, d :: ds)] ∧
      params.network.constants = [] ∧
      s'.converter_calls = [params] ∧
      params.inputs =
        [TrtOpInput.tensor 0,
         TrtOpInput.weight
           { type := DataType.kFLOAT, values := some { addr := 0, data := c.data.data },
             count := 12 } [4, 3]] ∧
      conv.Convert params = some p' ∧
      mapFind s'.node_output_map_ root = some (p'.outputs.map TrtOpInput.tensor) ∧
      s'.network_.outputs = p'.network.outputs ++ p'.outputs ∧
      r.network_output_names = outputNames 0 p'.outputs.length ∧
      r.network_input_map = [(0, v.name_hint)] := by
  obtain ⟨h1, h2, h3, h4, h5, h6⟩ := create_fields args s0 hs0
  obtain ⟨ea, bs, net, tw, cache, nim, al, fr, cc, cw⟩ := s0
  simp only at h1 h2 h3 h4 h5 h6
  subst h1 h2 h3 h4 h5 h6
  have hv := VisitExpr_VarNode_ok env v _ _ 0 hvtype hidx
  simp only [List.length_cons, gt_iff_lt, Nat.lt_add_left_iff_pos, Nat.zero_lt_succ, if_true,
    List.tail_cons, mapAssign, List.nil_append] at hv
  have hprod : c.data.shape.prod = ((12 : Nat) : Int) := by rw [hcshape]; rfl
  have hw := fun s => GetDLTensorAsWeights_ok env c.data kDLCPU s 12 hcdev hccode hprod
    (by norm_num) hcdata hcsize hccopy
  have hk0 : conv.input_types.get? 0 = some TrtInputType.kTensor := by rw [hkinds]; rfl
  have hk1 : conv.input_types.get? (0 + 1) = some TrtInputType.kWeight := by rw [hkinds]; rfl
  have hwrap : List.map wrapInt32 [4, 3] = [4, 3] := by decide
  have hcache : mapAssign [(v.ptr, [TrtOpInput.tensor 0])] c.ptr
      [TrtOpInput.weight
        { type := DataType.kFLOAT, values := some { addr := 0, data := c.data.data },
          count := 12 } [4, 3]] =
      [(v.ptr, [TrtOpInput.tensor 0]),
       (c.ptr, [TrtOpInput.weight
        { type := DataType.kFLOAT, values := some { addr := 0, data := c.data.data },
          count := 12 } [4, 3]])] := by
    simp [mapAssign, hne]
  unfold BuildEngine
  simp only [bind_apply]
  rw [VisitExpr_call_fresh env root op _ attrs conv _ (mapFind_nil _) hreg]
  simp only [bind_apply]
  rw [VisitArgs_cons_tensor env conv 0 _ _ _ hfixed hk0]
  simp only [bind_apply]
  rw [VisitExpr_var_fresh env v _ (mapFind_nil _), hv]
  simp only []
  rw [VisitArgs_cons_weight env conv (0 + 1) _ _ _ hfixed hk1]
  simp only [bind_apply, materializeWeightArg, GetConstantAsWeights, GetNdArrayAsWeights, hw,
    cacheAssign, modifyState_apply, VisitArgs_nil, hcshape, hwrap, List.nil_append, Nat.zero_add,
    List.map_cons, List.map_nil, Expr.ptr, INetworkDefinition.create, hcache]
  rw [convertCall_ok conv root op attrs _ _
    [TrtOpInput.tensor 0,
      TrtOpInput.weight
        { type := DataType.kFLOAT, values := some { addr := 0, data := c.data.data },
          count := 12 } [4, 3]] p'
    (by
      rw [gatherInputs_cons _ _ _ [TrtOpInput.tensor 0] _ (by simp [mapFind]),
        gatherInputs_cons _ _ _
          [TrtOpInput.weight
            { type := DataType.kFLOAT, values := some { addr := 0, data := c.data.data },
              count := 12 } [4, 3]] _ (by simp [mapFind, hne]), gatherInputs_nil]
      rfl)
    hfixed (by rw [hkinds]; rfl) hconv]
  simp only [bind_apply, cacheFind, mapFind_mapAssign_self, markOutputs_tensors, getState_apply, CHECK_apply,
    CleanUp, modifyState_apply, pure_apply, List.length_map, List.length_cons, List.length_nil,
    hbind, Nat.zero_add, beq_self_eq_true, if_true,
    List.nil_append]
  refine ⟨_, _, _, rfl, ?_, ?_, rfl, rfl, hconv, mapFind_mapAssign_self _ _ _,
    markedNetwork_outputs _ _ _, rfl, rfl⟩
  · simp [INetworkDefinition.addInput, INetworkDefinition.inputs]
  · simp [INetworkDefinition.addInput, INetworkDefinition.constants]

/-- Witness of C4: the variable has shape `[8, 5]`, the constant holds `0 .. 11`. -/
theorem BuildEngine_end_to_end_witness :
    ∃ (r : TrtEngineAndContext) (s' : TensorRTBuilder) (params : AddTrtLayerParams),
      BuildEngine sampleEnv
          (Expr.call 102 "op_x" [Expr.var sampleVar, Expr.constant sampleConstant43] Attrs.other)
          sampleBuilder = Result.ok r s' ∧
      params.network.inputs = [("tensorrt_input0", [5])] ∧
      params.network.constants = [] ∧
      s'.converter_calls = [params] ∧
      mapFind s'.node_output_map_ 102 = some [TrtOpInput.tensor 1] ∧
      s'.network_.outputs = [1] ∧
      r.network_output_names = ["tensorrt_output0"] := by
  obtain ⟨r, s', params, h, ha, hb, hc, _, _, hd, he, hf, _⟩ :=
    BuildEngine_end_to_end sampleEnv sampleBuilder.execution_args_ sampleBuilder sampleVar
      sampleConstant43 102 "op_x" Attrs.other sampleConverter 8 5 []
      { network :=
          { nodes := [NetworkNode.input "tensorrt_input0" DataType.kFLOAT [5] 0,
                      NetworkNode.layer "op_x"
                        [TrtOpInput.tensor 0,
                         TrtOpInput.weight
                           { type := DataType.kFLOAT,
                             values := some { addr := 0, data := List.range 12 }, count := 12 }
                           [4, 3]] [1]],
            num_tensors := 2, names := [], outputs := [], destroyed := false },
        op_name := "op_x", attrs := Attrs.other,
        trt_weights :=
          [{ type := DataType.kFLOAT, values := some { addr := 0, data := List.range 12 },
             count := 12 }],
        allocated := 1,
        inputs :=
          [TrtOpInput.tensor 0,
           TrtOpInput.weight
             { type := DataType.kFLOAT, values := some { addr := 0, data := List.range 12 },
               count := 12 } [4, 3]],
        outputs := [1] }
      rfl rfl rfl rfl rfl rfl rfl rfl rfl (by decide) rfl rfl rfl rfl rfl
  exact ⟨r, s', params, h, ha, hb, hc, hd, he, hf⟩

/-- Counterexample to C4 as stated (`n = 0`): with a Variable of shape `[5]` the lowering
succeeds and the single network input handed to the converter has shape `[5]`, not `[]`. -/
theorem BuildEngine_end_to_end_rank1 :
    (BuildEngine sampleEnv
      (Expr.call 102 "op_x" [Expr.var rank1Var, Expr.constant sampleConstant43] Attrs.other)
      sampleBuilder).failed = false ∧
    (BuildEngine sampleEnv
      (Expr.call 102 "op_x" [Expr.var rank1Var, Expr.constant sampleConstant43] Attrs.other)
      sampleBuilder).state.converter_calls.map (fun p => p.network.inputs)
      = [[("tensorrt_input0", [5])]] ∧
    (BuildEngine sampleEnv
      (Expr.call 102 "op_x" [Expr.var rank1Var, Expr.constant sampleConstant43] Attrs.other)
      sampleBuilder).state.converter_calls.map (fun p => p.network.inputs)
      ≠ [[("tensorrt_input0", [])]] := by
  decide

/-- C5. Transpose-of-variable scenario: let `op_w` be a registered converter with the single
declared input kind weight that succeeds, and let the execution argument bound to the variable
be a float tensor of shape `[c,k]` (`c*k` within `int`) that materialises. Lowering
`Call(op_w, Call(transpose, Var, axes=[1,0]))` materialises the execution argument as weight
data, records as the cache entry of the transpose call a single weight slot of shape `[k,c]`
holding the matrix transpose of that data, and passes exactly that slot to the converter; the
converter receives the network as it was before the call (no input was declared) and no input
binding is recorded. -/
theorem VisitExpr_transpose_of_variable (env : Env) (root t : Nat) (op : String)
    (attrs : Attrs) (node : VarNode) (conv : TrtOpConverter) (s : TensorRTBuilder)
    (c k : Nat) (idx : Int) (arg : DLTensor) (dtype : DLDataType)
    (hroot : mapFind s.node_output_map_ root = none) (hrt : root ≠ t)
    (hreg : env.GetOpConverters op = some conv)
    (hkinds : conv.input_types = [TrtInputType.kWeight])
    (hfixed : conv.variable_input_count = false)
    (hconv : ∀ p, (conv.Convert p).isSome)
    (hN : c * k < 2147483648)
    (hidx : TrackVarNode env node s = Result.ok idx s)
    (harg : readAt s.execution_args_ idx = some arg)
    (hdev : arg.device_type = kDLGPU) (hcode : arg.dtype.code = kDLFloat)
    (hshape : arg.shape = [(c : Int), k]) (hdata : arg.data.length = c * k)
    (hsize : env.GetDataSize arg = 4 * (c * k))
    (hcopy : env.TVMArrayCopyToBytes arg (4 * (c * k)) = 0)
    (htype : node.checked_type = RelayType.tensor [(c : Int), k] dtype) :
    ∃ (out : List float) (s' : TensorRTBuilder) (params p' : AddTrtLayerParams),
      VisitExpr env
        (Expr.call root op
          [Expr.call t "transpose" [Expr.var node] (Attrs.transpose [1, 0])] attrs) s
        = Result.ok () s' ∧
      out.length = c * k ∧
      (∀ i j, i < c → j < k → out.get? (j * c + i) = arg.data.get? (i * k + j)) ∧
      mapFind s'.node_output_map_ t =
        some [TrtOpInput.weight
          { type := DataType.kFLOAT, values := some { addr := s.allocated + 1, data := out },
            count := c * k } [(k : Int), c]] ∧
      s'.converter_calls = s.converter_calls ++ [params] ∧
      params.inputs =
        [TrtOpInput.weight
          { type := DataType.kFLOAT, values := some { addr := s.allocated + 1, data := out },
            count := c * k } [(k : Int), c]] ∧
      params.trt_weights = s.trt_weights_ ++
        [{ type := DataType.kFLOAT, values := some { addr := s.allocated, data := arg.data },
           count := c * k },
         { type := DataType.kFLOAT, values := some { addr := s.allocated + 1, data := out },
           count := c * k }] ∧
      params.network = s.network_ ∧
      conv.Convert params = some p' ∧
      s'.network_ = p'.network ∧
      s'.network_input_map_ = s.network_input_map_ := by
  have hprod : arg.shape.prod = ((c * k : Nat) : Int) := by
    rw [hshape]; simp
  obtain ⟨out, hout, hlen, hget⟩ := TransposeWeights2D_spec c k arg.data
    (List.replicate (c * k) 0) hN hdata (by simp)
  have hrun := GetInputAsTransposedWeights_ok env t node s (c * k)
    [(c : Int), k] [1, 0] [1, 0] [(k : Int), c] idx arg dtype out hN hidx
    harg hdev hcode hprod hdata hsize hcopy htype
    (by simp [readAxes, readAt, wrapInt32])
    (performTranspose_10 _ _ _ out hout)
  have hk0 : conv.input_types.get? 0 = some TrtInputType.kWeight := by rw [hkinds]; rfl
  obtain ⟨p', hp'⟩ := Option.isSome_iff_exists.1 (hconv
    { network := s.network_, op_name := op, attrs := attrs,
      trt_weights := s.trt_weights_ ++
        [{ type := DataType.kFLOAT, values := some { addr := s.allocated, data := arg.data },
           count := c * k },
         { type := DataType.kFLOAT, values := some { addr := s.allocated + 1, data := out },
           count := c * k }],
      allocated := s.allocated + 2,
      inputs :=
        [TrtOpInput.weight
          { type := DataType.kFLOAT, values := some { addr := s.allocated + 1, data := out },
            count := c * k } [(k : Int), c]],
      outputs := [] })
  rw [VisitExpr_call_fresh env root op _ attrs conv _ hroot hreg]
  simp only [bind_apply]
  rw [VisitArgs_cons_weight env conv 0 _ _ _ hfixed hk0]
  simp only [bind_apply, materializeWeightArg, if_true, List.get?_cons_zero, hrun, VisitArgs_nil,
    List.map_cons, List.map_nil, Expr.ptr]
  rw [convertCall_ok conv root op attrs _ _
    [TrtOpInput.weight
      { type := DataType.kFLOAT, values := some { addr := s.allocated + 1, data := out },
        count := c * k } [(k : Int), c]] p'
    (by
      rw [gatherInputs_cons _ _ _
        [TrtOpInput.weight
          { type := DataType.kFLOAT, values := some { addr := s.allocated + 1, data := out },
            count := c * k } [(k : Int), c]] _ (mapFind_mapAssign_self _ _ _), gatherInputs_nil]
      rfl)
    hfixed (by rw [hkinds]; rfl) hp']
  refine ⟨out, _, _, p', rfl, hlen, hget, ?_, rfl, rfl, rfl, rfl, hp', rfl, rfl⟩
  simp only [mapFind_mapAssign_ne _ _ _ _ hrt, mapFind_mapAssign_self]


/-- Witness of C5: `Var(1)` is bound to the `[2,3]` execution argument `[10..15]`. -/
theorem VisitExpr_transpose_of_variable_witness :
    ∃ (out : List float) (s' : TensorRTBuilder) (params : AddTrtLayerParams),
      VisitExpr sampleEnv
        (Expr.call 103 "op_w"
          [Expr.call 7 "transpose" [Expr.var sampleVar2D] (Attrs.transpose [1, 0])] Attrs.other)
        sampleBuilder = Result.ok () s' ∧
      (∀ i j, i < 2 → j < 3 → out.get? (j * 2 + i) = [10, 11, 12, 13, 14, 15].get? (i * 3 + j)) ∧
      mapFind s'.node_output_map_ 7 =
        some [TrtOpInput.weight
          { type := DataType.kFLOAT, values := some { addr := 1, data := out }, count := 6 }
          [3, 2]] ∧
      s'.converter_calls = [params] ∧
      params.network = INetworkDefinition.create ∧
      s'.network_input_map_ = [] := by
  obtain ⟨out, s', params, p', h, _, hget, hcache, hcalls, _, _, hnet, _, _, hmap⟩ :=
    VisitExpr_transpose_of_variable sampleEnv 103 7 "op_w" Attrs.other sampleVar2D
      sampleWeightConverter sampleBuilder 2 3 1
      { data := [10, 11, 12, 13, 14, 15], device_type := kDLGPU, dtype := float32,
        shape := [2, 3] } float32
      rfl (by decide) rfl rfl rfl (fun _ => rfl) (by decide) rfl rfl rfl rfl rfl rfl rfl rfl rfl
  exact ⟨out, s', params, h, hget, hcache, hcalls, hnet, hmap⟩


/-! ## Failures that leave the builder untouched (C11, C14, C20) -/

/-- C11. Unsupported-type rejection is atomic: for a tensor whose element type code is not
float, `GetDLTensorAsWeights` stops with a fatal error before anything is allocated, and the
builder state it leaves is the state before the call: no array was allocated, `trt_weights_`,
the node output cache and the target network are unchanged. -/
theorem GetDLTensorAsWeights_non_float_atomic (env : Env) (dptr : DLTensor)
    (src_device : Nat) (s : TensorRTBuilder) (hcode : dptr.dtype.code ≠ kDLFloat) :
    ∃ msg, GetDLTensorAsWeights env dptr src_device s = Result.error (Err.fatal msg) s ∧
      (GetDLTensorAsWeights env dptr src_device s).state.allocated = s.allocated ∧
      (GetDLTensorAsWeights env dptr src_device s).state.trt_weights_ = s.trt_weights_ ∧
      (GetDLTensorAsWeights env dptr src_device s).state.node_output_map_
        = s.node_output_map_ ∧
      (GetDLTensorAsWeights env dptr src_device s).state.network_ = s.network_ := by
  by_cases hdev : dptr.device_type = src_device
  · have h : GetDLTensorAsWeights env dptr src_device s = Result.error
        (Err.fatal "Check failed: static_cast<int>(dptr->dtype.code) == kDLFloat") s := by
      rw [GetDLTensorAsWeights_eq]; simp [hdev, hcode]
    exact ⟨_, h, by rw [h]; exact ⟨rfl, rfl, rfl, rfl⟩⟩
  · have h : GetDLTensorAsWeights env dptr src_device s = Result.error
        (Err.fatal "Check failed: dptr->ctx.device_type == src_device") s := by
      rw [GetDLTensorAsWeights_eq]; simp [hdev]
    exact ⟨_, h, by rw [h]; exact ⟨rfl, rfl, rfl, rfl⟩⟩

/-- Witness of C11 on a tensor of 32-bit integers. -/
theorem GetDLTensorAsWeights_non_float_atomic_witness :
    ∃ msg, GetDLTensorAsWeights sampleEnv intTensor kDLGPU sampleBuilder
        = Result.error (Err.fatal msg) sampleBuilder := by
  obtain ⟨msg, h, _⟩ :=
    GetDLTensorAsWeights_non_float_atomic sampleEnv intTensor kDLGPU sampleBuilder (by decide)
  exact ⟨msg, h⟩

/-- C14. Unsupported operator: lowering a Call (not yet in the cache) whose operator name has
no entry in the converter registry stops with the fatal unsupported-operator error before any
argument is lowered or materialised; the builder state it leaves is the state before the
call, so the node output cache, `trt_weights_`, the input bindings and the target network are
unchanged. -/
theorem VisitExpr_unsupported_operator (env : Env) (call : Nat) (op : String)
    (args : List Expr) (attrs : Attrs) (s : TensorRTBuilder)
    (hfresh : mapFind s.node_output_map_ call = none)
    (hreg : env.GetOpConverters op = none) :
    VisitExpr env (Expr.call call op args attrs) s =
      Result.error (Err.fatal ("Unsupported operator conversion to TRT, op name: " ++ op)) s ∧
    (VisitExpr env (Expr.call call op args attrs) s).state.node_output_map_
      = s.node_output_map_ ∧
    (VisitExpr env (Expr.call call op args attrs) s).state.trt_weights_ = s.trt_weights_ ∧
    (VisitExpr env (Expr.call call op args attrs) s).state.network_input_map_
      = s.network_input_map_ ∧
    (VisitExpr env (Expr.call call op args attrs) s).state.network_ = s.network_ := by
  have h : VisitExpr env (Expr.call call op args attrs) s =
      Result.error (Err.fatal ("Unsupported operator conversion to TRT, op name: " ++ op)) s := by
    rw [VisitExpr, memoized_fresh _ _ _ hfresh]
    simp only [hreg, raise_apply]
  exact ⟨h, by rw [h]; exact ⟨rfl, rfl, rfl, rfl⟩⟩

/-- Witness of C14 on a call to an operator that is not registered. -/
theorem VisitExpr_unsupported_operator_witness :
    VisitExpr sampleEnv (Expr.call 102 "nn.unknown" [Expr.var sampleVar] Attrs.other)
        sampleBuilder =
      Result.error (Err.fatal "Unsupported operator conversion to TRT, op name: nn.unknown")
        sampleBuilder :=
  (VisitExpr_unsupported_operator sampleEnv 102 "nn.unknown" [Expr.var sampleVar] Attrs.other
    sampleBuilder rfl rfl).1

/-- C20. Variable type validation and binding: let the name of the Variable encode the index
`i`. If its type is not a 32-bit float tensor type, visiting it as a tensor input stops with a
fatal error and leaves the builder state as it was (no network input, no binding, no cache
entry). If it is, the visit succeeds, adds exactly one node to the network, an input with the
name of the Variable, binds `i` to that name, and the cache entry of the Variable is the
single tensor slot of that input. -/
theorem VisitExpr_VarNode_validates_type (env : Env) (node : VarNode) (s : TensorRTBuilder)
    (i : Int) (hidx : TrackVarNode env node s = Result.ok i s) :
    ((¬ ∃ shape, node.checked_type =
        RelayType.tensor shape { code := kDLFloat, bits := 32, lanes := 1 }) →
      ∃ msg, VisitExpr_VarNode env node s = Result.error (Err.fatal msg) s) ∧
    (∀ shape, node.checked_type =
        RelayType.tensor shape { code := kDLFloat, bits := 32, lanes := 1 } →
      ∃ s' dims, VisitExpr_VarNode env node s = Result.ok () s' ∧
        s'.network_.nodes = s.network_.nodes ++
          [NetworkNode.input node.name_hint DataType.kFLOAT dims s.network_.num_tensors] ∧
        s'.network_.inputs = s.network_.inputs ++ [(node.name_hint, dims)] ∧
        mapFind s'.network_input_map_ i = some node.name_hint ∧
        mapFind s'.node_output_map_ node.ptr
          = some [TrtOpInput.tensor s.network_.num_tensors]) := by
  constructor
  · intro hnot
    unfold VisitExpr_VarNode
    cases htype : node.checked_type with
    | other =>
      exact ⟨"GetShape: not a tensor type", by
        simp only [bind_apply, hidx, GetShape, raise_apply]⟩
    | tensor shape dtype =>
      have hne : TypeMatch dtype kDLFloat 32 = false := by
        cases hm : TypeMatch dtype kDLFloat 32 with
        | false => rfl
        | true =>
          exfalso
          apply hnot
          refine ⟨shape, ?_⟩
          obtain ⟨code, bits, lanes⟩ := dtype
          simp only [TypeMatch, Bool.and_eq_true, beq_iff_eq] at hm
          obtain ⟨⟨h1, h2⟩, h3⟩ := hm
          subst h1 h2 h3
          rw [htype]
      exact ⟨"Only FP32 inputs are supported.", by
        simp only [bind_apply, hidx, GetShape, pure_apply, hne, CHECK_apply,
          Bool.false_eq_true, if_false]⟩
  · intro shape htype
    have h := VisitExpr_VarNode_ok env node s shape i htype hidx
    refine ⟨_, (if shape.length > 1 then shape.tail else shape), h, ?_, ?_, ?_, ?_⟩
    · simp [INetworkDefinition.addInput]
    · simp [inputs_addInput]
    · simp [mapFind_mapAssign_self]
    · simp [mapFind_mapAssign_self]

/-- Witness of C20 on the `float32` variable `tensorrt_input0` of shape `[8, 5]`. -/
theorem VisitExpr_VarNode_validates_type_witness :
    ∃ (s' : TensorRTBuilder) (dims : List Int),
      VisitExpr_VarNode sampleEnv sampleVar sampleBuilder = Result.ok () s' ∧
      s'.network_.inputs = [("tensorrt_input0", dims)] ∧
      mapFind s'.network_input_map_ 0 = some "tensorrt_input0" ∧
      mapFind s'.node_output_map_ 100 = some [TrtOpInput.tensor 0] := by
  obtain ⟨s', dims, h, _, h2, h3, h4⟩ :=
    (VisitExpr_VarNode_validates_type sampleEnv sampleVar sampleBuilder 0 rfl).2 [8, 5] rfl
  exact ⟨s', dims, h, h2, h3, h4⟩

/-! ## Marking the outputs (C15) -/

theorem outputNames_length (i k : Nat) : (outputNames i k).length = k := by
  simp [outputNames]

theorem outputNames_get (i k j : Nat) (h : j < k) :
    (outputNames i k).get? j = some ("tensorrt_output" ++ toString (i + j)) := by
  simp [outputNames, List.getElem?_map, List.getElem?_range h]

/-- C15 (amended). Output-binding completeness: when the traversal of the root succeeds and
leaves the `k` tensor slots `ts` as the cache entry of the root, and the engine reports as many
bindings as there are bound inputs and outputs, `BuildEngine` returns, marks exactly the `k`
tensors of `ts` as network outputs, in slot order, and returns `k` output names whose `i`-th
entry (0-based) is `tensorrt_output` followed by the decimal digits of `i`. -/
theorem BuildEngine_output_names (env : Env) (expr : Expr) (s s1 : TensorRTBuilder)
    (ts : List ITensor)
    (hvisit : VisitExpr env expr s = Result.ok () s1)
    (hroot : mapFind s1.node_output_map_ expr.ptr = some (ts.map TrtOpInput.tensor))
    (hbind : env.getNbBindings (markedNetwork s1.network_ ts 0)
      = s1.network_input_map_.length + ts.length) :
    ∃ (r : TrtEngineAndContext) (s' : TensorRTBuilder),
      BuildEngine env expr s = Result.ok r s' ∧
      s'.network_.outputs = s1.network_.outputs ++ ts ∧
      r.network_output_names.length = ts.length ∧
      ∀ i, i < ts.length →
        r.network_output_names.get? i = some ("tensorrt_output" ++ toString i) := by
  unfold BuildEngine
  simp only [bind_apply, hvisit, cacheFind, hroot, markOutputs_tensors, getState_apply,
    CHECK_apply, hbind, List.length_map, beq_self_eq_true, if_true, CleanUp, modifyState_apply,
    pure_apply, List.nil_append]
  refine ⟨_, _, rfl, markedNetwork_outputs _ _ _, outputNames_length _ _, ?_⟩
  intro i hi
  have := outputNames_get 0 ts.length i hi
  simpa using this

/-- Witness of C15 on the lowering of `op_x(tensorrt_input0, constant)`. -/
theorem BuildEngine_output_names_witness :
    ∃ (r : TrtEngineAndContext) (s' : TensorRTBuilder),
      BuildEngine sampleEnv sampleCall sampleBuilder = Result.ok r s' ∧
      s'.network_.outputs = [1] ∧
      r.network_output_names.length = 1 := by
  obtain ⟨r, s', h, h1, h2, _⟩ :=
    BuildEngine_output_names sampleEnv sampleCall sampleBuilder
      (VisitExpr sampleEnv sampleCall sampleBuilder).state [1] rfl rfl rfl
  exact ⟨r, s', h, h1, h2⟩

/-- Counterexample to C15 as stated: the name of the single output of the lowering of
`op_x(tensorrt_input0, constant)` is `tensorrt_output0`, not `output_0`. -/
theorem BuildEngine_output_name_not_output_0 :
    ((BuildEngine sampleEnv sampleCall sampleBuilder).value?.map
      fun r => r.network_output_names) = some ["tensorrt_output0"] ∧
    ((BuildEngine sampleEnv sampleCall sampleBuilder).value?.map
      fun r => r.network_output_names) ≠ some ["output_0"] := by
  decide

/-! ## Entries of the node output cache are never removed -/

theorem Preserves_pure {R : TensorRTBuilder → TensorRTBuilder → Prop} {α : Type}
    (hrefl : ∀ s, R s s) (a : α) : Preserves R (pure a : M α) :=
  fun s => hrefl s

theorem Preserves_raise {R : TensorRTBuilder → TensorRTBuilder → Prop} {α : Type}
    (hrefl : ∀ s, R s s) (e : Err) : Preserves R (raise e : M α) :=
  fun s => hrefl s

theorem Preserves_bind {R : TensorRTBuilder → TensorRTBuilder → Prop} {α β : Type}
    (htrans : ∀ s1 s2 s3, R s1 s2 → R s2 s3 → R s1 s3) {x : M α} {f : α → M β}
    (hx : Preserves R x) (hf : ∀ a, Preserves R (f a)) : Preserves R (x >>= f) := by
  intro s
  have h1 := hx s
  simp only [bind_apply]
  cases h : x s with
  | ok a s1 =>
    rw [h] at h1
    exact htrans _ _ _ h1 (hf a s1)
  | error e s1 =>
    rw [h] at h1
    exact h1

theorem Preserves_CHECK {R : TensorRTBuilder → TensorRTBuilder → Prop}
    (hrefl : ∀ s, R s s) (cond : Bool) (msg : String) : Preserves R (CHECK cond msg) := by
  intro s
  rw [CHECK_apply]
  split <;> exact hrefl s

theorem Preserves_getState {R : TensorRTBuilder → TensorRTBuilder → Prop}
    (hrefl : ∀ s, R s s) : Preserves R getState :=
  fun s => hrefl s

theorem Preserves_defined {R : TensorRTBuilder → TensorRTBuilder → Prop} {α : Type}
    (hrefl : ∀ s, R s s) (x : Option α) (what : String) : Preserves R (defined x what) := by
  intro s
  cases x <;> exact hrefl s

theorem Preserves_cacheFind {R : TensorRTBuilder → TensorRTBuilder → Prop}
    (hrefl : ∀ s, R s s) (ptr : Nat) : Preserves R (cacheFind ptr) :=
  fun s => hrefl s

theorem Preserves_modifyState {R : TensorRTBuilder → TensorRTBuilder → Prop}
    (f : TensorRTBuilder → TensorRTBuilder) (hf : ∀ s, R s (f s)) :
    Preserves R (modifyState f) :=
  fun s => hf s

theorem Preserves_memoized {R : TensorRTBuilder → TensorRTBuilder → Prop}
    (hrefl : ∀ s, R s s) (ptr : Nat) {visit : M Unit} (hv : Preserves R visit) :
    Preserves R (memoized ptr visit) := by
  intro s
  unfold memoized
  simp only [bind_apply, cacheFind]
  cases mapFind s.node_output_map_ ptr with
  | none => exact hv s
  | some slots => exact hrefl s

theorem KeysLe_refl (s : TensorRTBuilder) : KeysLe s s := fun _ h => h

theorem KeysLe_trans (s1 s2 s3 : TensorRTBuilder) (h12 : KeysLe s1 s2) (h23 : KeysLe s2 s3) :
    KeysLe s1 s3 := fun p h => h23 p (h12 p h)

theorem KeysLe_of_cache_eq (s s' : TensorRTBuilder)
    (h : s'.node_output_map_ = s.node_output_map_) : KeysLe s s' := by
  intro p hp
  unfold cached at *
  rw [h]; exact hp

theorem cached_mapAssign (m : List (Nat × List TrtOpInput)) (key p : Nat)
    (value : List TrtOpInput) (h : (mapFind m p).isSome = true) :
    (mapFind (mapAssign m key value) p).isSome = true := by
  by_cases hk : key = p
  · subst hk; rw [mapFind_mapAssign_self]; rfl
  · rw [mapFind_mapAssign_ne _ _ _ _ hk]; exact h

theorem mapFind_append_of_some {κ β : Type} [DecidableEq κ] (m m' : List (κ × β)) (p : κ)
    (h : (mapFind m p).isSome = true) : mapFind (m ++ m') p = mapFind m p := by
  unfold mapFind at *
  rw [List.find?_append]
  cases hf : List.find? (fun e => e.1 == p) m with
  | none => simp [hf] at h
  | some e => simp

theorem KeysLe_cacheAssign (ptr : Nat) (slots : List TrtOpInput) :
    Preserves KeysLe (cacheAssign ptr slots) := by
  intro s p hp
  exact cached_mapAssign _ _ _ _ hp

theorem KeysLe_cacheIndex (ptr : Nat) : Preserves KeysLe (cacheIndex ptr) := by
  intro s p hp
  unfold cacheIndex
  cases h : mapFind s.node_output_map_ ptr with
  | some slots => exact hp
  | none =>
    unfold cached at *
    simp only [Result.state]
    rw [mapFind_append_of_some _ _ _ hp]
    exact hp

theorem KeysLe_GetDLTensorAsWeights (env : Env) (dptr : DLTensor) (src_device : Nat) :
    Preserves KeysLe (GetDLTensorAsWeights env dptr src_device) := by
  intro s
  rcases GetDLTensorAsWeights_cases env dptr src_device s with ⟨w, s1, h, hc⟩ | ⟨e, s1, h, hc⟩
  · rw [h]; exact KeysLe_of_cache_eq _ _ hc
  · rw [h]; exact KeysLe_of_cache_eq _ _ hc

theorem KeysLe_TrackVarNode (env : Env) (node : VarNode) :
    Preserves KeysLe (TrackVarNode env node) := by
  intro s
  rcases TrackVarNode_cases env node s with ⟨idx, h⟩ | ⟨e, h⟩ <;> rw [h] <;> exact KeysLe_refl s

theorem KeysLe_GetShape (type : RelayType) : Preserves KeysLe (GetShape type) := by
  intro s
  cases type <;> exact KeysLe_refl s

theorem KeysLe_GetInputAsWeights (env : Env) (node : VarNode) :
    Preserves KeysLe (GetInputAsWeights env node) := by
  unfold GetInputAsWeights
  refine Preserves_bind KeysLe_trans (KeysLe_TrackVarNode env node) fun idx => ?_
  refine Preserves_bind KeysLe_trans (Preserves_getState KeysLe_refl) fun st => ?_
  refine Preserves_bind KeysLe_trans (Preserves_defined KeysLe_refl _ _) fun arg => ?_
  refine Preserves_bind KeysLe_trans (KeysLe_GetDLTensorAsWeights env arg _) fun w => ?_
  refine Preserves_bind KeysLe_trans (KeysLe_GetShape _) fun shape => ?_
  exact KeysLe_cacheAssign _ _

theorem KeysLe_GetConstantAsWeights (env : Env) (node : ConstantNode) :
    Preserves KeysLe (GetConstantAsWeights env node) := by
  unfold GetConstantAsWeights GetNdArrayAsWeights
  refine Preserves_bind KeysLe_trans (KeysLe_GetDLTensorAsWeights env _ _) fun w => ?_
  exact KeysLe_cacheAssign _ _


theorem KeysLe_newFloatArray (count : Nat) : Preserves KeysLe (newFloatArray count) :=
  fun _ => KeysLe_of_cache_eq _ _ rfl

theorem Preserves_performTranspose {R : TensorRTBuilder → TensorRTBuilder → Prop}
    (hrefl : ∀ s, R s s) (htrans : ∀ s1 s2 s3, R s1 s2 → R s2 s3 → R s1 s3)
    (order shape : List Int) (original_values values : List float) :
    Preserves R (performTranspose order shape original_values values) := by
  unfold performTranspose
  split
  · refine Preserves_bind htrans (Preserves_defined hrefl _ _) fun _ => ?_
    refine Preserves_bind htrans (Preserves_defined hrefl _ _) fun _ => ?_
    refine Preserves_bind htrans (Preserves_defined hrefl _ _) fun _ => ?_
    exact Preserves_defined hrefl _ _
  · split
    · refine Preserves_bind htrans (Preserves_defined hrefl _ _) fun _ => ?_
      refine Preserves_bind htrans (Preserves_defined hrefl _ _) fun _ => ?_
      refine Preserves_bind htrans (Preserves_defined hrefl _ _) fun _ => ?_
      exact Preserves_defined hrefl _ _
    · split
      · exact Preserves_defined hrefl _ _
      · exact Preserves_raise hrefl _

theorem KeysLe_GetInputAsTransposedWeights (env : Env) (transpose : Nat) (attrs : Attrs)
    (node : VarNode) : Preserves KeysLe (GetInputAsTransposedWeights env transpose attrs node) := by
  unfold GetInputAsTransposedWeights
  refine Preserves_bind KeysLe_trans (KeysLe_GetInputAsWeights env node) fun _ => ?_
  refine Preserves_bind KeysLe_trans (KeysLe_cacheIndex _) fun _ => ?_
  refine Preserves_bind KeysLe_trans (Preserves_CHECK KeysLe_refl _ _) fun _ => ?_
  refine Preserves_bind KeysLe_trans (KeysLe_cacheIndex _) fun slots => ?_
  have htail : ∀ (w : Weights) (shape : List Int) (original_values : List float)
      (values : Buffer) (axes : List Int),
      Preserves KeysLe (do
        let __discr ← defined (readAxes shape axes) "shape[axis]"
        match __discr with
          | (order, new_shape) => do
            let data ← performTranspose order shape original_values values.data
            let transposed_weight : Weights :=
              { type := DataType.kFLOAT, values := some { values with data := data },
                count := w.count }
            modifyState fun s => { s with trt_weights_ := s.trt_weights_ ++ [transposed_weight] }
            cacheAssign transpose [TrtOpInput.weight transposed_weight new_shape] : M Unit) := by
    intro w shape original_values values axes
    refine Preserves_bind KeysLe_trans (Preserves_defined KeysLe_refl _ _) fun _ => ?_
    refine Preserves_bind KeysLe_trans
      (Preserves_performTranspose KeysLe_refl KeysLe_trans _ _ _ _) fun _ => ?_
    refine Preserves_bind KeysLe_trans
      (Preserves_modifyState _ fun s => KeysLe_of_cache_eq _ _ rfl) fun _ => ?_
    exact KeysLe_cacheAssign _ _
  have hmid : ∀ (ws : Weights × List Int),
      Preserves KeysLe (
        match ws with
        | (original_weight, shape) => do
          let original_values ←
            defined (original_weight.values.map Buffer.data) "original_weight.values"
          let values ← newFloatArray original_weight.count
          let __do_jp : List Int → M Unit := fun axes => do
            let __discr ← defined (readAxes shape axes) "shape[axis]"
            match __discr with
              | (order, new_shape) => do
                let data ← performTranspose order shape original_values values.data
                let transposed_weight : Weights :=
                  { type := DataType.kFLOAT, values := some { values with data := data },
                    count := original_weight.count }
                modifyState fun s =>
                  { s with trt_weights_ := s.trt_weights_ ++ [transposed_weight] }
                cacheAssign transpose [TrtOpInput.weight transposed_weight new_shape]
          match attrs with
            | Attrs.transpose axes => do
              let y ← pure axes
              __do_jp y
            | Attrs.other => do
              let y ← raise (Err.undefined "transpose->attrs.as<TransposeAttrs>()")
              __do_jp y : M Unit) := by
    rintro ⟨w, shape⟩
    refine Preserves_bind KeysLe_trans (Preserves_defined KeysLe_refl _ _) fun _ => ?_
    refine Preserves_bind KeysLe_trans (KeysLe_newFloatArray _) fun _ => ?_
    cases attrs with
    | transpose axes =>
      exact Preserves_bind KeysLe_trans (Preserves_pure KeysLe_refl _) fun _ => htail _ _ _ _ _
    | other =>
      exact Preserves_bind KeysLe_trans (Preserves_raise KeysLe_refl _) fun _ => htail _ _ _ _ _
  dsimp only
  split
  · exact Preserves_bind KeysLe_trans (Preserves_pure KeysLe_refl _) fun _ => hmid _
  · exact Preserves_bind KeysLe_trans (Preserves_raise KeysLe_refl _) fun _ => hmid _

theorem KeysLe_VisitExpr_VarNode (env : Env) (node : VarNode) :
    Preserves KeysLe (VisitExpr_VarNode env node) := by
  unfold VisitExpr_VarNode
  refine Preserves_bind KeysLe_trans (KeysLe_TrackVarNode env node) fun _ => ?_
  refine Preserves_bind KeysLe_trans (KeysLe_GetShape _) fun _ => ?_
  refine Preserves_bind KeysLe_trans (Preserves_CHECK KeysLe_refl _ _) fun _ => ?_
  refine Preserves_bind KeysLe_trans (fun _ => KeysLe_of_cache_eq _ _ rfl) fun _ => ?_
  refine Preserves_bind KeysLe_trans
    (Preserves_modifyState _ fun s => KeysLe_of_cache_eq _ _ rfl) fun _ => ?_
  exact KeysLe_cacheAssign _ _

theorem KeysLe_VisitExpr_ConstantNode (env : Env) (node : ConstantNode) :
    Preserves KeysLe (VisitExpr_ConstantNode env node) := by
  unfold VisitExpr_ConstantNode GetNdArrayAsWeights
  refine Preserves_bind KeysLe_trans (KeysLe_GetDLTensorAsWeights env _ _) fun _ => ?_
  refine Preserves_bind KeysLe_trans (Preserves_getState KeysLe_refl) fun st => ?_
  dsimp only
  split <;>
    first
    | exact Preserves_raise KeysLe_refl _
    | exact Preserves_bind KeysLe_trans
        (Preserves_modifyState _ fun s => KeysLe_of_cache_eq _ _ rfl)
        fun _ => KeysLe_cacheAssign _ _

theorem KeysLe_materializeWeightArg (env : Env) (arg : Expr) :
    Preserves KeysLe (materializeWeightArg env arg) := by
  unfold materializeWeightArg
  split
  · exact KeysLe_GetInputAsWeights env _
  · exact KeysLe_GetConstantAsWeights env _
  · split
    · split
      · exact KeysLe_GetInputAsTransposedWeights env _ _ _
      · exact Preserves_raise KeysLe_refl _
      · exact Preserves_raise KeysLe_refl _
    · exact Preserves_raise KeysLe_refl _
  · exact Preserves_raise KeysLe_refl _

theorem Preserves_gatherInputs {R : TensorRTBuilder → TensorRTBuilder → Prop}
    (hrefl : ∀ s, R s s) (htrans : ∀ s1 s2 s3, R s1 s2 → R s2 s3 → R s1 s3)
    (args : List Nat) : ∀ inputs, Preserves R (gatherInputs args inputs) := by
  induction args with
  | nil => intro inputs; exact Preserves_pure hrefl _
  | cons arg rest ih =>
    intro inputs
    unfold gatherInputs
    refine Preserves_bind htrans (Preserves_cacheFind hrefl _) fun found => ?_
    split
    · exact Preserves_raise hrefl _
    · exact ih _

theorem KeysLe_convertCall (converter : TrtOpConverter) (call : Nat) (op_name : String)
    (attrs : Attrs) (args : List Nat) :
    Preserves KeysLe (convertCall converter call op_name attrs args) := by
  unfold convertCall
  refine Preserves_bind KeysLe_trans (Preserves_gatherInputs KeysLe_refl KeysLe_trans _ _)
    fun inputs => ?_
  refine Preserves_bind KeysLe_trans ?_ fun _ => ?_
  · split
    · exact Preserves_CHECK KeysLe_refl _ _
    · exact Preserves_pure KeysLe_refl _
  refine Preserves_bind KeysLe_trans (Preserves_getState KeysLe_refl) fun st => ?_
  refine Preserves_bind KeysLe_trans
    (Preserves_modifyState _ fun s => KeysLe_of_cache_eq _ _ rfl) fun _ => ?_
  split
  · exact Preserves_raise KeysLe_refl _
  · refine Preserves_bind KeysLe_trans
      (Preserves_modifyState _ fun s => KeysLe_of_cache_eq _ _ rfl) fun _ => ?_
    exact KeysLe_cacheAssign _ _

theorem VisitExpr_projection_eq (env : Env) (op : Nat) (tuple : Expr) (index : Int)
    (hnot : ∀ ptr fields, tuple = Expr.tuple ptr fields → False) :
    VisitExpr env (Expr.tupleGetItem op tuple index) =
      memoized op (VisitExpr env tuple >>= fun _ =>
        cacheIndex tuple.ptr >>= fun slots =>
        defined (readAt slots index) "node_output_map_[op->tuple][op->index]" >>= fun slot =>
        cacheAssign op [slot]) := by
  rw [VisitExpr.eq_6 env op tuple index hnot]

theorem VisitExpr_projection_literal_eq (env : Env) (op ptr : Nat) (fields : List Expr)
    (index : Int) :
    VisitExpr env (Expr.tupleGetItem op (Expr.tuple ptr fields) index) =
      memoized op (defined (readAt fields index) "tuple->fields[op->index]" >>= fun item =>
        VisitNth env fields index.toNat >>= fun _ =>
        cacheIndex item.ptr >>= fun slots =>
        cacheAssign op slots) := by
  rw [VisitExpr]

theorem VisitExpr_tuple_eq (env : Env) (op : Nat) (fields : List Expr) :
    VisitExpr env (Expr.tuple op fields) =
      memoized op (VisitFields env fields [] >>= fun outputs => cacheAssign op outputs) := by
  rw [VisitExpr]

theorem VisitExpr_call_eq (env : Env) (call : Nat) (op : String) (args : List Expr)
    (attrs : Attrs) (converter : TrtOpConverter) (h : env.GetOpConverters op = some converter) :
    VisitExpr env (Expr.call call op args attrs) =
      memoized call (VisitArgs env converter 0 args >>= fun _ =>
        convertCall converter call op attrs (args.map Expr.ptr)) := by
  rw [VisitExpr]; simp only [h]

theorem VisitExpr_call_unregistered_eq (env : Env) (call : Nat) (op : String)
    (args : List Expr) (attrs : Attrs) (h : env.GetOpConverters op = none) :
    VisitExpr env (Expr.call call op args attrs) =
      memoized call
        (raise (Err.fatal ("Unsupported operator conversion to TRT, op name: " ++ op))) := by
  rw [VisitExpr]; simp only [h]

theorem VisitArgs_cons_eq (env : Env) (converter : TrtOpConverter) (i : Nat) (arg : Expr)
    (rest : List Expr) :
    VisitArgs env converter i (arg :: rest) =
      (if converter.variable_input_count then VisitExpr env arg
        else
          match converter.input_types.get? i with
          | none => raise (Err.undefined "converter->input_types[i]")
          | some t =>
            if t ≠ TrtInputType.kWeight then VisitExpr env arg
            else materializeWeightArg env arg) >>= fun _ =>
      VisitArgs env converter (i + 1) rest := by
  rw [VisitArgs]

theorem VisitFields_cons_eq (env : Env) (item : Expr) (rest : List Expr)
    (outputs : List TrtOpInput) :
    VisitFields env (item :: rest) outputs =
      VisitExpr env item >>= fun _ =>
        cacheIndex item.ptr >>= fun item_outputs =>
        VisitFields env rest (outputs ++ item_outputs) := by
  rw [VisitFields]

theorem KeysLe_projection (env : Env) (op : Nat) (tuple : Expr) (index : Int)
    (hnot : ∀ ptr fields, tuple = Expr.tuple ptr fields → False)
    (ih : Preserves KeysLe (VisitExpr env tuple)) :
    Preserves KeysLe (VisitExpr env (Expr.tupleGetItem op tuple index)) := by
  rw [VisitExpr_projection_eq env op tuple index hnot]
  refine Preserves_memoized KeysLe_refl _ ?_
  refine Preserves_bind KeysLe_trans ih fun _ => ?_
  refine Preserves_bind KeysLe_trans (KeysLe_cacheIndex _) fun _ => ?_
  refine Preserves_bind KeysLe_trans (Preserves_defined KeysLe_refl _ _) fun _ => ?_
  exact KeysLe_cacheAssign _ _

mutual
theorem KeysLe_VisitExpr (env : Env) : ∀ e : Expr, Preserves KeysLe (VisitExpr env e)
  | .var node => by
    rw [VisitExpr]
    exact Preserves_memoized KeysLe_refl _ (KeysLe_VisitExpr_VarNode env node)
  | .constant node => by
    rw [VisitExpr]
    exact Preserves_memoized KeysLe_refl _ (KeysLe_VisitExpr_ConstantNode env node)
  | .call call op args attrs => by
    cases h : env.GetOpConverters op with
    | none =>
      rw [VisitExpr_call_unregistered_eq env call op args attrs h]
      exact Preserves_memoized KeysLe_refl _ (Preserves_raise KeysLe_refl _)
    | some converter =>
      rw [VisitExpr_call_eq env call op args attrs converter h]
      exact Preserves_memoized KeysLe_refl _
        (Preserves_bind KeysLe_trans (KeysLe_VisitArgs env converter 0 args)
          fun _ => KeysLe_convertCall _ _ _ _ _)
  | .tuple op fields => by
    rw [VisitExpr_tuple_eq]
    exact Preserves_memoized KeysLe_refl _
      (Preserves_bind KeysLe_trans (KeysLe_VisitFields env fields [])
        fun _ => KeysLe_cacheAssign _ _)
  | .tupleGetItem op (.tuple ptr fields) index => by
    rw [VisitExpr_projection_literal_eq]
    refine Preserves_memoized KeysLe_refl _ ?_
    refine Preserves_bind KeysLe_trans (Preserves_defined KeysLe_refl _ _) fun _ => ?_
    refine Preserves_bind KeysLe_trans (KeysLe_VisitNth env fields _) fun _ => ?_
    refine Preserves_bind KeysLe_trans (KeysLe_cacheIndex _) fun _ => ?_
    exact KeysLe_cacheAssign _ _
  | .tupleGetItem op (.var node) index =>
    KeysLe_projection env op _ index (fun _ _ h => Expr.noConfusion h)
      (KeysLe_VisitExpr env (.var node))
  | .tupleGetItem op (.constant node) index =>
    KeysLe_projection env op _ index (fun _ _ h => Expr.noConfusion h)
      (KeysLe_VisitExpr env (.constant node))
  | .tupleGetItem op (.call call o args attrs) index =>
    KeysLe_projection env op _ index (fun _ _ h => Expr.noConfusion h)
      (KeysLe_VisitExpr env (.call call o args attrs))
  | .tupleGetItem op (.tupleGetItem p t i) index =>
    KeysLe_projection env op _ index (fun _ _ h => Expr.noConfusion h)
      (KeysLe_VisitExpr env (.tupleGetItem p t i))
theorem KeysLe_VisitArgs (env : Env) (converter : TrtOpConverter) :
    ∀ (i : Nat) (args : List Expr), Preserves KeysLe (VisitArgs env converter i args)
  | _, [] => by
    rw [VisitArgs]
    exact Preserves_pure KeysLe_refl _
  | i, arg :: rest => by
    rw [VisitArgs_cons_eq]
    refine Preserves_bind KeysLe_trans ?_ fun _ => KeysLe_VisitArgs env converter (i + 1) rest
    split
    · exact KeysLe_VisitExpr env arg
    · split
      · exact Preserves_raise KeysLe_refl _
      · split
        · exact KeysLe_VisitExpr env arg
        · exact KeysLe_materializeWeightArg env arg
theorem KeysLe_VisitFields (env : Env) :
    ∀ (fields : List Expr) (outputs : List TrtOpInput),
      Preserves KeysLe (VisitFields env fields outputs)
  | [], _ => by
    rw [VisitFields]
    exact Preserves_pure KeysLe_refl _
  | item :: rest, outputs => by
    rw [VisitFields_cons_eq]
    refine Preserves_bind KeysLe_trans (KeysLe_VisitExpr env item) fun _ => ?_
    refine Preserves_bind KeysLe_trans (KeysLe_cacheIndex _) fun _ => ?_
    exact KeysLe_VisitFields env rest _
theorem KeysLe_VisitNth (env : Env) :
    ∀ (fields : List Expr) (n : Nat), Preserves KeysLe (VisitNth env fields n)
  | [], _ => by
    rw [VisitNth]
    exact Preserves_raise KeysLe_refl _
  | item :: _, 0 => by
    rw [VisitNth]
    exact KeysLe_VisitExpr env item
  | _ :: rest, n + 1 => by
    rw [VisitNth]
    exact KeysLe_VisitNth env rest n
end

/-! ## Every lowered node has a cache entry (C17) -/

theorem Caches_raise (ptr : Nat) {α : Type} (e : Err) : Caches ptr (raise e : M α) := by
  intro s a s' h
  simp [raise_apply] at h

theorem Caches_bind (ptr : Nat) {α β : Type} (x : M α) (f : α → M β)
    (hf : ∀ a, Caches ptr (f a)) : Caches ptr (x >>= f) := by
  intro s b s' h
  simp only [bind_apply] at h
  cases hx : x s with
  | ok a s1 => rw [hx] at h; exact hf a s1 b s' h
  | error e s1 => rw [hx] at h; cases h

theorem Caches_cacheAssign (ptr : Nat) (slots : List TrtOpInput) :
    Caches ptr (cacheAssign ptr slots) := by
  intro s a s' h
  simp only [cacheAssign, modifyState_apply, Result.ok.injEq] at h
  rw [← h.2]
  unfold cached
  simp only
  rw [mapFind_mapAssign_self]; rfl

theorem Caches_memoized (ptr : Nat) (visit : M Unit) (hv : Caches ptr visit) :
    Caches ptr (memoized ptr visit) := by
  intro s a s' h
  unfold memoized at h
  simp only [bind_apply, cacheFind] at h
  cases hf : mapFind s.node_output_map_ ptr with
  | none => rw [hf] at h; exact hv s a s' h
  | some slots =>
    rw [hf] at h
    simp only [pure_apply, Result.ok.injEq] at h
    rw [← h.2]
    unfold cached
    rw [hf]; rfl

theorem Caches_GetInputAsWeights (env : Env) (node : VarNode) :
    Caches node.ptr (GetInputAsWeights env node) := by
  unfold GetInputAsWeights
  refine Caches_bind _ _ _ fun _ => ?_
  refine Caches_bind _ _ _ fun _ => ?_
  refine Caches_bind _ _ _ fun _ => ?_
  refine Caches_bind _ _ _ fun _ => ?_
  refine Caches_bind _ _ _ fun _ => ?_
  exact Caches_cacheAssign _ _

theorem Caches_GetConstantAsWeights (env : Env) (node : ConstantNode) :
    Caches node.ptr (GetConstantAsWeights env node) := by
  unfold GetConstantAsWeights
  refine Caches_bind _ _ _ fun _ => ?_
  exact Caches_cacheAssign _ _

theorem Caches_GetInputAsTransposedWeights (env : Env) (transpose : Nat) (attrs : Attrs)
    (node : VarNode) : Caches transpose (GetInputAsTransposedWeights env transpose attrs node) := by
  unfold GetInputAsTransposedWeights
  refine Caches_bind _ _ _ fun _ => ?_
  refine Caches_bind _ _ _ fun _ => ?_
  refine Caches_bind _ _ _ fun _ => ?_
  refine Caches_bind _ _ _ fun slots => ?_
  have htail : ∀ (w : Weights) (shape : List Int) (original_values : List float)
      (values : Buffer) (axes : List Int),
      Caches transpose (do
        let __discr ← defined (readAxes shape axes) "shape[axis]"
        match __discr with
          | (order, new_shape) => do
            let data ← performTranspose order shape original_values values.data
            let transposed_weight : Weights :=
              { type := DataType.kFLOAT, values := some { values with data := data },
                count := w.count }
            modifyState fun s => { s with trt_weights_ := s.trt_weights_ ++ [transposed_weight] }
            cacheAssign transpose [TrtOpInput.weight transposed_weight new_shape] : M Unit) := by
    intro w shape original_values values axes
    refine Caches_bind _ _ _ fun _ => ?_
    refine Caches_bind _ _ _ fun _ => ?_
    refine Caches_bind _ _ _ fun _ => ?_
    exact Caches_cacheAssign _ _
  have hmid : ∀ (ws : Weights × List Int),
      Caches transpose (
        match ws with
        | (original_weight, shape) => do
          let original_values ←
            defined (original_weight.values.map Buffer.data) "original_weight.values"
          let values ← newFloatArray original_weight.count
          let __do_jp : List Int → M Unit := fun axes => do
            let __discr ← defined (readAxes shape axes) "shape[axis]"
            match __discr with
              | (order, new_shape) => do
                let data ← performTranspose order shape original_values values.data
                let transposed_weight : Weights :=
                  { type := DataType.kFLOAT, values := some { values with data := data },
                    count := original_weight.count }
                modifyState fun s =>
                  { s with trt_weights_ := s.trt_weights_ ++ [transposed_weight] }
                cacheAssign transpose [TrtOpInput.weight transposed_weight new_shape]
          match attrs with
            | Attrs.transpose axes => do
              let y ← pure axes
              __do_jp y
            | Attrs.other => do
              let y ← raise (Err.undefined "transpose->attrs.as<TransposeAttrs>()")
              __do_jp y : M Unit) := by
    rintro ⟨w, shape⟩
    refine Caches_bind _ _ _ fun _ => ?_
    refine Caches_bind _ _ _ fun _ => ?_
    cases attrs with
    | transpose axes => exact Caches_bind _ _ _ fun _ => htail _ _ _ _ _
    | other => exact Caches_bind _ _ _ fun _ => htail _ _ _ _ _
  dsimp only
  split
  · exact Caches_bind _ _ _ fun _ => hmid _
  · exact Caches_bind _ _ _ fun _ => hmid _

theorem Caches_materializeWeightArg (env : Env) (arg : Expr) :
    Caches arg.ptr (materializeWeightArg env arg) := by
  unfold materializeWeightArg
  split
  · exact Caches_GetInputAsWeights env _
  · exact Caches_GetConstantAsWeights env _
  · split
    · split
      · exact Caches_GetInputAsTransposedWeights env _ _ _
      · exact Caches_raise _ _
      · exact Caches_raise _ _
    · exact Caches_raise _ _
  · exact Caches_raise _ _

theorem Caches_VisitExpr_VarNode (env : Env) (node : VarNode) :
    Caches node.ptr (VisitExpr_VarNode env node) := by
  unfold VisitExpr_VarNode
  refine Caches_bind _ _ _ fun _ => ?_
  refine Caches_bind _ _ _ fun _ => ?_
  refine Caches_bind _ _ _ fun _ => ?_
  refine Caches_bind _ _ _ fun _ => ?_
  refine Caches_bind _ _ _ fun _ => ?_
  exact Caches_cacheAssign _ _

theorem Caches_VisitExpr_ConstantNode (env : Env) (node : ConstantNode) :
    Caches node.ptr (VisitExpr_ConstantNode env node) := by
  unfold VisitExpr_ConstantNode
  refine Caches_bind _ _ _ fun _ => ?_
  refine Caches_bind _ _ _ fun st => ?_
  dsimp only
  split <;>
    first
    | exact Caches_raise _ _
    | exact Caches_bind _ _ _ fun _ => Caches_cacheAssign _ _

theorem Caches_convertCall (converter : TrtOpConverter) (call : Nat) (op_name : String)
    (attrs : Attrs) (args : List Nat) :
    Caches call (convertCall converter call op_name attrs args) := by
  unfold convertCall
  refine Caches_bind _ _ _ fun _ => ?_
  refine Caches_bind _ _ _ fun _ => ?_
  refine Caches_bind _ _ _ fun _ => ?_
  refine Caches_bind _ _ _ fun _ => ?_
  split
  · exact Caches_raise _ _
  · exact Caches_bind _ _ _ fun _ => Caches_cacheAssign _ _

theorem Caches_VisitExpr (env : Env) (e : Expr) : Caches e.ptr (VisitExpr env e) := by
  cases e with
  | var node =>
    rw [VisitExpr]
    exact Caches_memoized _ _ (Caches_VisitExpr_VarNode env node)
  | constant node =>
    rw [VisitExpr]
    exact Caches_memoized _ _ (Caches_VisitExpr_ConstantNode env node)
  | call call op args attrs =>
    cases h : env.GetOpConverters op with
    | none =>
      rw [VisitExpr_call_unregistered_eq env call op args attrs h]
      exact Caches_memoized _ _ (Caches_raise _ _)
    | some converter =>
      rw [VisitExpr_call_eq env call op args attrs converter h]
      exact Caches_memoized _ _ (Caches_bind _ _ _ fun _ => Caches_convertCall _ _ _ _ _)
  | tuple op fields =>
    rw [VisitExpr_tuple_eq]
    exact Caches_memoized _ _ (Caches_bind _ _ _ fun _ => Caches_cacheAssign _ _)
  | tupleGetItem op tuple index =>
    have hlit : ∀ ptr fields, Caches op
        (VisitExpr env (Expr.tupleGetItem op (Expr.tuple ptr fields) index)) := by
      intro ptr fields
      rw [VisitExpr_projection_literal_eq]
      refine Caches_memoized _ _ ?_
      refine Caches_bind _ _ _ fun _ => ?_
      refine Caches_bind _ _ _ fun _ => ?_
      exact Caches_bind _ _ _ fun _ => Caches_cacheAssign _ _
    have hother : (∀ ptr fields, tuple = Expr.tuple ptr fields → False) →
        Caches op (VisitExpr env (Expr.tupleGetItem op tuple index)) := by
      intro hnot
      rw [VisitExpr_projection_eq env op tuple index hnot]
      refine Caches_memoized _ _ ?_
      refine Caches_bind _ _ _ fun _ => ?_
      refine Caches_bind _ _ _ fun _ => ?_
      exact Caches_bind _ _ _ fun _ => Caches_cacheAssign _ _
    cases tuple with
    | tuple ptr fields => exact hlit ptr fields
    | var node => exact hother (fun _ _ h => Expr.noConfusion h)
    | constant node => exact hother (fun _ _ h => Expr.noConfusion h)
    | call c o a t => exact hother (fun _ _ h => Expr.noConfusion h)
    | tupleGetItem p t i => exact hother (fun _ _ h => Expr.noConfusion h)

theorem VisitArgs_caches (env : Env) (converter : TrtOpConverter) (args : List Expr) :
    ∀ (i : Nat) (s s' : TensorRTBuilder), VisitArgs env converter i args s = Result.ok () s' →
      ∀ arg ∈ args, cached s' arg.ptr := by
  induction args with
  | nil => intro i s s' _ arg harg; cases harg
  | cons a rest ih =>
    intro i s s' h arg harg
    rw [VisitArgs_cons_eq] at h
    have hc : Caches a.ptr (if converter.variable_input_count then VisitExpr env a
        else
          match converter.input_types.get? i with
          | none => raise (Err.undefined "converter->input_types[i]")
          | some t =>
            if t ≠ TrtInputType.kWeight then VisitExpr env a
            else materializeWeightArg env a) := by
      split
      · exact Caches_VisitExpr env a
      · split
        · exact Caches_raise _ _
        · split
          · exact Caches_VisitExpr env a
          · exact Caches_materializeWeightArg env a
    simp only [bind_apply] at h
    revert h hc
    generalize (if converter.variable_input_count then VisitExpr env a
        else
          match converter.input_types.get? i with
          | none => raise (Err.undefined "converter->input_types[i]")
          | some t =>
            if t ≠ TrtInputType.kWeight then VisitExpr env a
            else materializeWeightArg env a) = step
    intro h hc
    cases hstep : step s with
    | error e s1 => rw [hstep] at h; cases h
    | ok u s1 =>
      rw [hstep] at h
      simp only at h
      rcases List.mem_cons.mp harg with rfl | hrest
      · have hk := KeysLe_VisitArgs env converter (i + 1) rest s1
        rw [h] at hk
        exact hk _ (hc s u s1 hstep)
      · exact ih (i + 1) s1 s' h arg hrest

theorem gatherInputs_ok (args : List Nat) :
    ∀ (inputs : List TrtOpInput) (s : TensorRTBuilder), (∀ p ∈ args, cached s p) →
      ∃ out, gatherInputs args inputs s = Result.ok out s := by
  induction args with
  | nil => intro inputs s _; exact ⟨inputs, rfl⟩
  | cons p rest ih =>
    intro inputs s h
    have hp := h p (List.mem_cons_self _ _)
    unfold cached at hp
    obtain ⟨slots, hslots⟩ := Option.isSome_iff_exists.mp hp
    obtain ⟨out, hout⟩ := ih (inputs ++ slots) s fun q hq => h q (List.mem_cons_of_mem _ hq)
    refine ⟨out, ?_⟩
    rw [gatherInputs_cons _ _ _ _ _ hslots]
    exact hout

theorem markOutputs_error (slots : List TrtOpInput) :
    ∀ (i : Nat) (names : List String) (s s' : TensorRTBuilder) (e : Err),
      markOutputs slots i names s = Result.error e s' →
        e = Err.fatal "Check failed: network_outputs[i].type == kTensor" := by
  induction slots with
  | nil => intro i names s s' e h; cases h
  | cons slot rest ih =>
    intro i names s s' e h
    cases slot with
    | tensor t =>
      simp only [markOutputs, bind_apply, modifyState_apply] at h
      exact ih _ _ _ _ _ h
    | weight w shape =>
      simp only [markOutputs, raise_apply, Result.error.injEq] at h
      exact h.1.symm

theorem convertCall_error (converter : TrtOpConverter) (call : Nat) (op_name : String)
    (attrs : Attrs) (args : List Nat) (inputs : List TrtOpInput) (s s' : TensorRTBuilder)
    (e : Err) (hin : gatherInputs args [] s = Result.ok inputs s)
    (h : convertCall converter call op_name attrs args s = Result.error e s') :
    e = Err.fatal "Op expected a different number of inputs." ∨ e = Err.fatal "Convert" := by
  unfold convertCall at h
  simp only [bind_apply, hin, getState_apply, modifyState_apply] at h
  by_cases hv : converter.variable_input_count = true
  · simp only [hv, Bool.not_true, Bool.false_eq_true, if_false, pure_apply] at h
    cases hc : converter.Convert
        { network := s.network_, op_name := op_name, attrs := attrs,
          trt_weights := s.trt_weights_, allocated := s.allocated, inputs := inputs,
          outputs := [] } with
    | none =>
      rw [hc] at h
      simp only [raise_apply, Result.error.injEq] at h
      exact Or.inr h.1.symm
    | some params =>
      rw [hc] at h
      simp only [cacheAssign, bind_apply, modifyState_apply] at h
      cases h
  · have hv' : converter.variable_input_count = false := by
      cases hb : converter.variable_input_count with
      | true => exact absurd hb hv
      | false => rfl
    simp only [hv', Bool.not_false, if_true, CHECK_apply] at h
    by_cases hlen : (converter.input_types.length == inputs.length) = true
    · simp only [hlen, if_true] at h
      cases hc : converter.Convert
          { network := s.network_, op_name := op_name, attrs := attrs,
            trt_weights := s.trt_weights_, allocated := s.allocated, inputs := inputs,
            outputs := [] } with
      | none =>
        rw [hc] at h
        simp only [raise_apply, Result.error.injEq] at h
        exact Or.inr h.1.symm
      | some params =>
        rw [hc] at h
        simp only [cacheAssign, bind_apply, modifyState_apply] at h
        cases h
    · simp only [hlen, Bool.false_eq_true, if_false, Result.error.injEq] at h
      exact Or.inl h.1.symm

/-- C17. Whenever the argument loop of a call node returns, every argument of the node has an
entry in the node output cache, so gathering the inputs succeeds and the converter step cannot
stop with "Input was not found."; and whenever the visit of the root returns, the root has an
entry, so `BuildEngine` cannot stop with "Output was not found.". -/
theorem lowered_nodes_are_cached (env : Env) :
    (∀ (converter : TrtOpConverter) (call : Nat) (op : String) (attrs : Attrs)
        (args : List Expr) (s s' : TensorRTBuilder),
      VisitArgs env converter 0 args s = Result.ok () s' →
        (∀ arg ∈ args, cached s' arg.ptr) ∧
        (∃ inputs, gatherInputs (args.map Expr.ptr) [] s' = Result.ok inputs s') ∧
        ∀ s'', convertCall converter call op attrs (args.map Expr.ptr) s'
          ≠ Result.error (Err.fatal "Input was not found.") s'') ∧
    (∀ (expr : Expr) (s s' : TensorRTBuilder),
      VisitExpr env expr s = Result.ok () s' →
        (∃ slots, cacheFind expr.ptr s' = Result.ok (some slots) s') ∧
        ∀ s'', BuildEngine env expr s ≠ Result.error (Err.fatal "Output was not found.") s'') := by
  refine ⟨?_, ?_⟩
  · intro converter call op attrs args s s' h
    have hc := VisitArgs_caches env converter args 0 s s' h
    have hp : ∀ p ∈ args.map Expr.ptr, cached s' p := by
      intro p hp
      obtain ⟨arg, harg, rfl⟩ := List.mem_map.mp hp
      exact hc arg harg
    obtain ⟨inputs, hin⟩ := gatherInputs_ok (args.map Expr.ptr) [] s' hp
    refine ⟨hc, ⟨inputs, hin⟩, ?_⟩
    intro s'' herr
    rcases convertCall_error _ _ _ _ _ _ _ _ _ hin herr with h1 | h1 <;>
      exact absurd h1 (by decide)
  · intro expr s s' h
    have hc := Caches_VisitExpr env expr s () s' h
    unfold cached at hc
    obtain ⟨slots, hslots⟩ := Option.isSome_iff_exists.mp hc
    refine ⟨⟨slots, by simp only [cacheFind, hslots]⟩, ?_⟩
    intro s'' herr
    unfold BuildEngine at herr
    simp only [bind_apply, h, cacheFind, hslots] at herr
    cases hm : markOutputs slots 0 [] s' with
    | error e s1 =>
      rw [hm] at herr
      have he := markOutputs_error _ _ _ _ _ _ hm
      simp only [Result.error.injEq] at herr
      rw [herr.1] at he
      exact absurd he (by decide)
    | ok names s1 =>
      rw [hm] at herr
      simp only [getState_apply, CHECK_apply, CleanUp, modifyState_apply, pure_apply] at herr
      by_cases hb : (env.getNbBindings s1.network_
          == s1.network_input_map_.length + slots.length) = true
      · simp only [hb, if_true] at herr
        cases herr
      · simp only [hb, Bool.false_eq_true, if_false, Result.error.injEq] at herr
        exact absurd herr.1 (by decide)

theorem lowered_nodes_are_cached_witness :
    ((∀ arg ∈ [Expr.var sampleVar, Expr.constant sampleConstant43],
        cached (VisitArgs sampleEnv sampleConverter 0
          [Expr.var sampleVar, Expr.constant sampleConstant43] sampleBuilder).state arg.ptr) ∧
      (∃ inputs, gatherInputs ([Expr.var sampleVar, Expr.constant sampleConstant43].map Expr.ptr) []
          (VisitArgs sampleEnv sampleConverter 0
            [Expr.var sampleVar, Expr.constant sampleConstant43] sampleBuilder).state
        = Result.ok inputs (VisitArgs sampleEnv sampleConverter 0
            [Expr.var sampleVar, Expr.constant sampleConstant43] sampleBuilder).state) ∧
      ∀ s'', convertCall sampleConverter 102 "op_x" Attrs.other
          ([Expr.var sampleVar, Expr.constant sampleConstant43].map Expr.ptr)
          (VisitArgs sampleEnv sampleConverter 0
            [Expr.var sampleVar, Expr.constant sampleConstant43] sampleBuilder).state
        ≠ Result.error (Err.fatal "Input was not found.") s'') ∧
    ((∃ slots, cacheFind sampleCall.ptr (VisitExpr sampleEnv sampleCall sampleBuilder).state
        = Result.ok (some slots) (VisitExpr sampleEnv sampleCall sampleBuilder).state) ∧
      ∀ s'', BuildEngine sampleEnv sampleCall sampleBuilder
        ≠ Result.error (Err.fatal "Output was not found.") s'') :=
  ⟨(lowered_nodes_are_cached sampleEnv).1 sampleConverter 102 "op_x" Attrs.other
      [Expr.var sampleVar, Expr.constant sampleConstant43] sampleBuilder _ rfl,
   (lowered_nodes_are_cached sampleEnv).2 sampleCall sampleBuilder _ rfl⟩


/-! ## Arguments that must be weights (C12) -/

theorem NetSame_refl (s : TensorRTBuilder) : NetSame s s := ⟨rfl, rfl⟩

theorem NetSame_trans (s1 s2 s3 : TensorRTBuilder) (h12 : NetSame s1 s2) (h23 : NetSame s2 s3) :
    NetSame s1 s3 := ⟨h23.1.trans h12.1, h23.2.trans h12.2⟩

theorem NetSame_cacheAssign (ptr : Nat) (slots : List TrtOpInput) :
    Preserves NetSame (cacheAssign ptr slots) := fun _ => ⟨rfl, rfl⟩

theorem NetSame_cacheIndex (ptr : Nat) : Preserves NetSame (cacheIndex ptr) := by
  intro s
  unfold cacheIndex
  cases mapFind s.node_output_map_ ptr <;> exact ⟨rfl, rfl⟩

theorem NetSame_GetDLTensorAsWeights (env : Env) (dptr : DLTensor) (src_device : Nat) :
    Preserves NetSame (GetDLTensorAsWeights env dptr src_device) := by
  intro s
  rw [GetDLTensorAsWeights_eq]
  split
  · exact ⟨rfl, rfl⟩
  · split
    · exact ⟨rfl, rfl⟩
    · split
      · exact ⟨rfl, rfl⟩
      · split <;> exact ⟨rfl, rfl⟩

theorem NetSame_TrackVarNode (env : Env) (node : VarNode) :
    Preserves NetSame (TrackVarNode env node) := by
  intro s
  rcases TrackVarNode_cases env node s with ⟨idx, h⟩ | ⟨e, h⟩ <;> rw [h] <;> exact NetSame_refl s

theorem NetSame_GetShape (type : RelayType) : Preserves NetSame (GetShape type) := by
  intro s
  cases type <;> exact NetSame_refl s

theorem NetSame_GetInputAsWeights (env : Env) (node : VarNode) :
    Preserves NetSame (GetInputAsWeights env node) := by
  unfold GetInputAsWeights
  refine Preserves_bind NetSame_trans (NetSame_TrackVarNode env node) fun idx => ?_
  refine Preserves_bind NetSame_trans (Preserves_getState NetSame_refl) fun st => ?_
  refine Preserves_bind NetSame_trans (Preserves_defined NetSame_refl _ _) fun arg => ?_
  refine Preserves_bind NetSame_trans (NetSame_GetDLTensorAsWeights env arg _) fun w => ?_
  refine Preserves_bind NetSame_trans (NetSame_GetShape _) fun shape => ?_
  exact NetSame_cacheAssign _ _

theorem NetSame_GetConstantAsWeights (env : Env) (node : ConstantNode) :
    Preserves NetSame (GetConstantAsWeights env node) := by
  unfold GetConstantAsWeights GetNdArrayAsWeights
  refine Preserves_bind NetSame_trans (NetSame_GetDLTensorAsWeights env _ _) fun w => ?_
  exact NetSame_cacheAssign _ _

theorem NetSame_GetInputAsTransposedWeights (env : Env) (transpose : Nat) (attrs : Attrs)
    (node : VarNode) :
    Preserves NetSame (GetInputAsTransposedWeights env transpose attrs node) := by
  unfold GetInputAsTransposedWeights
  refine Preserves_bind NetSame_trans (NetSame_GetInputAsWeights env node) fun _ => ?_
  refine Preserves_bind NetSame_trans (NetSame_cacheIndex _) fun _ => ?_
  refine Preserves_bind NetSame_trans (Preserves_CHECK NetSame_refl _ _) fun _ => ?_
  refine Preserves_bind NetSame_trans (NetSame_cacheIndex _) fun slots => ?_
  have htail : ∀ (w : Weights) (shape : List Int) (original_values : List float)
      (values : Buffer) (axes : List Int),
      Preserves NetSame (do
        let __discr ← defined (readAxes shape axes) "shape[axis]"
        match __discr with
          | (order, new_shape) => do
            let data ← performTranspose order shape original_values values.data
            let transposed_weight : Weights :=
              { type := DataType.kFLOAT, values := some { values with data := data },
                count := w.count }
            modifyState fun s => { s with trt_weights_ := s.trt_weights_ ++ [transposed_weight] }
            cacheAssign transpose [TrtOpInput.weight transposed_weight new_shape] : M Unit) := by
    intro w shape original_values values axes
    refine Preserves_bind NetSame_trans (Preserves_defined NetSame_refl _ _) fun _ => ?_
    refine Preserves_bind NetSame_trans
      (Preserves_performTranspose NetSame_refl NetSame_trans _ _ _ _) fun _ => ?_
    refine Preserves_bind NetSame_trans
      (Preserves_modifyState _ fun _ => ⟨rfl, rfl⟩) fun _ => ?_
    exact NetSame_cacheAssign _ _
  have hmid : ∀ (ws : Weights × List Int),
      Preserves NetSame (
        match ws with
        | (original_weight, shape) => do
          let original_values ←
            defined (original_weight.values.map Buffer.data) "original_weight.values"
          let values ← newFloatArray original_weight.count
          let __do_jp : List Int → M Unit := fun axes => do
            let __discr ← defined (readAxes shape axes) "shape[axis]"
            match __discr with
              | (order, new_shape) => do
                let data ← performTranspose order shape original_values values.data
                let transposed_weight : Weights :=
                  { type := DataType.kFLOAT, values := some { values with data := data },
                    count := original_weight.count }
                modifyState fun s =>
                  { s with trt_weights_ := s.trt_weights_ ++ [transposed_weight] }
                cacheAssign transpose [TrtOpInput.weight transposed_weight new_shape]
          match attrs with
            | Attrs.transpose axes => do
              let y ← pure axes
              __do_jp y
            | Attrs.other => do
              let y ← raise (Err.undefined "transpose->attrs.as<TransposeAttrs>()")
              __do_jp y : M Unit) := by
    rintro ⟨w, shape⟩
    refine Preserves_bind NetSame_trans (Preserves_defined NetSame_refl _ _) fun _ => ?_
    refine Preserves_bind NetSame_trans (fun _ => ⟨rfl, rfl⟩) fun _ => ?_
    cases attrs with
    | transpose axes =>
      exact Preserves_bind NetSame_trans (Preserves_pure NetSame_refl _) fun _ => htail _ _ _ _ _
    | other =>
      exact Preserves_bind NetSame_trans (Preserves_raise NetSame_refl _) fun _ => htail _ _ _ _ _
  dsimp only
  split
  · exact Preserves_bind NetSame_trans (Preserves_pure NetSame_refl _) fun _ => hmid _
  · exact Preserves_bind NetSame_trans (Preserves_raise NetSame_refl _) fun _ => hmid _

theorem NetSame_materializeWeightArg (env : Env) (arg : Expr) :
    Preserves NetSame (materializeWeightArg env arg) := by
  unfold materializeWeightArg
  split
  · exact NetSame_GetInputAsWeights env _
  · exact NetSame_GetConstantAsWeights env _
  · split
    · split
      · exact NetSame_GetInputAsTransposedWeights env _ _ _
      · exact Preserves_raise NetSame_refl _
      · exact Preserves_raise NetSame_refl _
    · exact Preserves_raise NetSame_refl _
  · exact Preserves_raise NetSame_refl _

theorem CachesWeight_raise (ptr : Nat) {α : Type} (e : Err) :
    CachesWeight ptr (raise e : M α) := by
  intro s a s' h
  simp [raise_apply] at h

theorem CachesWeight_bind (ptr : Nat) {α β : Type} (x : M α) (f : α → M β)
    (hf : ∀ a, CachesWeight ptr (f a)) : CachesWeight ptr (x >>= f) := by
  intro s b s' h
  simp only [bind_apply] at h
  cases hx : x s with
  | ok a s1 => rw [hx] at h; exact hf a s1 b s' h
  | error e s1 => rw [hx] at h; cases h

theorem CachesWeight_cacheAssign (ptr : Nat) (w : Weights) (shape : List Int) :
    CachesWeight ptr (cacheAssign ptr [TrtOpInput.weight w shape]) := by
  intro s a s' h
  simp only [cacheAssign, modifyState_apply, Result.ok.injEq] at h
  rw [← h.2]
  exact ⟨w, shape, mapFind_mapAssign_self _ _ _⟩

theorem CachesWeight_GetInputAsWeights (env : Env) (node : VarNode) :
    CachesWeight node.ptr (GetInputAsWeights env node) := by
  unfold GetInputAsWeights
  refine CachesWeight_bind _ _ _ fun _ => ?_
  refine CachesWeight_bind _ _ _ fun _ => ?_
  refine CachesWeight_bind _ _ _ fun _ => ?_
  refine CachesWeight_bind _ _ _ fun _ => ?_
  refine CachesWeight_bind _ _ _ fun _ => ?_
  exact CachesWeight_cacheAssign _ _ _

theorem CachesWeight_GetConstantAsWeights (env : Env) (node : ConstantNode) :
    CachesWeight node.ptr (GetConstantAsWeights env node) := by
  unfold GetConstantAsWeights
  refine CachesWeight_bind _ _ _ fun _ => ?_
  exact CachesWeight_cacheAssign _ _ _

theorem CachesWeight_GetInputAsTransposedWeights (env : Env) (transpose : Nat) (attrs : Attrs)
    (node : VarNode) :
    CachesWeight transpose (GetInputAsTransposedWeights env transpose attrs node) := by
  unfold GetInputAsTransposedWeights
  refine CachesWeight_bind _ _ _ fun _ => ?_
  refine CachesWeight_bind _ _ _ fun _ => ?_
  refine CachesWeight_bind _ _ _ fun _ => ?_
  refine CachesWeight_bind _ _ _ fun slots => ?_
  have htail : ∀ (w : Weights) (shape : List Int) (original_values : List float)
      (values : Buffer) (axes : List Int),
      CachesWeight transpose (do
        let __discr ← defined (readAxes shape axes) "shape[axis]"
        match __discr with
          | (order, new_shape) => do
            let data ← performTranspose order shape original_values values.data
            let transposed_weight : Weights :=
              { type := DataType.kFLOAT, values := some { values with data := data },
                count := w.count }
            modifyState fun s => { s with trt_weights_ := s.trt_weights_ ++ [transposed_weight] }
            cacheAssign transpose [TrtOpInput.weight transposed_weight new_shape] : M Unit) := by
    intro w shape original_values values axes
    refine CachesWeight_bind _ _ _ fun _ => ?_
    refine CachesWeight_bind _ _ _ fun _ => ?_
    refine CachesWeight_bind _ _ _ fun _ => ?_
    exact CachesWeight_cacheAssign _ _ _
  have hmid : ∀ (ws : Weights × List Int),
      CachesWeight transpose (
        match ws with
        | (original_weight, shape) => do
          let original_values ←
            defined (original_weight.values.map Buffer.data) "original_weight.values"
          let values ← newFloatArray original_weight.count
          let __do_jp : List Int → M Unit := fun axes => do
            let __discr ← defined (readAxes shape axes) "shape[axis]"
            match __discr with
              | (order, new_shape) => do
                let data ← performTranspose order shape original_values values.data
                let transposed_weight : Weights :=
                  { type := DataType.kFLOAT, values := some { values with data := data },
                    count := original_weight.count }
                modifyState fun s =>
                  { s with trt_weights_ := s.trt_weights_ ++ [transposed_weight] }
                cacheAssign transpose [TrtOpInput.weight transposed_weight new_shape]
          match attrs with
            | Attrs.transpose axes => do
              let y ← pure axes
              __do_jp y
            | Attrs.other => do
              let y ← raise (Err.undefined "transpose->attrs.as<TransposeAttrs>()")
              __do_jp y : M Unit) := by
    rintro ⟨w, shape⟩
    refine CachesWeight_bind _ _ _ fun _ => ?_
    refine CachesWeight_bind _ _ _ fun _ => ?_
    cases attrs with
    | transpose axes => exact CachesWeight_bind _ _ _ fun _ => htail _ _ _ _ _
    | other => exact CachesWeight_bind _ _ _ fun _ => htail _ _ _ _ _
  dsimp only
  split
  · exact CachesWeight_bind _ _ _ fun _ => hmid _
  · exact CachesWeight_bind _ _ _ fun _ => hmid _

theorem CachesWeight_materializeWeightArg (env : Env) (arg : Expr) :
    CachesWeight arg.ptr (materializeWeightArg env arg) := by
  unfold materializeWeightArg
  split
  · exact CachesWeight_GetInputAsWeights env _
  · exact CachesWeight_GetConstantAsWeights env _
  · split
    · split
      · exact CachesWeight_GetInputAsTransposedWeights env _ _ _
      · exact CachesWeight_raise _ _
      · exact CachesWeight_raise _ _
    · exact CachesWeight_raise _ _
  · exact CachesWeight_raise _ _

theorem materializeWeightArg_rejected (env : Env) (arg : Expr) (s : TensorRTBuilder)
    (h : acceptedWeightArg arg = false) :
    ∃ e, materializeWeightArg env arg s = Result.error e s ∧
      ((∀ ptr attrs, arg ≠ Expr.call ptr "transpose" [] attrs) →
        e = Err.fatal "TRT requires a constant input here.") := by
  cases arg with
  | var node => simp [acceptedWeightArg] at h
  | constant node => simp [acceptedWeightArg] at h
  | tuple ptr fields => exact ⟨_, rfl, fun _ => rfl⟩
  | tupleGetItem ptr tuple index => exact ⟨_, rfl, fun _ => rfl⟩
  | call ptr op args attrs =>
    unfold materializeWeightArg
    by_cases hop : op = "transpose"
    · subst hop
      simp only [if_true]
      cases args with
      | nil =>
        refine ⟨_, rfl, fun hne => absurd rfl (hne ptr attrs)⟩
      | cons first rest =>
        cases first with
        | var node => simp [acceptedWeightArg] at h
        | constant node => exact ⟨_, rfl, fun _ => rfl⟩
        | call p o a t => exact ⟨_, rfl, fun _ => rfl⟩
        | tuple p fields => exact ⟨_, rfl, fun _ => rfl⟩
        | tupleGetItem p t i => exact ⟨_, rfl, fun _ => rfl⟩
    · simp only [hop, if_false]
      exact ⟨_, rfl, fun _ => rfl⟩

theorem VisitArgs_cons_step (env : Env) (converter : TrtOpConverter) (i : Nat) (arg : Expr)
    (rest : List Expr) :
    VisitArgs env converter i (arg :: rest) =
      visitArgument env converter i arg >>= fun _ => VisitArgs env converter (i + 1) rest := by
  rw [VisitArgs_cons_eq]
  unfold visitArgument
  rfl

theorem VisitArgs_append (env : Env) (converter : TrtOpConverter) (pre post : List Expr) :
    ∀ (i : Nat) (s : TensorRTBuilder),
      VisitArgs env converter i (pre ++ post) s =
        (VisitArgs env converter i pre >>= fun _ =>
          VisitArgs env converter (i + pre.length) post) s := by
  induction pre with
  | nil =>
    intro i s
    simp only [List.nil_append, bind_apply, VisitArgs_nil, List.length_nil, Nat.add_zero]
  | cons a rest ih =>
    intro i s
    rw [List.cons_append, VisitArgs_cons_step, VisitArgs_cons_step]
    simp only [bind_apply]
    cases visitArgument env converter i a s with
    | error e s1 => rfl
    | ok u s1 =>
      simp only
      rw [ih (i + 1) s1]
      simp only [bind_apply, List.length_cons]
      rw [show i + (rest.length + 1) = i + 1 + rest.length by omega]

/-- C12. For a call whose fixed-arity converter declares a weight at the position of `arg`, the
argument loop hands `arg` to the weight materialiser instead of lowering it as a tensor. When
`arg` is not a Variable, a Constant or a transpose of a Variable, the materialiser stops without
changing the builder (with "TRT requires a constant input here." unless `arg` is a transpose
call without operands), so lowering the call fails inside the argument loop, before the
converter step. When the materialiser returns, the cache entry of `arg` is a single weight slot
and the network and the input bindings are untouched. -/
theorem VisitExpr_weight_argument (env : Env) (conv : TrtOpConverter) (call : Nat) (op : String)
    (attrs : Attrs) (pre post : List Expr) (arg : Expr)
    (hreg : env.GetOpConverters op = some conv)
    (hfixed : conv.variable_input_count = false)
    (hkind : conv.input_types.get? pre.length = some TrtInputType.kWeight) :
    (∀ s, VisitArgs env conv 0 (pre ++ arg :: post) s =
      (VisitArgs env conv 0 pre >>= fun _ =>
        materializeWeightArg env arg >>= fun _ =>
        VisitArgs env conv (pre.length + 1) post) s) ∧
    (acceptedWeightArg arg = false →
      (∀ s1, ∃ e, materializeWeightArg env arg s1 = Result.error e s1 ∧
        ((∀ ptr attrs, arg ≠ Expr.call ptr "transpose" [] attrs) →
          e = Err.fatal "TRT requires a constant input here.")) ∧
      ∀ s, mapFind s.node_output_map_ call = none →
        ∃ e s', VisitArgs env conv 0 (pre ++ arg :: post) s = Result.error e s' ∧
          VisitExpr env (Expr.call call op (pre ++ arg :: post) attrs) s = Result.error e s') ∧
    (∀ s1 s2, materializeWeightArg env arg s1 = Result.ok () s2 →
      (∃ w shape, mapFind s2.node_output_map_ arg.ptr = some [TrtOpInput.weight w shape]) ∧
      s2.network_ = s1.network_ ∧ s2.network_input_map_ = s1.network_input_map_) := by
  have hsplit : ∀ s, VisitArgs env conv 0 (pre ++ arg :: post) s =
      (VisitArgs env conv 0 pre >>= fun _ =>
        materializeWeightArg env arg >>= fun _ =>
        VisitArgs env conv (pre.length + 1) post) s := by
    intro s
    rw [VisitArgs_append]
    simp only [bind_apply, Nat.zero_add]
    cases VisitArgs env conv 0 pre s with
    | error e s1 => rfl
    | ok u s1 =>
      simp only
      rw [VisitArgs_cons_weight env conv pre.length arg post s1 hfixed hkind]
      simp only [bind_apply]
  refine ⟨hsplit, ?_, ?_⟩
  · intro hrej
    refine ⟨fun s1 => materializeWeightArg_rejected env arg s1 hrej, ?_⟩
    intro s hfresh
    have hfail : ∃ e s', VisitArgs env conv 0 (pre ++ arg :: post) s = Result.error e s' := by
      rw [hsplit]
      simp only [bind_apply]
      cases VisitArgs env conv 0 pre s with
      | error e s1 => exact ⟨e, s1, rfl⟩
      | ok u s1 =>
        obtain ⟨e, he, _⟩ := materializeWeightArg_rejected env arg s1 hrej
        simp only [he]
        exact ⟨e, s1, rfl⟩
    obtain ⟨e, s', he⟩ := hfail
    refine ⟨e, s', he, ?_⟩
    rw [VisitExpr_call_eq env call op _ attrs conv hreg, memoized_fresh _ _ _ hfresh]
    simp only [bind_apply, he]
  · intro s1 s2 h
    refine ⟨CachesWeight_materializeWeightArg env arg s1 () s2 h, ?_⟩
    have := NetSame_materializeWeightArg env arg s1
    rw [h] at this
    exact this

theorem VisitExpr_weight_argument_witness :
    (∃ e s', VisitArgs sampleEnv sampleConverter 0
        ([Expr.var sampleVar] ++ Expr.tuple 105 [] :: []) sampleBuilder = Result.error e s' ∧
      VisitExpr sampleEnv
        (Expr.call 104 "op_x" ([Expr.var sampleVar] ++ Expr.tuple 105 [] :: []) Attrs.other)
        sampleBuilder = Result.error e s') ∧
    ((∃ w shape,
        mapFind (materializeWeightArg sampleEnv (Expr.constant sampleConstant43)
          sampleBuilder).state.node_output_map_ (Expr.constant sampleConstant43).ptr
          = some [TrtOpInput.weight w shape]) ∧
      (materializeWeightArg sampleEnv (Expr.constant sampleConstant43)
        sampleBuilder).state.network_ = sampleBuilder.network_ ∧
      (materializeWeightArg sampleEnv (Expr.constant sampleConstant43)
        sampleBuilder).state.network_input_map_ = sampleBuilder.network_input_map_) :=
  ⟨((VisitExpr_weight_argument sampleEnv sampleConverter 104 "op_x" Attrs.other
      [Expr.var sampleVar] [] (Expr.tuple 105 []) rfl rfl rfl).2.1 rfl).2 sampleBuilder rfl,
   (VisitExpr_weight_argument sampleEnv sampleConverter 104 "op_x" Attrs.other
      [Expr.var sampleVar] [] (Expr.constant sampleConstant43) rfl rfl rfl).2.2
      sampleBuilder _ rfl⟩

/-! ## The arity check (C13) -/

/-- The gather loop returns the slots of the arguments, concatenated in argument order. -/
theorem gatherInputs_concat (args : List Nat) :
    ∀ (inputs : List TrtOpInput) (s : TensorRTBuilder), (∀ p ∈ args, cached s p) →
      gatherInputs args inputs s =
        Result.ok (inputs ++ args.flatMap fun p => (mapFind s.node_output_map_ p).getD []) s := by
  induction args with
  | nil => intro inputs s _; simp [gatherInputs_nil]
  | cons p rest ih =>
    intro inputs s h
    have hp := h p (List.mem_cons_self _ _)
    unfold cached at hp
    obtain ⟨slots, hslots⟩ := Option.isSome_iff_exists.mp hp
    rw [gatherInputs_cons _ _ _ _ _ hslots, ih _ _ fun q hq => h q (List.mem_cons_of_mem _ hq)]
    simp [List.flatMap_cons, hslots]

/-- A gathered list whose length differs from the declared number of kinds stops the call with
the arity error, before the converter is invoked. -/
theorem convertCall_arity_mismatch (conv : TrtOpConverter) (call : Nat) (op : String)
    (attrs : Attrs) (args : List Nat) (s : TensorRTBuilder) (inputs : List TrtOpInput)
    (hgather : gatherInputs args [] s = Result.ok inputs s)
    (hfixed : conv.variable_input_count = false)
    (harity : conv.input_types.length ≠ inputs.length) :
    convertCall conv call op attrs args s =
      Result.error (Err.fatal "Op expected a different number of inputs.") s := by
  unfold convertCall
  simp only [bind_apply, hgather, hfixed, Bool.not_false, if_true, CHECK_apply, beq_iff_eq,
    harity, if_false]

/-- A tuple argument that contributes two slots makes the gathered list longer than the two
declared kinds: the call stops with the arity error and no converter has run. -/
theorem VisitExpr_tuple_argument_arity :
    VisitExpr sampleEnv sampleCallWide sampleBuilder =
      Result.error (Err.fatal "Op expected a different number of inputs.")
        (VisitExpr sampleEnv sampleCallWide sampleBuilder).state ∧
    (VisitExpr sampleEnv sampleCallWide sampleBuilder).state.converter_calls = [] :=
  ⟨rfl, rfl⟩

/-- C13 (divergence). The call `op_x(v, c, c)` has three arguments while `op_x` declares two
input kinds and is not variable-arity. The argument loop reads the kind of the third argument,
`converter->input_types[2]`, which does not exist: lowering stops there, on undefined behaviour,
before the inputs are gathered and before the arity check is reached. -/
theorem VisitExpr_excess_argument :
    VisitExpr sampleEnv sampleCall3 sampleBuilder =
      Result.error (Err.undefined "converter->input_types[i]")
        (VisitExpr sampleEnv sampleCall3 sampleBuilder).state ∧
    VisitArgs sampleEnv sampleConverter 0
        [Expr.var sampleVar, Expr.constant sampleConstant43, Expr.constant sampleConstant43]
        sampleBuilder =
      Result.error (Err.undefined "converter->input_types[i]")
        (VisitExpr sampleEnv sampleCall3 sampleBuilder).state ∧
    sampleConverter.variable_input_count = false ∧
    sampleConverter.input_types.length = 2 ∧
    (VisitExpr sampleEnv sampleCall3 sampleBuilder).state.converter_calls = [] :=
  ⟨rfl, rfl, rfl, rfl, rfl⟩

/-! ## Tuples and projections (C18, C19) -/

theorem VisitFields_of_lowers (env : Env) (fields : List Expr) :
    ∀ (s : TensorRTBuilder) (acc outs : List TrtOpInput) (s1 : TensorRTBuilder),
      LowersInOrder env fields s outs s1 →
        VisitFields env fields acc s = Result.ok (acc ++ outs) s1 := by
  induction fields with
  | nil =>
    intro s acc outs s1 h
    obtain ⟨rfl, rfl⟩ := h
    rw [VisitFields]
    simp only [pure_apply, List.append_nil]
  | cons field rest ih =>
    intro s acc outs s1 h
    obtain ⟨s2, slots, outs', hvisit, hslots, hrest, rfl⟩ := h
    rw [VisitFields_cons_eq]
    simp only [bind_apply, hvisit, cacheIndex_of_find _ _ _ hslots]
    rw [ih s2 (acc ++ slots) outs' s1 hrest, List.append_assoc]

theorem VisitFields_ok_lowers (env : Env) (fields : List Expr) :
    ∀ (s : TensorRTBuilder) (acc r : List TrtOpInput) (s1 : TensorRTBuilder),
      VisitFields env fields acc s = Result.ok r s1 →
        ∃ outs, LowersInOrder env fields s outs s1 ∧ r = acc ++ outs := by
  induction fields with
  | nil =>
    intro s acc r s1 h
    rw [VisitFields] at h
    simp only [pure_apply, Result.ok.injEq] at h
    exact ⟨[], ⟨rfl, h.2.symm⟩, by rw [← h.1, List.append_nil]⟩
  | cons field rest ih =>
    intro s acc r s1 h
    rw [VisitFields_cons_eq] at h
    simp only [bind_apply] at h
    cases hvisit : VisitExpr env field s with
    | error e s2 => rw [hvisit] at h; cases h
    | ok u s2 =>
      rw [hvisit] at h
      have hc := Caches_VisitExpr env field s u s2 hvisit
      unfold cached at hc
      obtain ⟨slots, hslots⟩ := Option.isSome_iff_exists.mp hc
      simp only [cacheIndex_of_find _ _ _ hslots] at h
      obtain ⟨outs', hrest, hr⟩ := ih s2 (acc ++ slots) r s1 h
      exact ⟨slots ++ outs', ⟨s2, slots, outs', hvisit, hslots, hrest, rfl⟩,
        by rw [hr, List.append_assoc]⟩

/-- C18. Visiting a Tuple node that is not yet cached lowers its fields in field order and, when
every field is lowered, assigns to the Tuple the concatenation, in field order, of the slots the
fields have in the cache; apart from that cache entry the builder, and so the target network,
is as the lowering of the last field left it. Conversely a visit that returns has lowered the
fields in this way. -/
theorem VisitExpr_tuple_concatenates (env : Env) (op : Nat) (fields : List Expr)
    (s : TensorRTBuilder) (hfresh : mapFind s.node_output_map_ op = none) :
    (∀ outs s1, LowersInOrder env fields s outs s1 →
      VisitExpr env (Expr.tuple op fields) s =
        Result.ok ()
          { s1 with node_output_map_ := mapAssign s1.node_output_map_ op outs,
                    cache_writes := s1.cache_writes ++ [op] }) ∧
    (∀ s', VisitExpr env (Expr.tuple op fields) s = Result.ok () s' →
      ∃ outs s1, LowersInOrder env fields s outs s1 ∧
        mapFind s'.node_output_map_ op = some outs ∧
        s'.network_ = s1.network_ ∧
        s' = { s1 with node_output_map_ := mapAssign s1.node_output_map_ op outs,
                       cache_writes := s1.cache_writes ++ [op] }) := by
  refine ⟨?_, ?_⟩
  · intro outs s1 h
    rw [VisitExpr_tuple_eq, memoized_fresh _ _ _ hfresh]
    simp only [bind_apply, VisitFields_of_lowers env fields s [] outs s1 h, List.nil_append,
      cacheAssign, modifyState_apply]
  · intro s' h
    rw [VisitExpr_tuple_eq, memoized_fresh _ _ _ hfresh] at h
    simp only [bind_apply] at h
    cases hf : VisitFields env fields [] s with
    | error e s1 => rw [hf] at h; cases h
    | ok r s1 =>
      rw [hf] at h
      obtain ⟨outs, hl, hr⟩ := VisitFields_ok_lowers env fields s [] r s1 hf
      simp only [List.nil_append] at hr
      subst hr
      simp only [cacheAssign, modifyState_apply, Result.ok.injEq, true_and] at h
      subst h
      exact ⟨r, s1, hl, mapFind_mapAssign_self _ _ _, rfl, rfl⟩

theorem VisitExpr_tuple_concatenates_witness :
    ∃ outs s1,
      LowersInOrder sampleEnv [Expr.var sampleVar, Expr.constant sampleConstant43]
        sampleBuilder outs s1 ∧
      VisitExpr sampleEnv sampleTuple sampleBuilder =
        Result.ok ()
          { s1 with node_output_map_ := mapAssign s1.node_output_map_ 110 outs,
                    cache_writes := s1.cache_writes ++ [110] } :=
  match (VisitExpr_tuple_concatenates sampleEnv 110
      [Expr.var sampleVar, Expr.constant sampleConstant43] sampleBuilder rfl).2 _ rfl with
  | ⟨outs, s1, hl, _⟩ =>
    ⟨outs, s1, hl, (VisitExpr_tuple_concatenates sampleEnv 110
      [Expr.var sampleVar, Expr.constant sampleConstant43] sampleBuilder rfl).1 outs s1 hl⟩

theorem VisitNth_eq (env : Env) (fields : List Expr) :
    ∀ (n : Nat) (field : Expr), fields.get? n = some field →
      VisitNth env fields n = VisitExpr env field := by
  induction fields with
  | nil => intro n field h; cases h
  | cons item rest ih =>
    intro n field h
    cases n with
    | zero =>
      simp only [List.get?_cons_zero, Option.some.injEq] at h
      subst h
      rw [VisitNth]
    | succ m =>
      simp only [List.get?_cons_succ] at h
      rw [VisitNth]
      exact ih m field h

theorem readAt_some {α : Type} (buf : List α) (i : Int) (a : α) (h : readAt buf i = some a) :
    buf.get? i.toNat = some a := by
  unfold readAt at h
  split at h
  · exact h
  · cases h

/-- C19. For a TupleProjection node `p` with index `index` that is not yet cached. When the
operand is a literal Tuple and `index` selects its field `field`, lowering `field` is all the
visit does besides assigning to `p` the entry that `field` has in the cache, so the two entries
are equal and the target network is the one left by lowering `field`. When the operand is any
other node, the operand is lowered and `p` receives the single slot found at position `index`
of the operand's entry. -/
theorem VisitExpr_TupleGetItem_forwards (env : Env) (p : Nat) (index : Int) (s : TensorRTBuilder)
    (hfresh : mapFind s.node_output_map_ p = none) :
    (∀ (tp : Nat) (fields : List Expr) (field : Expr) (s1 : TensorRTBuilder),
      readAt fields index = some field →
      VisitExpr env field s = Result.ok () s1 →
        ∃ slots s', mapFind s1.node_output_map_ field.ptr = some slots ∧
          VisitExpr env (Expr.tupleGetItem p (Expr.tuple tp fields) index) s = Result.ok () s' ∧
          s' = { s1 with node_output_map_ := mapAssign s1.node_output_map_ p slots,
                         cache_writes := s1.cache_writes ++ [p] } ∧
          mapFind s'.node_output_map_ p = mapFind s'.node_output_map_ field.ptr ∧
          mapFind s'.node_output_map_ p = some slots ∧
          s'.network_ = s1.network_) ∧
    (∀ (operand : Expr) (s1 : TensorRTBuilder) (slots : List TrtOpInput) (slot : TrtOpInput),
      (∀ tp fields, operand = Expr.tuple tp fields → False) →
      VisitExpr env operand s = Result.ok () s1 →
      mapFind s1.node_output_map_ operand.ptr = some slots →
      readAt slots index = some slot →
        ∃ s', VisitExpr env (Expr.tupleGetItem p operand index) s = Result.ok () s' ∧
          s' = { s1 with node_output_map_ := mapAssign s1.node_output_map_ p [slot],
                         cache_writes := s1.cache_writes ++ [p] } ∧
          mapFind s'.node_output_map_ p = some [slot] ∧
          s'.network_ = s1.network_) := by
  refine ⟨?_, ?_⟩
  · intro tp fields field s1 hread hvisit
    have hc := Caches_VisitExpr env field s () s1 hvisit
    unfold cached at hc
    obtain ⟨slots, hslots⟩ := Option.isSome_iff_exists.mp hc
    refine ⟨slots, _, hslots, ?_, rfl, ?_, mapFind_mapAssign_self _ _ _, rfl⟩
    · rw [VisitExpr_projection_literal_eq, memoized_fresh _ _ _ hfresh]
      simp only [bind_apply, hread, defined_some, VisitNth_eq env fields _ field
        (readAt_some _ _ _ hread), hvisit, cacheIndex_of_find _ _ _ hslots, cacheAssign,
        modifyState_apply]
    · by_cases hp : p = field.ptr
      · rw [hp]
      · simp only
        rw [mapFind_mapAssign_self, mapFind_mapAssign_ne _ _ _ _ hp, hslots]
  · intro operand s1 slots slot hnot hvisit hslots hread
    refine ⟨_, ?_, rfl, mapFind_mapAssign_self _ _ _, rfl⟩
    rw [VisitExpr_projection_eq env p operand index hnot, memoized_fresh _ _ _ hfresh]
    simp only [bind_apply, hvisit, cacheIndex_of_find _ _ _ hslots, hread, defined_some,
      cacheAssign, modifyState_apply]

theorem VisitExpr_TupleGetItem_forwards_witness :
    (∃ slots s',
      mapFind (VisitExpr sampleEnv (Expr.constant sampleConstant43)
        sampleBuilder).state.node_output_map_ (Expr.constant sampleConstant43).ptr
          = some slots ∧
      VisitExpr sampleEnv sampleProjection sampleBuilder = Result.ok () s' ∧
      s' = { (VisitExpr sampleEnv (Expr.constant sampleConstant43) sampleBuilder).state with
        node_output_map_ := mapAssign (VisitExpr sampleEnv (Expr.constant sampleConstant43)
          sampleBuilder).state.node_output_map_ 111 slots,
        cache_writes := (VisitExpr sampleEnv (Expr.constant sampleConstant43)
          sampleBuilder).state.cache_writes ++ [111] } ∧
      mapFind s'.node_output_map_ 111
        = mapFind s'.node_output_map_ (Expr.constant sampleConstant43).ptr ∧
      mapFind s'.node_output_map_ 111 = some slots ∧
      s'.network_
        = (VisitExpr sampleEnv (Expr.constant sampleConstant43) sampleBuilder).state.network_) ∧
    (∃ s', VisitExpr sampleEnv sampleCallProjection sampleBuilder = Result.ok () s' ∧
      s' = { (VisitExpr sampleEnv sampleCall sampleBuilder).state with
        node_output_map_ := mapAssign (VisitExpr sampleEnv sampleCall
          sampleBuilder).state.node_output_map_ 112 [TrtOpInput.tensor 1],
        cache_writes := (VisitExpr sampleEnv sampleCall sampleBuilder).state.cache_writes
          ++ [112] } ∧
      mapFind s'.node_output_map_ 112 = some [TrtOpInput.tensor 1] ∧
      s'.network_ = (VisitExpr sampleEnv sampleCall sampleBuilder).state.network_) :=
  ⟨(VisitExpr_TupleGetItem_forwards sampleEnv 111 1 sampleBuilder rfl).1 110
      [Expr.var sampleVar, Expr.constant sampleConstant43] (Expr.constant sampleConstant43)
      _ rfl rfl,
   (VisitExpr_TupleGetItem_forwards sampleEnv 112 0 sampleBuilder rfl).2 sampleCall _
      [TrtOpInput.tensor 1] (TrtOpInput.tensor 1) (fun _ _ h => Expr.noConfusion h) rfl rfl rfl⟩


/-! ## How often a cache entry is assigned (C16) -/

theorem CacheSame_refl (s : TensorRTBuilder) : CacheSame s s := ⟨rfl, rfl⟩

theorem CacheSame_trans (s1 s2 s3 : TensorRTBuilder) (h12 : CacheSame s1 s2)
    (h23 : CacheSame s2 s3) : CacheSame s1 s3 :=
  ⟨h23.1.trans h12.1, h23.2.trans h12.2⟩

theorem CacheSame_GetDLTensorAsWeights (env : Env) (dptr : DLTensor) (src_device : Nat) :
    Preserves CacheSame (GetDLTensorAsWeights env dptr src_device) := by
  intro s
  rw [GetDLTensorAsWeights_eq]
  split
  · exact ⟨rfl, rfl⟩
  · split
    · exact ⟨rfl, rfl⟩
    · split
      · exact ⟨rfl, rfl⟩
      · split <;> exact ⟨rfl, rfl⟩

theorem CacheSame_TrackVarNode (env : Env) (node : VarNode) :
    Preserves CacheSame (TrackVarNode env node) := by
  intro s
  rcases TrackVarNode_cases env node s with ⟨idx, h⟩ | ⟨e, h⟩ <;> rw [h] <;>
    exact CacheSame_refl s

theorem CacheSame_GetShape (type : RelayType) : Preserves CacheSame (GetShape type) := by
  intro s
  cases type <;> exact CacheSame_refl s

theorem AssignsAtMost_of_same (ptr : Nat) {α : Type} (m : M α) (h : Preserves CacheSame m) :
    AssignsAtMost ptr m := fun s => Or.inl (h s)

theorem AssignsAtMost_cacheAssign (ptr : Nat) (slots : List TrtOpInput) :
    AssignsAtMost ptr (cacheAssign ptr slots) := fun _ => Or.inr ⟨slots, rfl, rfl⟩

theorem AssignsAtMost_bind (ptr : Nat) {α β : Type} (x : M α) (f : α → M β)
    (hx : Preserves CacheSame x) (hf : ∀ a, AssignsAtMost ptr (f a)) :
    AssignsAtMost ptr (x >>= f) := by
  intro s
  have h1 := hx s
  simp only [bind_apply]
  cases h : x s with
  | error e s1 =>
    rw [h] at h1
    exact Or.inl h1
  | ok a s1 =>
    rw [h] at h1
    simp only [Result.state] at h1
    rcases hf a s1 with h2 | ⟨slots, hm, hw⟩
    · exact Or.inl (CacheSame_trans _ _ _ h1 h2)
    · refine Or.inr ⟨slots, ?_, ?_⟩
      · rw [hm, h1.1]
      · rw [hw, h1.2]

theorem AssignsAtMost_GetInputAsWeights (env : Env) (node : VarNode) :
    AssignsAtMost node.ptr (GetInputAsWeights env node) := by
  unfold GetInputAsWeights
  refine AssignsAtMost_bind _ _ _ (CacheSame_TrackVarNode env node) fun _ => ?_
  refine AssignsAtMost_bind _ _ _ (Preserves_getState CacheSame_refl) fun _ => ?_
  refine AssignsAtMost_bind _ _ _ (Preserves_defined CacheSame_refl _ _) fun _ => ?_
  refine AssignsAtMost_bind _ _ _ (CacheSame_GetDLTensorAsWeights env _ _) fun _ => ?_
  refine AssignsAtMost_bind _ _ _ (CacheSame_GetShape _) fun _ => ?_
  exact AssignsAtMost_cacheAssign _ _

theorem AssignsAtMost_GetConstantAsWeights (env : Env) (node : ConstantNode) :
    AssignsAtMost node.ptr (GetConstantAsWeights env node) := by
  unfold GetConstantAsWeights GetNdArrayAsWeights
  refine AssignsAtMost_bind _ _ _ (CacheSame_GetDLTensorAsWeights env _ _) fun _ => ?_
  exact AssignsAtMost_cacheAssign _ _

theorem AssignsAtMost_VisitExpr_VarNode (env : Env) (node : VarNode) :
    AssignsAtMost node.ptr (VisitExpr_VarNode env node) := by
  unfold VisitExpr_VarNode
  refine AssignsAtMost_bind _ _ _ (CacheSame_TrackVarNode env node) fun _ => ?_
  refine AssignsAtMost_bind _ _ _ (CacheSame_GetShape _) fun _ => ?_
  refine AssignsAtMost_bind _ _ _ (Preserves_CHECK CacheSame_refl _ _) fun _ => ?_
  refine AssignsAtMost_bind _ _ _ (fun _ => ⟨rfl, rfl⟩) fun _ => ?_
  refine AssignsAtMost_bind _ _ _ (Preserves_modifyState _ fun _ => ⟨rfl, rfl⟩) fun _ => ?_
  exact AssignsAtMost_cacheAssign _ _

theorem AssignsAtMost_VisitExpr_ConstantNode (env : Env) (node : ConstantNode) :
    AssignsAtMost node.ptr (VisitExpr_ConstantNode env node) := by
  unfold VisitExpr_ConstantNode GetNdArrayAsWeights
  refine AssignsAtMost_bind _ _ _ (CacheSame_GetDLTensorAsWeights env _ _) fun _ => ?_
  refine AssignsAtMost_bind _ _ _ (Preserves_getState CacheSame_refl) fun st => ?_
  dsimp only
  split <;>
    first
    | exact AssignsAtMost_of_same _ _ (Preserves_raise CacheSame_refl _)
    | exact AssignsAtMost_bind _ _ _ (Preserves_modifyState _ fun _ => ⟨rfl, rfl⟩)
        fun _ => AssignsAtMost_cacheAssign _ _

theorem AssignsAtMost_convertCall (converter : TrtOpConverter) (call : Nat) (op_name : String)
    (attrs : Attrs) (args : List Nat) :
    AssignsAtMost call (convertCall converter call op_name attrs args) := by
  unfold convertCall
  refine AssignsAtMost_bind _ _ _ (Preserves_gatherInputs CacheSame_refl CacheSame_trans _ _)
    fun inputs => ?_
  refine AssignsAtMost_bind _ _ _ ?_ fun _ => ?_
  · split
    · exact Preserves_CHECK CacheSame_refl _ _
    · exact Preserves_pure CacheSame_refl _
  refine AssignsAtMost_bind _ _ _ (Preserves_getState CacheSame_refl) fun st => ?_
  refine AssignsAtMost_bind _ _ _ (Preserves_modifyState _ fun _ => ⟨rfl, rfl⟩) fun _ => ?_
  split
  · exact AssignsAtMost_of_same _ _ (Preserves_raise CacheSame_refl _)
  · exact AssignsAtMost_bind _ _ _ (Preserves_modifyState _ fun _ => ⟨rfl, rfl⟩)
      fun _ => AssignsAtMost_cacheAssign _ _

theorem WriteBound_refl (events : List CacheWrite) (s : TensorRTBuilder) :
    WriteBound events s s :=
  ⟨KeysLe_refl s, [], by simp, fun p => Or.inl (by simp)⟩

theorem WriteBound_of_same (events : List CacheWrite) (s s' : TensorRTBuilder)
    (h : CacheSame s s') : WriteBound events s s' :=
  ⟨KeysLe_of_cache_eq _ _ h.1, [], by simp [h.2], fun p => Or.inl (by simp)⟩

theorem WriteBound_mono (E E' : List CacheWrite) (s s' : TensorRTBuilder)
    (hE : ∀ x, E.count x ≤ E'.count x) (h : WriteBound E s s') : WriteBound E' s s' := by
  obtain ⟨hk, l, hw, hb⟩ := h
  refine ⟨hk, l, hw, fun p => ?_⟩
  rcases hb p with h1 | ⟨h1, hm, hn, hc⟩
  · exact Or.inl (le_trans h1 (hE _))
  · refine Or.inr ⟨le_trans h1 (Nat.add_le_add_right (hE _) 1), ?_, hn, hc⟩
    have hpos : 0 < E.count (CacheWrite.lowered p) := List.count_pos_iff.mpr hm
    exact List.count_pos_iff.mp (lt_of_lt_of_le hpos (hE _))

theorem WriteBound_trans (E1 E2 : List CacheWrite) (s s1 s2 : TensorRTBuilder)
    (h1 : WriteBound E1 s s1) (h2 : WriteBound E2 s1 s2) : WriteBound (E1 ++ E2) s s2 := by
  obtain ⟨k1, l1, hw1, hb1⟩ := h1
  obtain ⟨k2, l2, hw2, hb2⟩ := h2
  refine ⟨KeysLe_trans _ _ _ k1 k2, l1 ++ l2, by rw [hw2, hw1, List.append_assoc], fun p => ?_⟩
  simp only [List.count_append]
  rcases hb1 p with a1 | ⟨a1, hm1, hn1, hc1⟩ <;> rcases hb2 p with a2 | ⟨a2, hm2, hn2, hc2⟩
  · exact Or.inl (by omega)
  · exact Or.inr ⟨by omega, List.mem_append_right _ hm2, fun hc => hn2 (k1 p hc), hc2⟩
  · exact Or.inr ⟨by omega, List.mem_append_left _ hm1, hn1, k2 p hc1⟩
  · exact absurd hc1 hn2

theorem WriteBound_of_same_fun (events : List CacheWrite) {α : Type} (m : M α)
    (h : Preserves CacheSame m) : Preserves (WriteBound events) m :=
  fun s => WriteBound_of_same events _ _ (h s)

theorem WriteBound_bind (E1 E2 : List CacheWrite) {α β : Type} (x : M α) (f : α → M β)
    (hx : Preserves (WriteBound E1) x) (hf : ∀ a, Preserves (WriteBound E2) (f a)) :
    Preserves (WriteBound (E1 ++ E2)) (x >>= f) := by
  intro s
  have h1 := hx s
  simp only [bind_apply]
  cases h : x s with
  | error e s1 =>
    rw [h] at h1
    exact WriteBound_mono E1 _ _ _ (fun x => by simp [List.count_append]) h1
  | ok a s1 =>
    rw [h] at h1
    exact WriteBound_trans _ _ _ _ _ h1 (hf a s1)

theorem WriteBound_cacheIndex (ptr : Nat) : Preserves (WriteBound []) (cacheIndex ptr) := by
  intro s
  refine ⟨KeysLe_cacheIndex ptr s, [], ?_, fun p => Or.inl (by simp)⟩
  unfold cacheIndex
  cases mapFind s.node_output_map_ ptr <;> simp [Result.state]

theorem WriteBound_weight (ptr : Nat) {α : Type} (m : M α) (h : AssignsAtMost ptr m) :
    Preserves (WriteBound [CacheWrite.weight ptr]) m := by
  intro s
  rcases h s with hs | ⟨slots, hm, hw⟩
  · exact WriteBound_of_same _ _ _ hs
  · refine ⟨?_, [ptr], hw, fun p => Or.inl ?_⟩
    · intro q hq
      unfold cached at *
      rw [hm]
      exact cached_mapAssign _ _ _ _ hq
    · by_cases hp : ptr = p
      · subst hp; simp
      · have hp' : p ≠ ptr := fun h => hp h.symm
        simp [hp, hp']

theorem LowersNode_assign (ptr : Nat) {α : Type} (m : M α) (h : AssignsAtMost ptr m) :
    LowersNode ptr [] m := by
  intro s0 s1 E0 hfresh hp hb
  rcases h s1 with hs | ⟨slots, hm, hw⟩
  · exact WriteBound_mono (E0 ++ []) _ _ _ (fun x => by simp [List.count_cons])
      (WriteBound_trans _ _ _ _ _ hb (WriteBound_of_same [] _ _ hs))
  · obtain ⟨hk, l, hl, hbound⟩ := hb
    have hkeys : ∀ q, cached s1 q → cached (m s1).state q := by
      intro q hq
      unfold cached at *
      rw [hm]
      exact cached_mapAssign _ _ _ _ hq
    have hself : cached (m s1).state ptr := by
      unfold cached
      rw [hm, mapFind_mapAssign_self]; rfl
    refine ⟨fun q hq => hkeys q (hk q hq), l ++ [ptr], by rw [hw, hl, List.append_assoc],
      fun p => ?_⟩
    have hcount : ∀ q, (CacheWrite.lowered ptr :: (E0 ++ [])).count (CacheWrite.weight q)
        = E0.count (CacheWrite.weight q) := by
      intro q
      simp [List.count_cons]
    rw [hcount, List.count_append]
    by_cases hpp : p = ptr
    · subst hpp
      rcases hbound p with a1 | ⟨_, hm1, _, _⟩
      · refine Or.inr ⟨?_, List.mem_cons_self _ _, hfresh, hself⟩
        simp only [List.count_cons_self, List.count_nil]
        omega
      · exact absurd hm1 hp
    · have h0 : [ptr].count p = 0 := by
        simp [List.count_cons, Ne.symm hpp]
      rw [h0]
      rcases hbound p with a1 | ⟨a1, hm1, hn1, hc1⟩
      · exact Or.inl (by omega)
      · exact Or.inr ⟨by omega, List.mem_cons_of_mem _ (List.mem_append_left _ hm1), hn1,
          hkeys p hc1⟩

theorem LowersNode_bind (ptr : Nat) (E1 E2 : List CacheWrite) {α β : Type} (x : M α)
    (f : α → M β) (hx : Preserves (WriteBound E1) x) (hp : CacheWrite.lowered ptr ∉ E1)
    (hf : ∀ a, LowersNode ptr E2 (f a)) : LowersNode ptr (E1 ++ E2) (x >>= f) := by
  intro s0 s1 E0 hfresh hp0 hb
  have h1 := hx s1
  simp only [bind_apply]
  cases h : x s1 with
  | error e s2 =>
    rw [h] at h1
    exact WriteBound_mono (E0 ++ E1) _ _ _
      (fun x => by simp only [List.count_cons, List.count_append]; omega)
      (WriteBound_trans _ _ _ _ _ hb h1)
  | ok a s2 =>
    rw [h] at h1
    have h02 := WriteBound_trans _ _ _ _ _ hb h1
    have hmem : CacheWrite.lowered ptr ∉ E0 ++ E1 := by
      intro hm
      rcases List.mem_append.mp hm with hm | hm
      · exact hp0 hm
      · exact hp hm
    have := hf a s0 s2 (E0 ++ E1) hfresh hmem h02
    rw [List.append_assoc] at this
    exact this

theorem WriteBound_GetInputAsTransposedWeights (env : Env) (transpose : Nat) (attrs : Attrs)
    (node : VarNode) :
    Preserves (WriteBound [CacheWrite.weight node.ptr, CacheWrite.weight transpose])
      (GetInputAsTransposedWeights env transpose attrs node) := by
  unfold GetInputAsTransposedWeights
  refine WriteBound_bind [CacheWrite.weight node.ptr] [CacheWrite.weight transpose] _ _
    (WriteBound_weight _ _ (AssignsAtMost_GetInputAsWeights env node)) fun _ => ?_
  refine WriteBound_bind [] _ _ _ (WriteBound_cacheIndex _) fun _ => ?_
  refine WriteBound_bind [] _ _ _ (WriteBound_of_same_fun _ _ (Preserves_CHECK CacheSame_refl _ _))
    fun _ => ?_
  refine WriteBound_bind [] _ _ _ (WriteBound_cacheIndex _) fun slots => ?_
  have htail : ∀ (w : Weights) (shape : List Int) (original_values : List float)
      (values : Buffer) (axes : List Int),
      Preserves (WriteBound [CacheWrite.weight transpose]) (do
        let __discr ← defined (readAxes shape axes) "shape[axis]"
        match __discr with
          | (order, new_shape) => do
            let data ← performTranspose order shape original_values values.data
            let transposed_weight : Weights :=
              { type := DataType.kFLOAT, values := some { values with data := data },
                count := w.count }
            modifyState fun s => { s with trt_weights_ := s.trt_weights_ ++ [transposed_weight] }
            cacheAssign transpose [TrtOpInput.weight transposed_weight new_shape] : M Unit) := by
    intro w shape original_values values axes
    refine WriteBound_weight _ _ ?_
    refine AssignsAtMost_bind _ _ _ (Preserves_defined CacheSame_refl _ _) fun _ => ?_
    refine AssignsAtMost_bind _ _ _
      (Preserves_performTranspose CacheSame_refl CacheSame_trans _ _ _ _) fun _ => ?_
    refine AssignsAtMost_bind _ _ _ (Preserves_modifyState _ fun _ => ⟨rfl, rfl⟩) fun _ => ?_
    exact AssignsAtMost_cacheAssign _ _
  have hmid : ∀ (ws : Weights × List Int),
      Preserves (WriteBound [CacheWrite.weight transpose]) (
        match ws with
        | (original_weight, shape) => do
          let original_values ←
            defined (original_weight.values.map Buffer.data) "original_weight.values"
          let values ← newFloatArray original_weight.count
          let __do_jp : List Int → M Unit := fun axes => do
            let __discr ← defined (readAxes shape axes) "shape[axis]"
            match __discr with
              | (order, new_shape) => do
                let data ← performTranspose order shape original_values values.data
                let transposed_weight : Weights :=
                  { type := DataType.kFLOAT, values := some { values with data := data },
                    count := original_weight.count }
                modifyState fun s =>
                  { s with trt_weights_ := s.trt_weights_ ++ [transposed_weight] }
                cacheAssign transpose [TrtOpInput.weight transposed_weight new_shape]
          match attrs with
            | Attrs.transpose axes => do
              let y ← pure axes
              __do_jp y
            | Attrs.other => do
              let y ← raise (Err.undefined "transpose->attrs.as<TransposeAttrs>()")
              __do_jp y : M Unit) := by
    rintro ⟨w, shape⟩
    refine WriteBound_bind [] _ _ _
      (WriteBound_of_same_fun _ _ (Preserves_defined CacheSame_refl _ _)) fun _ => ?_
    refine WriteBound_bind [] _ _ _ (WriteBound_of_same_fun _ _ (fun _ => ⟨rfl, rfl⟩)) fun _ => ?_
    cases attrs with
    | transpose axes =>
      exact WriteBound_bind [] _ _ _ (WriteBound_of_same_fun _ _ (Preserves_pure CacheSame_refl _))
        fun _ => htail _ _ _ _ _
    | other =>
      exact WriteBound_bind [] _ _ _
        (WriteBound_of_same_fun _ _ (Preserves_raise CacheSame_refl _)) fun _ => htail _ _ _ _ _
  dsimp only
  split
  · exact WriteBound_bind [] _ _ _ (WriteBound_of_same_fun _ _ (Preserves_pure CacheSame_refl _))
      fun _ => hmid _
  · exact WriteBound_bind [] _ _ _ (WriteBound_of_same_fun _ _ (Preserves_raise CacheSame_refl _))
      fun _ => hmid _

theorem WriteBound_materializeWeightArg (env : Env) (arg : Expr) :
    Preserves (WriteBound ((weightWrites arg).map CacheWrite.weight))
      (materializeWeightArg env arg) := by
  cases arg with
  | var node => exact WriteBound_weight _ _ (AssignsAtMost_GetInputAsWeights env node)
  | constant node => exact WriteBound_weight _ _ (AssignsAtMost_GetConstantAsWeights env node)
  | tuple ptr fields => exact fun s => WriteBound_refl _ s
  | tupleGetItem ptr tuple index => exact fun s => WriteBound_refl _ s
  | call ptr op args attrs =>
    unfold materializeWeightArg weightWrites
    by_cases hop : op = "transpose"
    · subst hop
      simp only [if_true]
      cases args with
      | nil => exact fun s => WriteBound_refl _ s
      | cons first rest =>
        cases first with
        | var node => exact WriteBound_GetInputAsTransposedWeights env ptr attrs node
        | constant node => exact fun s => WriteBound_refl _ s
        | call p o a t => exact fun s => WriteBound_refl _ s
        | tuple p fields => exact fun s => WriteBound_refl _ s
        | tupleGetItem p t i => exact fun s => WriteBound_refl _ s
    · simp only [hop, if_false]
      exact fun s => WriteBound_refl _ s

theorem not_mem_of_contains_false (events : List CacheWrite) (x : CacheWrite)
    (h : (!events.contains x) = true) : x ∉ events := by
  simpa using h

theorem weightsUnshared_weight (events : List CacheWrite) (p : Nat)
    (h : weightsUnshared events = true) (hm : CacheWrite.weight p ∈ events) :
    events.count (CacheWrite.weight p) ≤ 1 ∧ CacheWrite.lowered p ∉ events := by
  unfold weightsUnshared at h
  have := List.all_eq_true.mp h _ hm
  simpa using this

theorem memoEvents_cached (ptr : Nat) (events : List CacheWrite) (s : TensorRTBuilder)
    (slots : List TrtOpInput) (h : mapFind s.node_output_map_ ptr = some slots) :
    memoEvents ptr events s = [] := by
  unfold memoEvents
  rw [h]

theorem memoEvents_fresh (ptr : Nat) (events : List CacheWrite) (s : TensorRTBuilder)
    (h : mapFind s.node_output_map_ ptr = none) :
    memoEvents ptr events s = events ++ [CacheWrite.lowered ptr] := by
  unfold memoEvents
  rw [h]

theorem visitEvents_call_eq (env : Env) (call : Nat) (op : String) (args : List Expr)
    (attrs : Attrs) (converter : TrtOpConverter) (s : TensorRTBuilder)
    (h : env.GetOpConverters op = some converter) :
    visitEvents env (Expr.call call op args attrs) s =
      memoEvents call (argsEvents env converter 0 args s) s := by
  rw [visitEvents]; simp only [h]

theorem visitEvents_call_unregistered_eq (env : Env) (call : Nat) (op : String)
    (args : List Expr) (attrs : Attrs) (s : TensorRTBuilder)
    (h : env.GetOpConverters op = none) :
    visitEvents env (Expr.call call op args attrs) s = memoEvents call [] s := by
  rw [visitEvents]; simp only [h]

theorem visitEvents_projection_eq (env : Env) (op : Nat) (tuple : Expr) (index : Int)
    (s : TensorRTBuilder) (hnot : ∀ ptr fields, tuple = Expr.tuple ptr fields → False) :
    visitEvents env (Expr.tupleGetItem op tuple index) s =
      memoEvents op (visitEvents env tuple s) s := by
  rw [visitEvents.eq_6 env s op tuple index hnot]

theorem count_memoEvents_le (ptr : Nat) (events bound : List CacheWrite)
    (s : TensorRTBuilder) (x : CacheWrite) (h : events.count x ≤ bound.count x) :
    (memoEvents ptr events s).count x ≤ (CacheWrite.lowered ptr :: bound).count x := by
  unfold memoEvents
  cases mapFind s.node_output_map_ ptr with
  | some slots => simp
  | none =>
    simp only [List.count_append, List.count_cons, List.count_nil]
    omega

theorem count_argumentEvents_le (converter : TrtOpConverter) (i : Nat) (arg : Expr)
    (visited bound : List CacheWrite) (x : CacheWrite)
    (h : visited.count x ≤ bound.count x) :
    (argumentEvents converter i arg visited).count x ≤
      (if weightPosition converter i then (weightWrites arg).map CacheWrite.weight
        else bound).count x := by
  unfold argumentEvents weightPosition
  cases hv : converter.variable_input_count with
  | true => simpa using h
  | false =>
    simp only [Bool.false_eq_true, if_false, Bool.not_false, Bool.true_and]
    cases hk : converter.input_types.get? i with
    | none => simp
    | some t =>
      by_cases ht : t = TrtInputType.kWeight
      · subst ht
        simp
      · have hne : (some t == some TrtInputType.kWeight) = false := by
          simp only [beq_eq_false_iff_ne, ne_eq, Option.some.injEq]
          exact ht
        simp only [ne_eq, ht, not_false_eq_true, if_true, hne, Bool.false_eq_true, if_false]
        exact h

theorem count_projection_le (env : Env) (op : Nat) (tuple : Expr) (index : Int)
    (hnot : ∀ ptr fields, tuple = Expr.tuple ptr fields → False)
    (ih : ∀ s x, (visitEvents env tuple s).count x ≤ (writeEvents env tuple).count x)
    (s : TensorRTBuilder) (x : CacheWrite) :
    (visitEvents env (Expr.tupleGetItem op tuple index) s).count x ≤
      (CacheWrite.lowered op :: writeEvents env tuple).count x := by
  rw [visitEvents_projection_eq env op tuple index s hnot]
  exact count_memoEvents_le _ _ _ _ _ (ih s x)

mutual
theorem count_visitEvents_le (env : Env) :
    ∀ (e : Expr) (s : TensorRTBuilder) (x : CacheWrite),
      (visitEvents env e s).count x ≤ (writeEvents env e).count x
  | .var node, s, x => by
    rw [visitEvents, writeEvents]
    exact count_memoEvents_le _ _ _ _ _ (le_refl _)
  | .constant node, s, x => by
    rw [visitEvents, writeEvents]
    exact count_memoEvents_le _ _ _ _ _ (le_refl _)
  | .call call op args attrs, s, x => by
    rw [writeEvents]
    cases hc : env.GetOpConverters op with
    | none =>
      rw [visitEvents_call_unregistered_eq env call op args attrs s hc]
      exact count_memoEvents_le _ _ _ _ _ (le_refl _)
    | some converter =>
      rw [visitEvents_call_eq env call op args attrs converter s hc]
      exact count_memoEvents_le _ _ _ _ _ (count_argsEvents_le env converter 0 args s x)
  | .tuple op fields, s, x => by
    rw [visitEvents, writeEvents]
    exact count_memoEvents_le _ _ _ _ _ (count_fieldsEvents_le env fields s x)
  | .tupleGetItem op (.tuple ptr fields) index, s, x => by
    rw [visitEvents, writeEvents, writeEvents]
    refine count_memoEvents_le _ _ _ _ _ ?_
    cases hr : readAt fields index with
    | none => simp
    | some item =>
      exact le_trans (count_nthEvents_le env fields index.toNat s x)
        (List.Sublist.count_le (List.sublist_cons_self _ _) x)
  | .tupleGetItem op (.var node) index, s, x => by
    rw [writeEvents]
    exact count_projection_le env op _ index (fun _ _ h => Expr.noConfusion h)
      (count_visitEvents_le env (.var node)) s x
  | .tupleGetItem op (.constant node) index, s, x => by
    rw [writeEvents]
    exact count_projection_le env op _ index (fun _ _ h => Expr.noConfusion h)
      (count_visitEvents_le env (.constant node)) s x
  | .tupleGetItem op (.call call o args attrs) index, s, x => by
    rw [writeEvents]
    exact count_projection_le env op _ index (fun _ _ h => Expr.noConfusion h)
      (count_visitEvents_le env (.call call o args attrs)) s x
  | .tupleGetItem op (.tupleGetItem p t i) index, s, x => by
    rw [writeEvents]
    exact count_projection_le env op _ index (fun _ _ h => Expr.noConfusion h)
      (count_visitEvents_le env (.tupleGetItem p t i)) s x
theorem count_argsEvents_le (env : Env) (converter : TrtOpConverter) :
    ∀ (i : Nat) (args : List Expr) (s : TensorRTBuilder) (x : CacheWrite),
      (argsEvents env converter i args s).count x ≤
        (argsWriteEvents env converter i args).count x
  | _, [], s, x => by
    rw [argsEvents, argsWriteEvents]
  | i, arg :: rest, s, x => by
    rw [argsEvents, argsWriteEvents, List.count_append, List.count_append]
    refine Nat.add_le_add
      (count_argumentEvents_le converter i arg _ _ x (count_visitEvents_le env arg s x)) ?_
    cases hr : visitArgument env converter i arg s with
    | error e s1 => simp
    | ok a s1 => exact count_argsEvents_le env converter (i + 1) rest s1 x
theorem count_fieldsEvents_le (env : Env) :
    ∀ (fields : List Expr) (s : TensorRTBuilder) (x : CacheWrite),
      (fieldsEvents env fields s).count x ≤ (fieldsWriteEvents env fields).count x
  | [], s, x => by
    rw [fieldsEvents, fieldsWriteEvents]
  | item :: rest, s, x => by
    rw [fieldsEvents, fieldsWriteEvents, List.count_append, List.count_append]
    refine Nat.add_le_add (count_visitEvents_le env item s x) ?_
    cases hr : VisitExpr env item s with
    | error e s1 => simp
    | ok a s1 => exact count_fieldsEvents_le env rest _ x
theorem count_nthEvents_le (env : Env) :
    ∀ (fields : List Expr) (n : Nat) (s : TensorRTBuilder) (x : CacheWrite),
      (nthEvents env fields n s).count x ≤ (fieldsWriteEvents env fields).count x
  | [], _, s, x => by
    rw [nthEvents]
    simp
  | item :: rest, 0, s, x => by
    rw [nthEvents, fieldsWriteEvents, List.count_append]
    exact le_trans (count_visitEvents_le env item s x) (Nat.le_add_right _ _)
  | item :: rest, n + 1, s, x => by
    rw [nthEvents, fieldsWriteEvents, List.count_append]
    exact le_trans (count_nthEvents_le env rest n s x) (Nat.le_add_left _ _)
end

theorem mem_of_count_le (events bound : List CacheWrite) (x : CacheWrite)
    (h : events.count x ≤ bound.count x) (hm : x ∈ events) : x ∈ bound :=
  List.count_pos_iff.mp (lt_of_lt_of_le (List.count_pos_iff.mpr hm) h)

theorem WriteBound_memoEvents (ptr : Nat) (events : TensorRTBuilder → List CacheWrite)
    (m : M Unit)
    (h : ∀ s, ¬ cached s ptr →
      WriteBound (events s ++ [CacheWrite.lowered ptr]) s (m s).state) (s : TensorRTBuilder) :
    WriteBound (memoEvents ptr (events s) s) s (memoized ptr m s).state := by
  unfold memoized memoEvents
  simp only [bind_apply, cacheFind]
  cases hf : mapFind s.node_output_map_ ptr with
  | some slots => exact WriteBound_refl _ s
  | none =>
    have hfresh : ¬ cached s ptr := by
      unfold cached
      rw [hf]; simp
    exact h s hfresh

theorem WriteBound_lowering (ptr : Nat) (events : TensorRTBuilder → List CacheWrite)
    {α : Type} (x : M α) (f : α → M Unit)
    (hx : ∀ s, WriteBound (events s) s (x s).state)
    (hp : ∀ s, CacheWrite.lowered ptr ∉ events s)
    (hf : ∀ a, LowersNode ptr [] (f a)) (s : TensorRTBuilder) (hfresh : ¬ cached s ptr) :
    WriteBound (events s ++ [CacheWrite.lowered ptr]) s ((x >>= f) s).state := by
  have h1 := hx s
  simp only [bind_apply]
  cases h : x s with
  | error e s1 =>
    rw [h] at h1
    exact WriteBound_mono (events s) _ _ _ (fun x => by simp [List.count_append]) h1
  | ok a s1 =>
    rw [h] at h1
    refine WriteBound_mono _ _ _ _ (fun y => ?_) (hf a s s1 (events s) hfresh (hp s) h1)
    simp only [List.count_cons, List.count_append, List.count_nil]
    omega

theorem WriteBound_leaf (ptr : Nat) (m : M Unit) (h : AssignsAtMost ptr m)
    (s : TensorRTBuilder) :
    WriteBound (memoEvents ptr [] s) s (memoized ptr m s).state := by
  refine WriteBound_memoEvents ptr (fun _ => []) m (fun s hfresh => ?_) s
  have := LowersNode_assign ptr m h s s [] hfresh (List.not_mem_nil _) (WriteBound_refl _ s)
  simpa using this

theorem WriteBound_argumentEvents (env : Env) (converter : TrtOpConverter) (i : Nat)
    (arg : Expr) (s : TensorRTBuilder)
    (h : weightPosition converter i = false →
      WriteBound (visitEvents env arg s) s (VisitExpr env arg s).state) :
    WriteBound (argumentEvents converter i arg (visitEvents env arg s)) s
      (visitArgument env converter i arg s).state := by
  unfold weightPosition at h
  unfold visitArgument argumentEvents
  cases hvar : converter.variable_input_count with
  | true =>
    simp only [if_true]
    exact h (by simp [hvar])
  | false =>
    simp only [Bool.false_eq_true, if_false]
    cases hk : converter.input_types.get? i with
    | none => exact WriteBound_refl _ s
    | some t =>
      by_cases ht : t = TrtInputType.kWeight
      · subst ht
        simp only [ne_eq, not_true_eq_false, if_false]
        exact WriteBound_materializeWeightArg env arg s
      · simp only [ne_eq, ht, not_false_eq_true, if_true]
        refine h ?_
        simp only [hvar, hk, Bool.not_false, Bool.true_and, beq_eq_false_iff_ne, ne_eq,
          Option.some.injEq]
        exact ht

theorem LowersNode_forward (op ptr : Nat) (index : Int) :
    LowersNode op [] (cacheIndex ptr >>= fun slots =>
      defined (readAt slots index) "node_output_map_[op->tuple][op->index]" >>= fun slot =>
      cacheAssign op [slot]) := by
  have h : LowersNode op ([] ++ ([] ++ [])) (cacheIndex ptr >>= fun slots =>
      defined (readAt slots index) "node_output_map_[op->tuple][op->index]" >>= fun slot =>
      cacheAssign op [slot]) := by
    refine LowersNode_bind op [] _ _ _ (WriteBound_cacheIndex _) (List.not_mem_nil _) fun _ => ?_
    refine LowersNode_bind op [] _ _ _
      (WriteBound_of_same_fun [] _ (Preserves_defined CacheSame_refl _ _))
      (List.not_mem_nil _) fun _ => ?_
    exact LowersNode_assign op _ (AssignsAtMost_cacheAssign op _)
  exact h

theorem LowersNode_forward_field (op ptr : Nat) :
    LowersNode op [] (cacheIndex ptr >>= fun slots => cacheAssign op slots) := by
  have h : LowersNode op ([] ++ []) (cacheIndex ptr >>= fun slots => cacheAssign op slots) := by
    refine LowersNode_bind op [] _ _ _ (WriteBound_cacheIndex _) (List.not_mem_nil _) fun _ => ?_
    exact LowersNode_assign op _ (AssignsAtMost_cacheAssign op _)
  exact h

theorem WriteBound_projection_events (env : Env) (op : Nat) (tuple : Expr) (index : Int)
    (hnot : ∀ ptr fields, tuple = Expr.tuple ptr fields → False)
    (ih : ∀ s, WriteBound (visitEvents env tuple s) s (VisitExpr env tuple s).state)
    (hmem : CacheWrite.lowered op ∉ writeEvents env tuple) (s : TensorRTBuilder) :
    WriteBound (visitEvents env (Expr.tupleGetItem op tuple index) s) s
      (VisitExpr env (Expr.tupleGetItem op tuple index) s).state := by
  rw [VisitExpr_projection_eq env op tuple index hnot,
    visitEvents_projection_eq env op tuple index s hnot]
  refine WriteBound_memoEvents op (visitEvents env tuple) _ (fun s hfresh => ?_) s
  exact WriteBound_lowering op _ _ _ ih
    (fun s hm => hmem (mem_of_count_le _ _ _ (count_visitEvents_le env tuple s _) hm))
    (fun _ => LowersNode_forward op _ index) s hfresh

mutual
theorem WriteBound_visitEvents (env : Env) :
    ∀ e : Expr, acyclic env e = true →
      ∀ s, WriteBound (visitEvents env e s) s (VisitExpr env e s).state
  | .var node, _ => by
    intro s
    rw [VisitExpr, visitEvents]
    exact WriteBound_leaf _ _ (AssignsAtMost_VisitExpr_VarNode env node) s
  | .constant node, _ => by
    intro s
    rw [VisitExpr, visitEvents]
    exact WriteBound_leaf _ _ (AssignsAtMost_VisitExpr_ConstantNode env node) s
  | .call call op args attrs, hac => by
    intro s
    cases h : env.GetOpConverters op with
    | none =>
      rw [VisitExpr_call_unregistered_eq env call op args attrs h,
        visitEvents_call_unregistered_eq env call op args attrs s h]
      exact WriteBound_leaf _ _ (AssignsAtMost_of_same _ _ (Preserves_raise CacheSame_refl _)) s
    | some converter =>
      rw [acyclic] at hac
      simp only [h, Bool.and_eq_true] at hac
      rw [VisitExpr_call_eq env call op args attrs converter h,
        visitEvents_call_eq env call op args attrs converter s h]
      refine WriteBound_memoEvents call (argsEvents env converter 0 args) _
        (fun s hfresh => ?_) s
      exact WriteBound_lowering call _ _ _ (WriteBound_argsEvents env converter 0 args hac.2)
        (fun s hm => not_mem_of_contains_false _ _ hac.1
          (mem_of_count_le _ _ _ (count_argsEvents_le env converter 0 args s _) hm))
        (fun _ => LowersNode_assign call _ (AssignsAtMost_convertCall _ _ _ _ _)) s hfresh
  | .tuple op fields, hac => by
    intro s
    rw [acyclic] at hac
    simp only [Bool.and_eq_true] at hac
    rw [VisitExpr_tuple_eq, visitEvents]
    refine WriteBound_memoEvents op (fieldsEvents env fields) _ (fun s hfresh => ?_) s
    exact WriteBound_lowering op _ _ _ (WriteBound_fieldsEvents env fields [] hac.2)
      (fun s hm => not_mem_of_contains_false _ _ hac.1
        (mem_of_count_le _ _ _ (count_fieldsEvents_le env fields s _) hm))
      (fun _ => LowersNode_assign op _ (AssignsAtMost_cacheAssign op _)) s hfresh
  | .tupleGetItem op (.tuple ptr fields) index, hac => by
    intro s
    rw [acyclic, acyclic] at hac
    simp only [Bool.and_eq_true] at hac
    have hmem := not_mem_of_contains_false _ _ hac.1
    rw [writeEvents] at hmem
    rw [VisitExpr_projection_literal_eq, visitEvents]
    refine WriteBound_memoEvents op
      (fun s => match readAt fields index with
        | none => []
        | some _ => nthEvents env fields index.toNat s) _ (fun s hfresh => ?_) s
    cases hr : readAt fields index with
    | none => exact WriteBound_refl _ s
    | some item =>
      exact WriteBound_lowering op (nthEvents env fields index.toNat)
        (VisitNth env fields index.toNat) _
        (WriteBound_nthEvents env fields index.toNat hac.2.2)
        (fun s hm => hmem (List.mem_cons_of_mem _
          (mem_of_count_le _ _ _ (count_nthEvents_le env fields index.toNat s _) hm)))
        (fun _ => LowersNode_forward_field op item.ptr) s hfresh
  | .tupleGetItem op (.var node) index, hac => by
    rw [acyclic] at hac
    simp only [Bool.and_eq_true] at hac
    exact WriteBound_projection_events env op _ index (fun _ _ h => Expr.noConfusion h)
      (WriteBound_visitEvents env (.var node) hac.2) (not_mem_of_contains_false _ _ hac.1)
  | .tupleGetItem op (.constant node) index, hac => by
    rw [acyclic] at hac
    simp only [Bool.and_eq_true] at hac
    exact WriteBound_projection_events env op _ index (fun _ _ h => Expr.noConfusion h)
      (WriteBound_visitEvents env (.constant node) hac.2) (not_mem_of_contains_false _ _ hac.1)
  | .tupleGetItem op (.call call o args attrs) index, hac => by
    rw [acyclic] at hac
    simp only [Bool.and_eq_true] at hac
    exact WriteBound_projection_events env op _ index (fun _ _ h => Expr.noConfusion h)
      (WriteBound_visitEvents env (.call call o args attrs) hac.2)
      (not_mem_of_contains_false _ _ hac.1)
  | .tupleGetItem op (.tupleGetItem p t i) index, hac => by
    rw [acyclic] at hac
    simp only [Bool.and_eq_true] at hac
    exact WriteBound_projection_events env op _ index (fun _ _ h => Expr.noConfusion h)
      (WriteBound_visitEvents env (.tupleGetItem p t i) hac.2)
      (not_mem_of_contains_false _ _ hac.1)
theorem WriteBound_argsEvents (env : Env) (converter : TrtOpConverter) :
    ∀ (i : Nat) (args : List Expr), argsAcyclic env converter i args = true →
      ∀ s, WriteBound (argsEvents env converter i args s) s
        (VisitArgs env converter i args s).state
  | _, [], _ => by
    intro s
    rw [VisitArgs, argsEvents]
    exact WriteBound_refl _ s
  | i, arg :: rest, hac => by
    intro s
    rw [argsAcyclic] at hac
    simp only [Bool.and_eq_true, Bool.or_eq_true] at hac
    rw [VisitArgs_cons_step, argsEvents]
    have hstep := WriteBound_argumentEvents env converter i arg s (fun hw => by
      have harg : acyclic env arg = true := by
        rcases hac.1 with h | h
        · rw [hw] at h; cases h
        · exact h
      exact WriteBound_visitEvents env arg harg s)
    simp only [bind_apply]
    cases hr : visitArgument env converter i arg s with
    | error e s1 =>
      rw [hr] at hstep
      simpa using hstep
    | ok a s1 =>
      rw [hr] at hstep
      exact WriteBound_trans _ _ _ _ _ hstep
        (WriteBound_argsEvents env converter (i + 1) rest hac.2 s1)
theorem WriteBound_fieldsEvents (env : Env) :
    ∀ (fields : List Expr) (outputs : List TrtOpInput), fieldsAcyclic env fields = true →
      ∀ s, WriteBound (fieldsEvents env fields s) s (VisitFields env fields outputs s).state
  | [], _, _ => by
    intro s
    rw [VisitFields, fieldsEvents]
    exact WriteBound_refl _ s
  | item :: rest, outputs, hac => by
    intro s
    rw [fieldsAcyclic] at hac
    simp only [Bool.and_eq_true] at hac
    rw [VisitFields_cons_eq, fieldsEvents]
    have hstep := WriteBound_visitEvents env item hac.1 s
    simp only [bind_apply]
    cases hr : VisitExpr env item s with
    | error e s1 =>
      rw [hr] at hstep
      simpa using hstep
    | ok a s1 =>
      rw [hr] at hstep
      have hidx := WriteBound_cacheIndex item.ptr s1
      dsimp only
      cases hc : cacheIndex item.ptr s1 with
      | error e s2 =>
        exfalso
        unfold cacheIndex at hc
        cases hm : mapFind s1.node_output_map_ item.ptr <;> rw [hm] at hc <;> cases hc
      | ok slots s2 =>
        rw [hc] at hidx
        have hrest := WriteBound_fieldsEvents env rest (outputs ++ slots) hac.2 s2
        have := WriteBound_trans _ _ _ _ _ hstep (WriteBound_trans _ _ _ _ _ hidx hrest)
        simpa [Result.state] using this
theorem WriteBound_nthEvents (env : Env) :
    ∀ (fields : List Expr) (n : Nat), fieldsAcyclic env fields = true →
      ∀ s, WriteBound (nthEvents env fields n s) s (VisitNth env fields n s).state
  | [], _, _ => by
    intro s
    rw [VisitNth, nthEvents]
    exact WriteBound_refl _ s
  | item :: rest, 0, hac => by
    intro s
    rw [fieldsAcyclic] at hac
    simp only [Bool.and_eq_true] at hac
    rw [VisitNth, nthEvents]
    exact WriteBound_visitEvents env item hac.1 s
  | item :: rest, n + 1, hac => by
    intro s
    rw [fieldsAcyclic] at hac
    simp only [Bool.and_eq_true] at hac
    rw [VisitNth, nthEvents]
    exact WriteBound_nthEvents env rest n hac.2 s
end

theorem Writes_raise (l : List Nat) {α : Type} (e : Err) : Writes l (raise e : M α) := by
  intro s a s' h
  cases h

theorem Writes_cacheAssign (ptr : Nat) (slots : List TrtOpInput) :
    Writes [ptr] (cacheAssign ptr slots) := by
  intro s a s' h
  simp only [cacheAssign, modifyState_apply, Result.ok.injEq] at h
  rw [← h.2]

theorem Writes_bind_nil (l : List Nat) {α β : Type} (x : M α) (f : α → M β)
    (hx : Writes [] x) (hf : ∀ a, Writes l (f a)) : Writes l (x >>= f) := by
  intro s b s' h
  simp only [bind_apply] at h
  cases hr : x s with
  | error e s1 => rw [hr] at h; cases h
  | ok a s1 =>
    rw [hr] at h
    have h1 := hx s a s1 hr
    rw [hf a s1 b s' h, h1, List.append_nil]

theorem Writes_bind_cons (ptr : Nat) (l : List Nat) {α β : Type} (x : M α) (f : α → M β)
    (hx : Writes [ptr] x) (hf : ∀ a, Writes l (f a)) : Writes (ptr :: l) (x >>= f) := by
  intro s b s' h
  simp only [bind_apply] at h
  cases hr : x s with
  | error e s1 => rw [hr] at h; cases h
  | ok a s1 =>
    rw [hr] at h
    have h1 := hx s a s1 hr
    rw [hf a s1 b s' h, h1, List.append_assoc, List.singleton_append]

theorem Writes_of_same {α : Type} (m : M α) (h : Preserves CacheSame m) : Writes [] m := by
  intro s a s' hr
  have := (h s).2
  rw [hr] at this
  rw [List.append_nil]
  exact this

theorem Writes_bind_same (l : List Nat) {α β : Type} (x : M α) (f : α → M β)
    (hx : Preserves CacheSame x) (hf : ∀ a, Writes l (f a)) : Writes l (x >>= f) :=
  Writes_bind_nil l x f (Writes_of_same x hx) hf

theorem Writes_cacheIndex (ptr : Nat) : Writes [] (cacheIndex ptr) := by
  intro s a s' h
  unfold cacheIndex at h
  cases hm : mapFind s.node_output_map_ ptr <;> rw [hm] at h <;>
    simp only [Result.ok.injEq] at h <;> rw [← h.2, List.append_nil]

theorem Writes_GetInputAsWeights (env : Env) (node : VarNode) :
    Writes [node.ptr] (GetInputAsWeights env node) := by
  unfold GetInputAsWeights
  refine Writes_bind_same _ _ _ (CacheSame_TrackVarNode env node) fun _ => ?_
  refine Writes_bind_same _ _ _ (Preserves_getState CacheSame_refl) fun _ => ?_
  refine Writes_bind_same _ _ _ (Preserves_defined CacheSame_refl _ _) fun _ => ?_
  refine Writes_bind_same _ _ _ (CacheSame_GetDLTensorAsWeights env _ _) fun _ => ?_
  refine Writes_bind_same _ _ _ (CacheSame_GetShape _) fun _ => ?_
  exact Writes_cacheAssign _ _

theorem Writes_GetConstantAsWeights (env : Env) (node : ConstantNode) :
    Writes [node.ptr] (GetConstantAsWeights env node) := by
  unfold GetConstantAsWeights GetNdArrayAsWeights
  refine Writes_bind_same _ _ _ (CacheSame_GetDLTensorAsWeights env _ _) fun _ => ?_
  exact Writes_cacheAssign _ _

theorem Writes_VisitExpr_VarNode (env : Env) (node : VarNode) :
    Writes [node.ptr] (VisitExpr_VarNode env node) := by
  unfold VisitExpr_VarNode
  refine Writes_bind_same _ _ _ (CacheSame_TrackVarNode env node) fun _ => ?_
  refine Writes_bind_same _ _ _ (CacheSame_GetShape _) fun _ => ?_
  refine Writes_bind_same _ _ _ (Preserves_CHECK CacheSame_refl _ _) fun _ => ?_
  refine Writes_bind_same _ _ _ (fun _ => ⟨rfl, rfl⟩) fun _ => ?_
  refine Writes_bind_same _ _ _ (Preserves_modifyState _ fun _ => ⟨rfl, rfl⟩) fun _ => ?_
  exact Writes_cacheAssign _ _

theorem Writes_VisitExpr_ConstantNode (env : Env) (node : ConstantNode) :
    Writes [node.ptr] (VisitExpr_ConstantNode env node) := by
  unfold VisitExpr_ConstantNode GetNdArrayAsWeights
  refine Writes_bind_same _ _ _ (CacheSame_GetDLTensorAsWeights env _ _) fun _ => ?_
  refine Writes_bind_same _ _ _ (Preserves_getState CacheSame_refl) fun st => ?_
  dsimp only
  split <;>
    first
    | exact Writes_raise _ _
    | exact Writes_bind_same _ _ _ (Preserves_modifyState _ fun _ => ⟨rfl, rfl⟩)
        fun _ => Writes_cacheAssign _ _

theorem Writes_convertCall (converter : TrtOpConverter) (call : Nat) (op_name : String)
    (attrs : Attrs) (args : List Nat) :
    Writes [call] (convertCall converter call op_name attrs args) := by
  unfold convertCall
  refine Writes_bind_same _ _ _ (Preserves_gatherInputs CacheSame_refl CacheSame_trans _ _)
    fun inputs => ?_
  refine Writes_bind_same _ _ _ ?_ fun _ => ?_
  · split
    · exact Preserves_CHECK CacheSame_refl _ _
    · exact Preserves_pure CacheSame_refl _
  refine Writes_bind_same _ _ _ (Preserves_getState CacheSame_refl) fun st => ?_
  refine Writes_bind_same _ _ _ (Preserves_modifyState _ fun _ => ⟨rfl, rfl⟩) fun _ => ?_
  split
  · exact Writes_raise _ _
  · exact Writes_bind_same _ _ _ (Preserves_modifyState _ fun _ => ⟨rfl, rfl⟩)
      fun _ => Writes_cacheAssign _ _

theorem Writes_GetInputAsTransposedWeights (env : Env) (transpose : Nat) (attrs : Attrs)
    (node : VarNode) :
    Writes [node.ptr, transpose] (GetInputAsTransposedWeights env transpose attrs node) := by
  unfold GetInputAsTransposedWeights
  refine Writes_bind_cons _ _ _ _ (Writes_GetInputAsWeights env node) fun _ => ?_
  refine Writes_bind_nil _ _ _ (Writes_cacheIndex _) fun _ => ?_
  refine Writes_bind_same _ _ _ (Preserves_CHECK CacheSame_refl _ _) fun _ => ?_
  refine Writes_bind_nil _ _ _ (Writes_cacheIndex _) fun slots => ?_
  have htail : ∀ (w : Weights) (shape : List Int) (original_values : List float)
      (values : Buffer) (axes : List Int),
      Writes [transpose] (do
        let __discr ← defined (readAxes shape axes) "shape[axis]"
        match __discr with
          | (order, new_shape) => do
            let data ← performTranspose order shape original_values values.data
            let transposed_weight : Weights :=
              { type := DataType.kFLOAT, values := some { values with data := data },
                count := w.count }
            modifyState fun s => { s with trt_weights_ := s.trt_weights_ ++ [transposed_weight] }
            cacheAssign transpose [TrtOpInput.weight transposed_weight new_shape] : M Unit) := by
    intro w shape original_values values axes
    refine Writes_bind_same _ _ _ (Preserves_defined CacheSame_refl _ _) fun _ => ?_
    refine Writes_bind_same _ _ _
      (Preserves_performTranspose CacheSame_refl CacheSame_trans _ _ _ _) fun _ => ?_
    refine Writes_bind_same _ _ _ (Preserves_modifyState _ fun _ => ⟨rfl, rfl⟩) fun _ => ?_
    exact Writes_cacheAssign _ _
  have hmid : ∀ (ws : Weights × List Int),
      Writes [transpose] (
        match ws with
        | (original_weight, shape) => do
          let original_values ←
            defined (original_weight.values.map Buffer.data) "original_weight.values"
          let values ← newFloatArray original_weight.count
          let __do_jp : List Int → M Unit := fun axes => do
            let __discr ← defined (readAxes shape axes) "shape[axis]"
            match __discr with
              | (order, new_shape) => do
                let data ← performTranspose order shape original_values values.data
                let transposed_weight : Weights :=
                  { type := DataType.kFLOAT, values := some { values with data := data },
                    count := original_weight.count }
                modifyState fun s =>
                  { s with trt_weights_ := s.trt_weights_ ++ [transposed_weight] }
                cacheAssign transpose [TrtOpInput.weight transposed_weight new_shape]
          match attrs with
            | Attrs.transpose axes => do
              let y ← pure axes
              __do_jp y
            | Attrs.other => do
              let y ← raise (Err.undefined "transpose->attrs.as<TransposeAttrs>()")
              __do_jp y : M Unit) := by
    rintro ⟨w, shape⟩
    refine Writes_bind_same _ _ _ (Preserves_defined CacheSame_refl _ _) fun _ => ?_
    refine Writes_bind_same _ _ _ (fun _ => ⟨rfl, rfl⟩) fun _ => ?_
    cases attrs with
    | transpose axes =>
      exact Writes_bind_same _ _ _ (Preserves_pure CacheSame_refl _) fun _ => htail _ _ _ _ _
    | other =>
      exact Writes_bind_same _ _ _ (Preserves_raise CacheSame_refl _) fun _ => htail _ _ _ _ _
  dsimp only
  split
  · exact Writes_bind_same _ _ _ (Preserves_pure CacheSame_refl _) fun _ => hmid _
  · exact Writes_bind_same _ _ _ (Preserves_raise CacheSame_refl _) fun _ => hmid _

theorem Writes_materializeWeightArg (env : Env) (arg : Expr) :
    Writes (weightWrites arg) (materializeWeightArg env arg) := by
  cases arg with
  | var node => exact Writes_GetInputAsWeights env node
  | constant node => exact Writes_GetConstantAsWeights env node
  | tuple ptr fields => exact Writes_raise _ _
  | tupleGetItem ptr tuple index => exact Writes_raise _ _
  | call ptr op args attrs =>
    unfold materializeWeightArg weightWrites
    by_cases hop : op = "transpose"
    · subst hop
      simp only [if_true]
      cases args with
      | nil => exact Writes_raise _ _
      | cons first rest =>
        cases first with
        | var node => exact Writes_GetInputAsTransposedWeights env ptr attrs node
        | constant node => exact Writes_raise _ _
        | call p o a t => exact Writes_raise _ _
        | tuple p fields => exact Writes_raise _ _
        | tupleGetItem p t i => exact Writes_raise _ _
    · simp only [hop, if_false]
      exact Writes_raise _ _

theorem WritesEvents_memoized (ptr : Nat) (events : TensorRTBuilder → List CacheWrite)
    (m : M Unit) (h : WritesEvents (fun s => events s ++ [CacheWrite.lowered ptr]) m) :
    WritesEvents (fun s => memoEvents ptr (events s) s) (memoized ptr m) := by
  intro s a s' hr
  unfold memoized at hr
  simp only [bind_apply, cacheFind] at hr
  cases hf : mapFind s.node_output_map_ ptr with
  | some slots =>
    rw [hf] at hr
    simp only [pure_apply, Result.ok.injEq] at hr
    rw [← hr.2]
    simp only [memoEvents_cached ptr _ s slots hf, List.map_nil, List.append_nil]
  | none =>
    rw [hf] at hr
    simp only [memoEvents_fresh ptr _ s hf]
    exact h s a s' hr

theorem WritesEvents_lowering (ptr : Nat) (events : TensorRTBuilder → List CacheWrite)
    {α : Type} (x : M α) (f : α → M Unit) (hx : WritesEvents events x)
    (hf : ∀ a, Writes [ptr] (f a)) :
    WritesEvents (fun s => events s ++ [CacheWrite.lowered ptr]) (x >>= f) := by
  intro s b s' h
  simp only [bind_apply] at h
  cases hr : x s with
  | error e s1 => rw [hr] at h; cases h
  | ok a s1 =>
    rw [hr] at h
    rw [hf a s1 b s' h, hx s a s1 hr]
    simp [CacheWrite.ptr]

theorem WritesEvents_leaf (ptr : Nat) (m : M Unit) (h : Writes [ptr] m) :
    WritesEvents (fun s => memoEvents ptr [] s) (memoized ptr m) := by
  refine WritesEvents_memoized ptr (fun _ => []) m ?_
  intro s a s' hr
  rw [h s a s' hr]
  simp [CacheWrite.ptr]

theorem WritesEvents_argument (env : Env) (converter : TrtOpConverter) (i : Nat) (arg : Expr)
    (h : WritesEvents (visitEvents env arg) (VisitExpr env arg)) :
    WritesEvents (fun s => argumentEvents converter i arg (visitEvents env arg s))
      (visitArgument env converter i arg) := by
  unfold visitArgument argumentEvents
  cases hvar : converter.variable_input_count with
  | true =>
    simp only [if_true]
    exact h
  | false =>
    simp only [Bool.false_eq_true, if_false]
    cases hk : converter.input_types.get? i with
    | none =>
      intro s a s' hr
      cases hr
    | some t =>
      by_cases ht : t = TrtInputType.kWeight
      · subst ht
        simp only [ne_eq, not_true_eq_false, if_false]
        intro s a s' hr
        rw [Writes_materializeWeightArg env arg s a s' hr, List.map_map]
        have : CacheWrite.ptr ∘ CacheWrite.weight = id := rfl
        rw [this, List.map_id]
      · simp only [ne_eq, ht, not_false_eq_true, if_true]
        exact h

theorem WritesEvents_projection (env : Env) (op : Nat) (tuple : Expr) (index : Int)
    (hnot : ∀ ptr fields, tuple = Expr.tuple ptr fields → False)
    (ih : WritesEvents (visitEvents env tuple) (VisitExpr env tuple)) :
    WritesEvents (visitEvents env (Expr.tupleGetItem op tuple index))
      (VisitExpr env (Expr.tupleGetItem op tuple index)) := by
  intro s a s' hr
  rw [VisitExpr_projection_eq env op tuple index hnot] at hr
  rw [visitEvents_projection_eq env op tuple index s hnot]
  refine WritesEvents_memoized op (visitEvents env tuple) _ ?_ s a s' hr
  refine WritesEvents_lowering op _ _ _ ih fun _ => ?_
  refine Writes_bind_nil _ _ _ (Writes_cacheIndex _) fun _ => ?_
  refine Writes_bind_same _ _ _ (Preserves_defined CacheSame_refl _ _) fun _ => ?_
  exact Writes_cacheAssign _ _

mutual
theorem WritesEvents_VisitExpr (env : Env) :
    ∀ e : Expr, WritesEvents (visitEvents env e) (VisitExpr env e)
  | .var node => by
    intro s a s' hr
    rw [VisitExpr] at hr
    rw [visitEvents]
    exact WritesEvents_leaf _ _ (Writes_VisitExpr_VarNode env node) s a s' hr
  | .constant node => by
    intro s a s' hr
    rw [VisitExpr] at hr
    rw [visitEvents]
    exact WritesEvents_leaf _ _ (Writes_VisitExpr_ConstantNode env node) s a s' hr
  | .call call op args attrs => by
    intro s a s' hr
    cases h : env.GetOpConverters op with
    | none =>
      rw [VisitExpr_call_unregistered_eq env call op args attrs h] at hr
      rw [visitEvents_call_unregistered_eq env call op args attrs s h]
      refine WritesEvents_memoized call (fun _ => []) _ ?_ s a s' hr
      intro s a s' hr
      cases hr
    | some converter =>
      rw [VisitExpr_call_eq env call op args attrs converter h] at hr
      rw [visitEvents_call_eq env call op args attrs converter s h]
      refine WritesEvents_memoized call (argsEvents env converter 0 args) _ ?_ s a s' hr
      exact WritesEvents_lowering call _ _ _ (WritesEvents_VisitArgs env converter 0 args)
        fun _ => Writes_convertCall _ _ _ _ _
  | .tuple op fields => by
    intro s a s' hr
    rw [VisitExpr_tuple_eq] at hr
    rw [visitEvents]
    refine WritesEvents_memoized op (fieldsEvents env fields) _ ?_ s a s' hr
    exact WritesEvents_lowering op _ _ _ (WritesEvents_VisitFields env fields [])
      fun _ => Writes_cacheAssign _ _
  | .tupleGetItem op (.tuple ptr fields) index => by
    intro s a s' hr
    rw [VisitExpr_projection_literal_eq] at hr
    rw [visitEvents]
    refine WritesEvents_memoized op
      (fun s => match readAt fields index with
        | none => []
        | some _ => nthEvents env fields index.toNat s) _ ?_ s a s' hr
    cases hi : readAt fields index with
    | none =>
      intro s a s' hr
      cases hr
    | some item =>
      exact WritesEvents_lowering op (nthEvents env fields index.toNat)
        (VisitNth env fields index.toNat) _ (WritesEvents_VisitNth env fields index.toNat)
        fun _ => Writes_bind_nil _ _ _ (Writes_cacheIndex _) fun _ => Writes_cacheAssign _ _
  | .tupleGetItem op (.var node) index =>
    WritesEvents_projection env op _ index (fun _ _ h => Expr.noConfusion h)
      (WritesEvents_VisitExpr env (.var node))
  | .tupleGetItem op (.constant node) index =>
    WritesEvents_projection env op _ index (fun _ _ h => Expr.noConfusion h)
      (WritesEvents_VisitExpr env (.constant node))
  | .tupleGetItem op (.call call o args attrs) index =>
    WritesEvents_projection env op _ index (fun _ _ h => Expr.noConfusion h)
      (WritesEvents_VisitExpr env (.call call o args attrs))
  | .tupleGetItem op (.tupleGetItem p t i) index =>
    WritesEvents_projection env op _ index (fun _ _ h => Expr.noConfusion h)
      (WritesEvents_VisitExpr env (.tupleGetItem p t i))
theorem WritesEvents_VisitArgs (env : Env) (converter : TrtOpConverter) :
    ∀ (i : Nat) (args : List Expr),
      WritesEvents (argsEvents env converter i args) (VisitArgs env converter i args)
  | _, [] => by
    intro s a s' hr
    rw [VisitArgs] at hr
    rw [argsEvents]
    simp only [pure_apply, Result.ok.injEq] at hr
    rw [← hr.2]
    simp
  | i, arg :: rest => by
    intro s a s' hr
    rw [VisitArgs_cons_step] at hr
    rw [argsEvents]
    simp only [bind_apply] at hr
    cases hv : visitArgument env converter i arg s with
    | error e s1 => rw [hv] at hr; cases hr
    | ok b s1 =>
      rw [hv] at hr
      dsimp only at hr ⊢
      rw [WritesEvents_VisitArgs env converter (i + 1) rest s1 a s' hr,
        WritesEvents_argument env converter i arg (WritesEvents_VisitExpr env arg) s b s1 hv,
        List.map_append, List.append_assoc]
theorem WritesEvents_VisitFields (env : Env) :
    ∀ (fields : List Expr) (outputs : List TrtOpInput),
      WritesEvents (fieldsEvents env fields) (VisitFields env fields outputs)
  | [], outputs => by
    intro s a s' hr
    rw [VisitFields] at hr
    rw [fieldsEvents]
    simp only [pure_apply, Result.ok.injEq] at hr
    rw [← hr.2]
    simp
  | item :: rest, outputs => by
    intro s a s' hr
    rw [VisitFields_cons_eq] at hr
    rw [fieldsEvents]
    simp only [bind_apply] at hr
    cases hv : VisitExpr env item s with
    | error e s1 => rw [hv] at hr; cases hr
    | ok b s1 =>
      rw [hv] at hr
      dsimp only at hr ⊢
      cases hc : cacheIndex item.ptr s1 with
      | error e s2 => rw [hc] at hr; cases hr
      | ok slots s2 =>
        rw [hc] at hr
        dsimp only at hr
        rw [WritesEvents_VisitFields env rest (outputs ++ slots) s2 a s' hr,
          Writes_cacheIndex item.ptr s1 slots s2 hc,
          WritesEvents_VisitExpr env item s b s1 hv,
          List.map_append, List.append_nil, List.append_assoc]
        rfl
theorem WritesEvents_VisitNth (env : Env) :
    ∀ (fields : List Expr) (n : Nat),
      WritesEvents (nthEvents env fields n) (VisitNth env fields n)
  | [], _ => by
    intro s a s' hr
    rw [VisitNth] at hr
    cases hr
  | item :: rest, 0 => by
    intro s a s' hr
    rw [VisitNth] at hr
    rw [nthEvents]
    exact WritesEvents_VisitExpr env item s a s' hr
  | item :: rest, n + 1 => by
    intro s a s' hr
    rw [VisitNth] at hr
    rw [nthEvents]
    exact WritesEvents_VisitNth env rest n s a s' hr
end

theorem count_map_ptr (events : List CacheWrite) (p : Nat) :
    (events.map CacheWrite.ptr).count p =
      events.count (CacheWrite.lowered p) + events.count (CacheWrite.weight p) := by
  induction events with
  | nil => rfl
  | cons x rest ih =>
    cases x with
    | lowered q =>
      by_cases hq : q = p
      · subst hq
        simp only [List.map_cons, CacheWrite.ptr, List.count_cons_self, ih]
        rw [List.count_cons_of_ne (by simp)]
        omega
      · rw [List.map_cons, List.count_cons_of_ne (by simpa [CacheWrite.ptr] using Ne.symm hq), ih,
          List.count_cons_of_ne (by simpa using Ne.symm hq), List.count_cons_of_ne (by simp)]
    | weight q =>
      by_cases hq : q = p
      · subst hq
        simp only [List.map_cons, CacheWrite.ptr, List.count_cons_self, ih]
        rw [List.count_cons_of_ne (by simp)]
        omega
      · rw [List.map_cons, List.count_cons_of_ne (by simpa [CacheWrite.ptr] using Ne.symm hq), ih,
          List.count_cons_of_ne (by simp), List.count_cons_of_ne (by simpa using Ne.symm hq)]

theorem weightsUnshared_of_nodup (events : List CacheWrite)
    (h : (events.map CacheWrite.ptr).Nodup) : weightsUnshared events = true := by
  unfold weightsUnshared
  rw [List.all_eq_true]
  intro x hx
  cases x with
  | lowered q => rfl
  | weight q =>
    have hc := List.nodup_iff_count_le_one.mp h q
    rw [count_map_ptr] at hc
    have hpos : 0 < events.count (CacheWrite.weight q) := List.count_pos_iff.mpr hx
    have hl : events.count (CacheWrite.lowered q) = 0 := by omega
    have hnl : CacheWrite.lowered q ∉ events := List.count_eq_zero.mp hl
    have hcont : events.contains (CacheWrite.lowered q) = false := by
      cases hb : events.contains (CacheWrite.lowered q) with
      | false => rfl
      | true => exact absurd (by simpa using hb) hnl
    simp only [Bool.and_eq_true, decide_eq_true_eq, Bool.not_eq_true']
    exact ⟨by omega, hcont⟩

/-- C16 (counterexample). Lowering `op_x(v, v)`, with `op_x` declaring a tensor and a weight,
succeeds and assigns the cache entry of `v` twice, first by the visit of `v` and then by the
weight materialiser; so does lowering `op_x(op_w(v), v)`, where `v` is the weight argument of
two calls. -/
theorem VisitExpr_shared_variable_written_twice :
    (VisitExpr sampleEnv sampleCallShared sampleBuilder).failed = false ∧
    (VisitExpr sampleEnv sampleCallShared sampleBuilder).state.cache_writes = [100, 100, 120] ∧
    (VisitExpr sampleEnv sampleTwoWeightUses sampleBuilder).failed = false ∧
    (VisitExpr sampleEnv sampleTwoWeightUses sampleBuilder).state.cache_writes
      = [100, 121, 100, 122] ∧
    sampleBuilder.cache_writes = [] ∧
    acyclic sampleEnv sampleCallShared = true ∧
    acyclic sampleEnv sampleTwoWeightUses = true := by
  decide

/-- C16 (amended). During one visit of a graph whose node identities are acyclic, the entry of
a node is assigned at most once by the memoised lowering of the node, if the pass lowers the
node as a tensor, and at most once more for each time the pass materialises the node as a
weight-typed argument; the assignments of a visit that returns are exactly these, in the order
of the pass. So every entry is written at most once when, during the pass, no node is
materialised as a weight more than once and no node materialised as a weight is also lowered as
a tensor; for a visit that returns this condition is also necessary. A node reached again
through a shared subgraph is skipped by the memoisation and counts once; each assignment of the
pass belongs to an occurrence of the node in the graph. -/
theorem cache_written_at_most_once (env : Env) (e : Expr) (s : TensorRTBuilder)
    (hac : acyclic env e = true) :
    ∃ l, (VisitExpr env e s).state.cache_writes = s.cache_writes ++ l ∧
      (∀ p, l.count p ≤
        (if CacheWrite.lowered p ∈ visitEvents env e s then 1 else 0)
          + (visitEvents env e s).count (CacheWrite.weight p)) ∧
      (∀ p, cached s p → l.count p ≤ (visitEvents env e s).count (CacheWrite.weight p)) ∧
      (weightsUnshared (visitEvents env e s) = true → l.Nodup) ∧
      ((VisitExpr env e s).failed = false →
        l = (visitEvents env e s).map CacheWrite.ptr ∧
          (l.Nodup → weightsUnshared (visitEvents env e s) = true)) ∧
      (∀ x, (visitEvents env e s).count x ≤ (writeEvents env e).count x) := by
  obtain ⟨_, l, hl, hb⟩ := WriteBound_visitEvents env e hac s
  refine ⟨l, hl, fun p => ?_, fun p hp => ?_, fun hun => ?_, fun hok => ?_,
    count_visitEvents_le env e s⟩
  · rcases hb p with h | ⟨h, hm, _, _⟩
    · exact le_trans h (Nat.le_add_left _ _)
    · simp only [hm, if_true]
      omega
  · rcases hb p with h | ⟨_, _, hn, _⟩
    · exact h
    · exact absurd hp hn
  · rw [List.nodup_iff_count_le_one]
    intro p
    by_cases hw : CacheWrite.weight p ∈ visitEvents env e s
    · obtain ⟨hc, hnl⟩ := weightsUnshared_weight _ p hun hw
      rcases hb p with h | ⟨_, hm, _, _⟩
      · exact le_trans h hc
      · exact absurd hm hnl
    · have h0 : (visitEvents env e s).count (CacheWrite.weight p) = 0 :=
        List.count_eq_zero_of_not_mem hw
      rcases hb p with h | ⟨h, _, _, _⟩ <;> omega
  · cases hr : VisitExpr env e s with
    | error err s' =>
      rw [hr] at hok
      cases hok
    | ok a s' =>
      have hw := WritesEvents_VisitExpr env e s a s' hr
      rw [hr] at hl
      simp only [Result.state] at hl
      rw [hw] at hl
      have he : l = (visitEvents env e s).map CacheWrite.ptr := (List.append_cancel_left hl).symm
      exact ⟨he, fun hn => weightsUnshared_of_nodup _ (he ▸ hn)⟩

theorem cache_written_at_most_once_witness :
    (∃ l, (VisitExpr sampleAddEnv sampleAddShared sampleBuilder).state.cache_writes
        = sampleBuilder.cache_writes ++ l ∧ l.Nodup ∧ l = [100, 101, 102, 300]) ∧
    (∃ l, (VisitExpr sampleEnv sampleTupleShared sampleBuilder).state.cache_writes
        = sampleBuilder.cache_writes ++ l ∧ l.Nodup ∧ l = [100, 121, 130]) :=
  ⟨match cache_written_at_most_once sampleAddEnv sampleAddShared sampleBuilder (by decide) with
    | ⟨l, hl, _, _, hn, he, _⟩ =>
      ⟨l, hl, hn (by decide), (he (by decide)).1.trans (by decide)⟩,
   match cache_written_at_most_once sampleEnv sampleTupleShared sampleBuilder (by decide) with
    | ⟨l, hl, _, _, hn, he, _⟩ =>
      ⟨l, hl, hn (by decide), (he (by decide)).1.trans (by decide)⟩⟩

/-! ## The index maps of the transpose kernels (C24) -/

theorem nodup_flatMap_of_disjoint {ι κ : Type} (l : List ι) (f : ι → List κ) (hl : l.Nodup)
    (hf : ∀ x ∈ l, (f x).Nodup)
    (hd : ∀ x ∈ l, ∀ y ∈ l, x ≠ y → ∀ t, t ∈ f x → t ∈ f y → False) :
    (l.flatMap f).Nodup := by
  induction l with
  | nil => simp
  | cons x xs ih =>
    rw [List.flatMap_cons, List.nodup_append]
    have hx := List.nodup_cons.mp hl
    refine ⟨hf x (List.mem_cons_self _ _),
      ih hx.2 (fun y hy => hf y (List.mem_cons_of_mem _ hy))
        (fun y hy z hz => hd y (List.mem_cons_of_mem _ hy) z (List.mem_cons_of_mem _ hz)), ?_⟩
    intro t ht ht'
    obtain ⟨y, hy, hty⟩ := List.mem_flatMap.mp ht'
    exact hd x (List.mem_cons_self _ _) y (List.mem_cons_of_mem _ hy)
      (fun h => hx.1 (h ▸ hy)) t ht hty

theorem idx2_nodup (c k : Nat) : (idx2 c k).Nodup := by
  unfold idx2
  refine nodup_flatMap_of_disjoint _ _ (List.nodup_range c) ?_ ?_
  · intro i _
    exact List.Nodup.map (fun j j' h => (Prod.mk.inj h).2) (List.nodup_range k)
  · intro i _ i' _ hne t ht ht'
    obtain ⟨j, _, rfl⟩ := List.mem_map.mp ht
    obtain ⟨j', _, h⟩ := List.mem_map.mp ht'
    exact hne (Prod.mk.inj h).1.symm

theorem idx4_nodup (a b c d : Nat) : (idx4 a b c d).Nodup := by
  unfold idx4
  refine nodup_flatMap_of_disjoint _ _ (List.nodup_range a) ?_ ?_
  · intro i _
    refine nodup_flatMap_of_disjoint _ _ (List.nodup_range b) ?_ ?_
    · intro j _
      refine nodup_flatMap_of_disjoint _ _ (List.nodup_range c) ?_ ?_
      · intro k _
        exact List.Nodup.map (fun l l' h => by simpa using h) (List.nodup_range d)
      · intro k _ k' _ hne t ht ht'
        obtain ⟨l, _, rfl⟩ := List.mem_map.mp ht
        obtain ⟨l', _, h⟩ := List.mem_map.mp ht'
        simp only [Prod.mk.injEq, true_and] at h
        exact hne h.1.symm
    · intro j _ j' _ hne t ht ht'
      obtain ⟨k, _, hk⟩ := List.mem_flatMap.mp ht
      obtain ⟨l, _, rfl⟩ := List.mem_map.mp hk
      obtain ⟨k', _, hk'⟩ := List.mem_flatMap.mp ht'
      obtain ⟨l', _, h⟩ := List.mem_map.mp hk'
      simp only [Prod.mk.injEq, true_and] at h
      exact hne h.1.symm
  · intro i _ i' _ hne t ht ht'
    obtain ⟨j, _, hj⟩ := List.mem_flatMap.mp ht
    obtain ⟨k, _, hk⟩ := List.mem_flatMap.mp hj
    obtain ⟨l, _, rfl⟩ := List.mem_map.mp hk
    obtain ⟨j', _, hj'⟩ := List.mem_flatMap.mp ht'
    obtain ⟨k', _, hk'⟩ := List.mem_flatMap.mp hj'
    obtain ⟨l', _, h⟩ := List.mem_map.mp hk'
    simp only [Prod.mk.injEq] at h
    exact hne h.1.symm

theorem radix_surj (M a p : Nat) (hM : 0 < M) (hp : p < a * M) :
    ∃ i r, i < a ∧ r < M ∧ p = i * M + r := by
  refine ⟨p / M, p % M, (Nat.div_lt_iff_lt_mul hM).2 hp, Nat.mod_lt _ hM, ?_⟩
  have := Nat.div_add_mod p M
  rw [Nat.mul_comm] at this
  exact this.symm

theorem radix4_surj (n0 n1 n2 n3 p : Nat) (h0 : 0 < n0) (h1 : 0 < n1) (h2 : 0 < n2)
    (hp : p < n3 * (n2 * (n1 * n0))) :
    ∃ x0 x1 x2 x3, x0 < n0 ∧ x1 < n1 ∧ x2 < n2 ∧ x3 < n3 ∧
      p = x3 * (n2 * (n1 * n0)) + (x2 * (n1 * n0) + (x1 * n0 + x0)) := by
  obtain ⟨x3, r3, hx3, hr3, e3⟩ := radix_surj (n2 * (n1 * n0)) n3 p (by positivity) hp
  obtain ⟨x2, r2, hx2, hr2, e2⟩ := radix_surj (n1 * n0) n2 r3 (by positivity) hr3
  obtain ⟨x1, x0, hx1, hx0, e1⟩ := radix_surj n0 n1 r2 h0 hr2
  exact ⟨x0, x1, x2, x3, hx0, hx1, hx2, hx3, by rw [e3, e2, e1]⟩

theorem idx4_eq_nil (a b c d : Nat) (hz : a * b * c * d = 0) : idx4 a b c d = [] := by
  apply List.eq_nil_iff_forall_not_mem.2
  intro t ht
  obtain ⟨hi, hj, hk, hl⟩ := (mem_idx4 a b c d _).1 ht
  have : 0 < a * b * c * d := by
    have h1 : 0 < a := by omega
    have h2 : 0 < b := by omega
    have h3 : 0 < c := by omega
    have h4 : 0 < d := by omega
    positivity
  omega

/-- The four nested loops of `TransposeWeights4D` as one loop over the index tuples. -/
theorem TransposeWeights4D_loop {α : Type} (a b c d : Nat) (S0 S1 S2 S3 : Int)
    (inp out0 : List α) :
    TransposeWeights4D [(a : Int), b, c, d] [S0, S1, S2, S3] inp out0 =
      (idx4 a b c d).foldlM (fun out t =>
        (readAt inp (inputIndex4 b c d t)).bind
          (fun v => writeAt out (outputIndex4 S0 S1 S2 S3 t) v)) out0 := by
  refine Eq.trans ?_ (nested4_flat a b c d (fun i j k l out =>
      (readAt inp (inputIndex4 b c d (i, j, k, l))).bind
      (fun v => writeAt out (outputIndex4 S0 S1 S2 S3 (i, j, k, l)) v)) out0)
  simp only [TransposeWeights4D, List.get?_cons_zero, List.get?_cons_succ, Option.bind_eq_bind,
    Option.some_bind, forInt_cast, Option.pure_def, Option.bind_some, inputIndex4, outputIndex4]

/-- The two nested loops of `TransposeWeights2D` as one loop over the index pairs. -/
theorem TransposeWeights2D_loop {α : Type} (c k : Nat) (inp out0 : List α) :
    TransposeWeights2D [(c : Int), k] inp out0 =
      (idx2 c k).foldlM (fun out t =>
        (readAt inp (inputIndex2 k t)).bind (fun v => writeAt out (outputIndex2 c t) v)) out0 := by
  rw [TransposeWeights2D_unfold]
  rfl

theorem outputIndex4_cast (S0 S1 S2 S3 i j k l : Nat)
    (h : i * S0 + j * S1 + k * S2 + l * S3 < 2147483648) :
    outputIndex4 S0 S1 S2 S3 (i, j, k, l) = ((i * S0 + j * S1 + k * S2 + l * S3 : Nat) : Int) := by
  unfold outputIndex4
  simp only
  rw [intMul_cast i S0 (by omega), intMul_cast j S1 (by omega), intMul_cast k S2 (by omega),
    intMul_cast l S3 (by omega), intAdd_cast _ _ (by omega), intAdd_cast _ _ (by omega),
    intAdd_cast _ _ (by omega)]

theorem inputIndex4_cast (a b c d i j k l : Nat) (hN : a * b * c * d < 2147483648)
    (hi : i < a) (hj : j < b) (hk : k < c) (hl : l < d) :
    inputIndex4 b c d (i, j, k, l) = ((((i * b + j) * c + k) * d + l : Nat) : Int) := by
  have hf := inIndex4_lt a b c d i j k l hi hj hk hl
  have ha : 0 < a := by omega
  have hb : 0 < b := by omega
  have hd : 0 < d := by omega
  have hbcd : b * c * d ≤ a * b * c * d := by
    calc b * c * d ≤ a * (b * c * d) := Nat.le_mul_of_pos_left _ ha
      _ = a * b * c * d := by ring
  have hbc : b * c ≤ b * c * d := Nat.le_mul_of_pos_right _ hd
  have hcd : c * d ≤ b * c * d := by
    calc c * d ≤ b * (c * d) := Nat.le_mul_of_pos_left _ hb
      _ = b * c * d := by ring
  unfold inputIndex4
  simp only
  rw [intMul_cast b c (by omega), intMul_cast (b * c) d (by omega), intMul_cast c d (by omega),
    intMul_cast i (b * c * d) (by omega), intMul_cast j (c * d) (by omega),
    intMul_cast k d (by omega), intMul_cast_one l (by omega),
    intAdd_cast _ _ (by omega), intAdd_cast _ _ (by omega), intAdd_cast _ _ (by omega)]
  congr 1
  ring

theorem IndexBijection_nil {ι : Type} (index : ι → Int) :
    IndexBijection ([] : List ι) 0 index := by
  refine ⟨List.nodup_nil, ?_, ?_, ?_⟩
  · intro t ht; cases ht
  · intro t ht; cases ht
  · intro p hp; exact absurd hp (Nat.not_lt_zero p)

theorem IndexBijection_outputIndex4 (a b c d S0 S1 S2 S3 : Nat)
    (hN : a * b * c * d < 2147483648)
    (hg : ∀ i j k l, i < a → j < b → k < c → l < d →
      i * S0 + j * S1 + k * S2 + l * S3 < a * b * c * d)
    (hinj : ∀ i j k l i' j' k' l', i < a → j < b → k < c → l < d →
      i' < a → j' < b → k' < c → l' < d →
      i * S0 + j * S1 + k * S2 + l * S3 = i' * S0 + j' * S1 + k' * S2 + l' * S3 →
      i = i' ∧ j = j' ∧ k = k' ∧ l = l')
    (hsurj : ∀ p, p < a * b * c * d → ∃ i j k l, i < a ∧ j < b ∧ k < c ∧ l < d ∧
      i * S0 + j * S1 + k * S2 + l * S3 = p) :
    IndexBijection (idx4 a b c d) (a * b * c * d) (outputIndex4 S0 S1 S2 S3) := by
  have hcast : ∀ i j k l, i < a → j < b → k < c → l < d →
      outputIndex4 S0 S1 S2 S3 (i, j, k, l)
        = ((i * S0 + j * S1 + k * S2 + l * S3 : Nat) : Int) := by
    intro i j k l hi hj hk hl
    exact outputIndex4_cast _ _ _ _ _ _ _ _ (by have := hg i j k l hi hj hk hl; omega)
  refine ⟨idx4_nodup a b c d, ?_, ?_, ?_⟩
  · rintro ⟨i, j, k, l⟩ ht
    obtain ⟨hi, hj, hk, hl⟩ := (mem_idx4 a b c d _).1 ht
    rw [hcast i j k l hi hj hk hl]
    exact ⟨Int.natCast_nonneg _, by exact_mod_cast hg i j k l hi hj hk hl⟩
  · rintro ⟨i, j, k, l⟩ ht ⟨i', j', k', l'⟩ ht' h
    obtain ⟨hi, hj, hk, hl⟩ := (mem_idx4 a b c d _).1 ht
    obtain ⟨hi', hj', hk', hl'⟩ := (mem_idx4 a b c d _).1 ht'
    rw [hcast i j k l hi hj hk hl, hcast i' j' k' l' hi' hj' hk' hl'] at h
    obtain ⟨rfl, rfl, rfl, rfl⟩ :=
      hinj i j k l i' j' k' l' hi hj hk hl hi' hj' hk' hl' (by exact_mod_cast h)
    rfl
  · intro p hp
    obtain ⟨i, j, k, l, hi, hj, hk, hl, e⟩ := hsurj p hp
    refine ⟨(i, j, k, l), (mem_idx4 a b c d _).2 ⟨hi, hj, hk, hl⟩, ?_⟩
    rw [hcast i j k l hi hj hk hl, e]

theorem IndexBijection_3201 (a b c d : Nat) (hN : a * b * c * d < 2147483648) :
    IndexBijection (idx4 a b c d) (a * b * c * d)
      (outputIndex4 b 1 (intMul a b) (intMul (intMul a b) c)) := by
  by_cases hz : a * b * c * d = 0
  · rw [idx4_eq_nil a b c d hz, hz]
    exact IndexBijection_nil _
  have ha : 0 < a := Nat.pos_of_ne_zero (fun h => hz (by simp [h]))
  have hb : 0 < b := Nat.pos_of_ne_zero (fun h => hz (by simp [h]))
  have hc : 0 < c := Nat.pos_of_ne_zero (fun h => hz (by simp [h]))
  have hd : 0 < d := Nat.pos_of_ne_zero (fun h => hz (by simp [h]))
  have hab : a * b ≤ a * b * c * d := by
    calc a * b ≤ a * b * (c * d) := Nat.le_mul_of_pos_right _ (by positivity)
      _ = a * b * c * d := by ring
  have habc : a * b * c ≤ a * b * c * d := Nat.le_mul_of_pos_right _ hd
  have e : ∀ i j k l : Nat, i * b + j * 1 + k * (a * b) + l * (a * b * c) =
      l * (c * (a * b)) + (k * (a * b) + (i * b + j)) := by intros; ring
  have hNe : d * (c * (a * b)) = a * b * c * d := by ring
  rw [intMul_cast a b (by omega), intMul_cast (a * b) c (by omega)]
  have := IndexBijection_outputIndex4 a b c d b 1 (a * b) (a * b * c) hN
    (by
      intro i j k l hi hj hk hl
      rw [e, ← hNe]
      exact radix4_lt b a c d j i k l hj hi hk hl)
    (by
      intro i j k l i' j' k' l' hi hj hk hl hi' hj' hk' hl' h
      rw [e, e] at h
      obtain ⟨h3, h2, h1, h0⟩ := radix4_inj b a c j i k l j' i' k' l' hj hi hk hj' hi' hk' h
      exact ⟨h1, h0, h2, h3⟩)
    (by
      intro p hp
      rw [← hNe] at hp
      obtain ⟨j, i, k, l, hj, hi, hk, hl, ep⟩ := radix4_surj b a c d p hb ha hc hp
      exact ⟨i, j, k, l, hi, hj, hk, hl, by rw [e, ep]⟩)
  simpa using this

theorem IndexBijection_2301 (a b c d : Nat) (hN : a * b * c * d < 2147483648) :
    IndexBijection (idx4 a b c d) (a * b * c * d)
      (outputIndex4 b 1 (intMul (intMul a b) d) (intMul a b)) := by
  by_cases hz : a * b * c * d = 0
  · rw [idx4_eq_nil a b c d hz, hz]
    exact IndexBijection_nil _
  have ha : 0 < a := Nat.pos_of_ne_zero (fun h => hz (by simp [h]))
  have hb : 0 < b := Nat.pos_of_ne_zero (fun h => hz (by simp [h]))
  have hc : 0 < c := Nat.pos_of_ne_zero (fun h => hz (by simp [h]))
  have hd : 0 < d := Nat.pos_of_ne_zero (fun h => hz (by simp [h]))
  have hab : a * b ≤ a * b * c * d := by
    calc a * b ≤ a * b * (c * d) := Nat.le_mul_of_pos_right _ (by positivity)
      _ = a * b * c * d := by ring
  have habd : a * b * d ≤ a * b * c * d := by
    calc a * b * d ≤ a * b * d * c := Nat.le_mul_of_pos_right _ hc
      _ = a * b * c * d := by ring
  have e : ∀ i j k l : Nat, i * b + j * 1 + k * (a * b * d) + l * (a * b) =
      k * (d * (a * b)) + (l * (a * b) + (i * b + j)) := by intros; ring
  have hNe : c * (d * (a * b)) = a * b * c * d := by ring
  rw [intMul_cast a b (by omega), intMul_cast (a * b) d (by omega)]
  have := IndexBijection_outputIndex4 a b c d b 1 (a * b * d) (a * b) hN
    (by
      intro i j k l hi hj hk hl
      rw [e, ← hNe]
      exact radix4_lt b a d c j i l k hj hi hl hk)
    (by
      intro i j k l i' j' k' l' hi hj hk hl hi' hj' hk' hl' h
      rw [e, e] at h
      obtain ⟨h3, h2, h1, h0⟩ := radix4_inj b a d j i l k j' i' l' k' hj hi hl hj' hi' hl' h
      exact ⟨h1, h0, h3, h2⟩)
    (by
      intro p hp
      rw [← hNe] at hp
      obtain ⟨j, i, l, k, hj, hi, hl, hk, ep⟩ := radix4_surj b a d c p hb ha hd hp
      exact ⟨i, j, k, l, hi, hj, hk, hl, by rw [e, ep]⟩)
  simpa using this

theorem IndexBijection_outputIndex2 (c k : Nat) (hN : c * k < 2147483648) :
    IndexBijection (idx2 c k) (c * k) (outputIndex2 c) := by
  have hglt : ∀ i j, i < c → j < k → j * c + i < c * k := by
    intro i j hi hj
    calc j * c + i < k * c := radix_lt j k c i hj hi
      _ = c * k := by ring
  have hcast : ∀ i j, i < c → j < k → outputIndex2 c (i, j) = ((j * c + i : Nat) : Int) := by
    intro i j hi hj
    have := hglt i j hi hj
    unfold outputIndex2
    simp only
    rw [intMul_cast j c (by omega), intAdd_cast _ _ (by omega)]
  refine ⟨idx2_nodup c k, ?_, ?_, ?_⟩
  · rintro ⟨i, j⟩ ht
    obtain ⟨hi, hj⟩ := (mem_idx2 c k _).1 ht
    rw [hcast i j hi hj]
    exact ⟨Int.natCast_nonneg _, by exact_mod_cast hglt i j hi hj⟩
  · rintro ⟨i, j⟩ ht ⟨i', j'⟩ ht' h
    obtain ⟨hi, hj⟩ := (mem_idx2 c k _).1 ht
    obtain ⟨hi', hj'⟩ := (mem_idx2 c k _).1 ht'
    rw [hcast i j hi hj, hcast i' j' hi' hj'] at h
    obtain ⟨rfl, rfl⟩ := radix_inj c j j' i i' hi hi' (by exact_mod_cast h)
    rfl
  · intro p hp
    have hc : 0 < c := Nat.pos_of_ne_zero (fun h => by simp [h] at hp)
    obtain ⟨j, i, hj, hi, e⟩ := radix_surj c k p hc (by rw [Nat.mul_comm]; exact hp)
    refine ⟨(i, j), (mem_idx2 c k _).2 ⟨hi, hj⟩, ?_⟩
    rw [hcast i j hi hj, e]

theorem performTranspose_3201_eq (shape0 shape1 shape2 shape3 : Int)
    (inp out0 : List float) (s : TensorRTBuilder) :
    performTranspose [3, 2, 0, 1] [shape0, shape1, shape2, shape3] inp out0 s =
      defined (TransposeWeights4D [shape0, shape1, shape2, shape3]
        [shape1, 1, intMul shape0 shape1, intMul (intMul shape0 shape1) shape2] inp out0)
        "TransposeWeights4D" s := by
  simp only [performTranspose, if_true, bind_apply, List.get?_cons_zero, List.get?_cons_succ,
    defined_some]

theorem performTranspose_2301_eq (shape0 shape1 shape2 shape3 : Int)
    (inp out0 : List float) (s : TensorRTBuilder) :
    performTranspose [2, 3, 0, 1] [shape0, shape1, shape2, shape3] inp out0 s =
      defined (TransposeWeights4D [shape0, shape1, shape2, shape3]
        [shape1, 1, intMul (intMul shape0 shape1) shape3, intMul shape0 shape1] inp out0)
        "TransposeWeights4D" s := by
  have hne : ¬ ([2, 3, 0, 1] : List Int) = [3, 2, 0, 1] := by decide
  simp only [performTranspose, hne, if_false, if_true, bind_apply, List.get?_cons_zero,
    List.get?_cons_succ, defined_some]

/-- C24. The transpose kernels write every output position exactly once and stay in bounds.
For a shape `[a, b, c, d]` whose element count `a*b*c*d` fits an `int`, the kernel
`TransposeWeights4D` is one loop over the index tuples `(i, j, k, l)` with `i<a, j<b, k<c, l<d`,
each visited once; with the output strides that `GetInputAsTransposedWeights` passes for the
orders (3,2,0,1) and (2,3,0,1), `output_index` maps these tuples one-to-one onto
`0 .. a*b*c*d - 1`, and every `input_index` lies in the same range. Likewise
`TransposeWeights2D` on a shape `[c2, k2]`: `output_index = j*c2 + i` maps the pairs `(i, j)`
one-to-one onto `0 .. c2*k2 - 1` and every `input_index` is below `c2*k2`. -/
theorem transpose_kernels_index_bijection (a b c d c2 k2 : Nat)
    (hN : a * b * c * d < 2147483648) (hN2 : c2 * k2 < 2147483648) :
    (∀ (inp out0 : List float) (s : TensorRTBuilder),
      performTranspose [3, 2, 0, 1] [(a : Int), b, c, d] inp out0 s =
        defined ((idx4 a b c d).foldlM (fun out t =>
          (readAt inp (inputIndex4 b c d t)).bind
            (fun v => writeAt out
              (outputIndex4 b 1 (intMul a b) (intMul (intMul a b) c) t) v)) out0)
          "TransposeWeights4D" s) ∧
    IndexBijection (idx4 a b c d) (a * b * c * d)
      (outputIndex4 b 1 (intMul a b) (intMul (intMul a b) c)) ∧
    (∀ (inp out0 : List float) (s : TensorRTBuilder),
      performTranspose [2, 3, 0, 1] [(a : Int), b, c, d] inp out0 s =
        defined ((idx4 a b c d).foldlM (fun out t =>
          (readAt inp (inputIndex4 b c d t)).bind
            (fun v => writeAt out
              (outputIndex4 b 1 (intMul (intMul a b) d) (intMul a b) t) v)) out0)
          "TransposeWeights4D" s) ∧
    IndexBijection (idx4 a b c d) (a * b * c * d)
      (outputIndex4 b 1 (intMul (intMul a b) d) (intMul a b)) ∧
    (∀ t ∈ idx4 a b c d, 0 ≤ inputIndex4 b c d t ∧ inputIndex4 b c d t < (a * b * c * d : Nat)) ∧
    (∀ (inp out0 : List float),
      TransposeWeights2D [(c2 : Int), k2] inp out0 =
        (idx2 c2 k2).foldlM (fun out t =>
          (readAt inp (inputIndex2 k2 t)).bind
            (fun v => writeAt out (outputIndex2 c2 t) v)) out0) ∧
    IndexBijection (idx2 c2 k2) (c2 * k2) (outputIndex2 c2) ∧
    (∀ t ∈ idx2 c2 k2, 0 ≤ inputIndex2 k2 t ∧ inputIndex2 k2 t < (c2 * k2 : Nat)) := by
  refine ⟨?_, IndexBijection_3201 a b c d hN, ?_, IndexBijection_2301 a b c d hN, ?_,
    fun inp out0 => TransposeWeights2D_loop c2 k2 inp out0,
    IndexBijection_outputIndex2 c2 k2 hN2, ?_⟩
  · intro inp out0 s
    rw [performTranspose_3201_eq, TransposeWeights4D_loop]
  · intro inp out0 s
    rw [performTranspose_2301_eq, TransposeWeights4D_loop]
  · rintro ⟨i, j, k, l⟩ ht
    obtain ⟨hi, hj, hk, hl⟩ := (mem_idx4 a b c d _).1 ht
    rw [inputIndex4_cast a b c d i j k l hN hi hj hk hl]
    have hf := inIndex4_lt a b c d i j k l hi hj hk hl
    have e : ((i * b + j) * c + k) * d + l = i * (b * c * d) + j * (c * d) + k * d + l := by ring
    exact ⟨Int.natCast_nonneg _, by rw [e]; exact_mod_cast hf⟩
  · rintro ⟨i, j⟩ ht
    obtain ⟨hi, hj⟩ := (mem_idx2 c2 k2 _).1 ht
    have hf : i * k2 + j < c2 * k2 := radix_lt i c2 k2 j hi hj
    unfold inputIndex2
    simp only
    rw [intMul_cast i k2 (by omega), intAdd_cast _ _ (by omega)]
    exact ⟨Int.natCast_nonneg _, by exact_mod_cast hf⟩

theorem transpose_kernels_index_bijection_witness :
    IndexBijection (idx4 2 3 2 2) (2 * 3 * 2 * 2)
      (outputIndex4 (3 : Nat) 1 (intMul (2 : Nat) (3 : Nat))
        (intMul (intMul (2 : Nat) (3 : Nat)) (2 : Nat))) ∧
    IndexBijection (idx2 4 3) (4 * 3) (outputIndex2 (4 : Nat)) :=
  ⟨(transpose_kernels_index_bijection 2 3 2 2 4 3 (by decide) (by decide)).2.1,
   (transpose_kernels_index_bijection 2 3 2 2 4 3 (by decide) (by decide)).2.2.2.2.2.2.1⟩

/-! ## Transposing twice (C25) -/

theorem get?_eq_of_length_le {α : Type} (l l' : List α) (n : Nat) (h : l.length = l'.length)
    (hn : l.length ≤ n) : l.get? n = l'.get? n := by
  rw [List.get?_eq_none.mpr hn, List.get?_eq_none.mpr (h ▸ hn)]

theorem TransposeWeights2D_round_trip {α : Type} (c k : Nat) (w out0 out1 : List α)
    (hN : c * k < 2147483648) (hw : w.length = c * k) (h0 : out0.length = c * k)
    (h1 : out1.length = c * k) :
    ∃ t, TransposeWeights2D [(c : Int), k] w out0 = some t ∧
      TransposeWeights2D [(k : Int), c] t out1 = some w := by
  obtain ⟨t, ht, hlen, hget⟩ := TransposeWeights2D_spec c k w out0 hN hw h0
  have hkc : k * c = c * k := Nat.mul_comm k c
  obtain ⟨u, hu, hulen, huget⟩ := TransposeWeights2D_spec k c t out1 (by omega)
    (by rw [hlen, hkc]) (by rw [h1, hkc])
  refine ⟨t, ht, ?_⟩
  rw [hu]
  congr 1
  apply List.ext_get?
  intro n
  by_cases hn : n < c * k
  · have hk : 0 < k := Nat.pos_of_ne_zero (fun h => by simp [h] at hn)
    obtain ⟨i, j, hi, hj, e⟩ := radix_surj k c n hk hn
    rw [e, huget j i hj hi, hget i j hi hj]
  · exact get?_eq_of_length_le _ _ _ (by rw [hulen, hw, hkc]) (by rw [hulen, hkc]; omega)

theorem performTranspose_2301_round_trip (a b c d : Nat) (w out0 out1 : List float)
    (hN : a * b * c * d < 2147483648) (hw : w.length = a * b * c * d)
    (h0 : out0.length = a * b * c * d) (h1 : out1.length = a * b * c * d)
    (s : TensorRTBuilder) :
    ∃ t, performTranspose [2, 3, 0, 1] [(a : Int), b, c, d] w out0 s = Result.ok t s ∧
      performTranspose [2, 3, 0, 1] [(c : Int), d, a, b] t out1 s = Result.ok w s := by
  have hN' : c * d * a * b = a * b * c * d := by ring
  by_cases hz : a * b * c * d = 0
  · refine ⟨out0, ?_, ?_⟩
    · rw [performTranspose_2301_eq, TransposeWeights4D_loop, idx4_eq_nil a b c d hz]
      rfl
    · rw [performTranspose_2301_eq, TransposeWeights4D_loop,
        idx4_eq_nil c d a b (by rw [hN']; exact hz)]
      have e1 : out1 = [] := List.length_eq_zero.mp (by rw [h1, hz])
      have e2 : w = [] := List.length_eq_zero.mp (by rw [hw, hz])
      rw [e1, e2]
      rfl
  have ha : 0 < a := Nat.pos_of_ne_zero (fun h => hz (by simp [h]))
  have hb : 0 < b := Nat.pos_of_ne_zero (fun h => hz (by simp [h]))
  have hc : 0 < c := Nat.pos_of_ne_zero (fun h => hz (by simp [h]))
  have hd : 0 < d := Nat.pos_of_ne_zero (fun h => hz (by simp [h]))
  obtain ⟨t, ht, hlen, hget⟩ := TransposeWeights4D_2301 a b c d w out0 hN hw h0
  obtain ⟨u, hu, hulen, huget⟩ := TransposeWeights4D_2301 c d a b t out1 (by omega)
    (by rw [hlen, hN']) (by rw [h1, hN'])
  have huw : u = w := by
    apply List.ext_get?
    intro n
    by_cases hn : n < a * b * c * d
    · have hn' : n < a * (b * (c * d)) := by
        calc n < a * b * c * d := hn
          _ = a * (b * (c * d)) := by ring
      obtain ⟨l, k, j, i, hl, hk, hj, hi, e⟩ := radix4_surj d c b a n hd hc hb hn'
      have e' : n = ((i * b + j) * c + k) * d + l := by rw [e]; ring
      rw [e', huget k l i j hk hl hi hj, hget i j k l hi hj hk hl]
    · exact get?_eq_of_length_le _ _ _ (by rw [hulen, hw, hN']) (by rw [hulen, hN']; omega)
  refine ⟨t, performTranspose_2301 a b c d w out0 t hc hd hN ht s, ?_⟩
  rw [← huw]
  exact performTranspose_2301 c d a b t out1 u ha hb (by omega) hu s

/-- C25. Self-inverse transposes round-trip, for element counts that fit an `int`: applying
`TransposeWeights2D` with shape `[c2, k2]` to a buffer `w2` of `c2*k2` elements and then with
shape `[k2, c2]` to the result returns `w2`; and applying the (2,3,0,1) transpose
(`TransposeWeights4D` with the output strides of that order) with shape `[a, b, c, d]` to a
buffer `w` of `a*b*c*d` elements and then with shape `[c, d, a, b]` to the result returns `w`.
The output buffers are any buffers of the right length. -/
theorem transposes_round_trip (a b c d c2 k2 : Nat) (w out0 out1 w2 out2 out3 : List float)
    (hN : a * b * c * d < 2147483648) (hw : w.length = a * b * c * d)
    (h0 : out0.length = a * b * c * d) (h1 : out1.length = a * b * c * d)
    (hN2 : c2 * k2 < 2147483648) (hw2 : w2.length = c2 * k2)
    (h2 : out2.length = c2 * k2) (h3 : out3.length = c2 * k2) :
    (∃ t, TransposeWeights2D [(c2 : Int), k2] w2 out2 = some t ∧
      TransposeWeights2D [(k2 : Int), c2] t out3 = some w2) ∧
    (∀ s : TensorRTBuilder, ∃ t,
      performTranspose [2, 3, 0, 1] [(a : Int), b, c, d] w out0 s = Result.ok t s ∧
      performTranspose [2, 3, 0, 1] [(c : Int), d, a, b] t out1 s = Result.ok w s) ∧
    (∃ t, TransposeWeights4D [(a : Int), b, c, d]
        [(b : Int), 1, intMul (intMul a b) d, intMul a b] w out0 = some t ∧
      TransposeWeights4D [(c : Int), d, a, b]
        [(d : Int), 1, intMul (intMul c d) b, intMul c d] t out1 = some w) := by
  refine ⟨TransposeWeights2D_round_trip c2 k2 w2 out2 out3 hN2 hw2 h2 h3,
    fun s => performTranspose_2301_round_trip a b c d w out0 out1 hN hw h0 h1 s, ?_⟩
  obtain ⟨t, h1', h2'⟩ :=
    performTranspose_2301_round_trip a b c d w out0 out1 hN hw h0 h1 sampleBuilder
  rw [performTranspose_2301_eq] at h1' h2'
  refine ⟨t, ?_, ?_⟩
  · cases hk : TransposeWeights4D [(a : Int), b, c, d]
        [(b : Int), 1, intMul (intMul a b) d, intMul a b] w out0 with
    | none => rw [hk] at h1'; cases h1'
    | some t' =>
      rw [hk, defined_some] at h1'
      simp only [pure_apply, Result.ok.injEq] at h1'
      rw [h1'.1]
  · cases hk : TransposeWeights4D [(c : Int), d, a, b]
        [(d : Int), 1, intMul (intMul c d) b, intMul c d] t out1 with
    | none => rw [hk] at h2'; cases h2'
    | some t' =>
      rw [hk, defined_some] at h2'
      simp only [pure_apply, Result.ok.injEq] at h2'
      rw [h2'.1]

theorem transposes_round_trip_witness :
    (∃ t, TransposeWeights2D [((2 : Nat) : Int), (3 : Nat)] [10, 11, 12, 13, 14, 15]
        (List.replicate 6 0) = some t ∧
      TransposeWeights2D [((3 : Nat) : Int), (2 : Nat)] t (List.replicate 6 0)
        = some [10, 11, 12, 13, 14, 15]) ∧
    (∃ t, performTranspose [2, 3, 0, 1] [((2 : Nat) : Int), (3 : Nat), (2 : Nat), (2 : Nat)]
        (List.range 24) (List.replicate 24 0) sampleBuilder = Result.ok t sampleBuilder ∧
      performTranspose [2, 3, 0, 1] [((2 : Nat) : Int), (2 : Nat), (2 : Nat), (3 : Nat)] t
        (List.replicate 24 0) sampleBuilder = Result.ok (List.range 24) sampleBuilder) :=
  ⟨(transposes_round_trip 2 3 2 2 2 3 (List.range 24) (List.replicate 24 0)
      (List.replicate 24 0) [10, 11, 12, 13, 14, 15] (List.replicate 6 0) (List.replicate 6 0)
      (by decide) (by decide) (by decide) (by decide) (by decide) (by decide) (by decide)
      (by decide)).1,
   (transposes_round_trip 2 3 2 2 2 3 (List.range 24) (List.replicate 24 0)
      (List.replicate 24 0) [10, 11, 12, 13, 14, 15] (List.replicate 6 0) (List.replicate 6 0)
      (by decide) (by decide) (by decide) (by decide) (by decide) (by decide) (by decide)
      (by decide)).2.1 sampleBuilder⟩


/-! ## Ownership of the allocated arrays (C23) -/

theorem GetDLTensorAsWeights_returns (env : Env) (dptr : DLTensor) (src_device : Nat)
    (s s' : TensorRTBuilder) (w : Weights)
    (h : GetDLTensorAsWeights env dptr src_device s = Result.ok w s') :
    s' = { s with allocated := s.allocated + 1, trt_weights_ := s.trt_weights_ ++ [w] } ∧
    ∃ buf, w.values = some buf ∧ buf.addr = s.allocated := by
  rw [GetDLTensorAsWeights_eq] at h
  split at h
  · cases h
  · split at h
    · cases h
    · split at h
      · cases h
      · split at h
        · cases h
        · simp only [Result.ok.injEq] at h
          obtain ⟨hw, hs⟩ := h
          subst hw
          exact ⟨hs.symm, _, rfl, rfl⟩

theorem GetInputAsWeights_returns (env : Env) (node : VarNode) (s s' : TensorRTBuilder)
    (h : GetInputAsWeights env node s = Result.ok () s') :
    ∃ w shape buf, w.values = some buf ∧ buf.addr = s.allocated ∧
      s' = { s with allocated := s.allocated + 1, trt_weights_ := s.trt_weights_ ++ [w],
                    node_output_map_ :=
                      mapAssign s.node_output_map_ node.ptr [TrtOpInput.weight w shape],
                    cache_writes := s.cache_writes ++ [node.ptr] } := by
  unfold GetInputAsWeights at h
  rcases TrackVarNode_cases env node s with ⟨idx, hidx⟩ | ⟨e, hidx⟩
  · simp only [bind_apply, hidx, getState_apply] at h
    cases harg : readAt s.execution_args_ idx with
    | none => rw [harg] at h; cases h
    | some arg =>
      rw [harg] at h
      simp only [defined_some, pure_apply] at h
      cases hw : GetDLTensorAsWeights env arg kDLGPU s with
      | error e s1 => rw [hw] at h; cases h
      | ok w s1 =>
        rw [hw] at h
        obtain ⟨hs1, buf, hbuf, haddr⟩ := GetDLTensorAsWeights_returns env arg kDLGPU s s1 w hw
        cases htype : node.checked_type with
        | other => rw [htype] at h; cases h
        | tensor shape dtype =>
          rw [htype] at h
          simp only [GetShape, pure_apply, cacheAssign, modifyState_apply, Result.ok.injEq,
            true_and] at h
          refine ⟨w, shape, buf, hbuf, haddr, ?_⟩
          rw [← h, hs1]
  · simp only [bind_apply, hidx] at h
    cases h

theorem performTranspose_state (order shape : List Int) (original_values values : List float)
    (s : TensorRTBuilder) :
    (performTranspose order shape original_values values s).state = s :=
  Preserves_performTranspose (R := fun s s' => s' = s) (fun _ => rfl)
    (fun _ _ _ h12 h23 => h23.trans h12) order shape original_values values s

theorem GetInputAsTransposedWeights_returns (env : Env) (transpose : Nat) (attrs : Attrs)
    (node : VarNode) (s s' : TensorRTBuilder)
    (h : GetInputAsTransposedWeights env transpose attrs node s = Result.ok () s') :
    ∃ w1 w2 b1 b2, w1.values = some b1 ∧ b1.addr = s.allocated ∧
      w2.values = some b2 ∧ b2.addr = s.allocated + 1 ∧
      s'.allocated = s.allocated + 2 ∧
      s'.trt_weights_ = s.trt_weights_ ++ [w1, w2] := by
  unfold GetInputAsTransposedWeights at h
  simp only [bind_apply] at h
  cases h1 : GetInputAsWeights env node s with
  | error e s1 => rw [h1] at h; cases h
  | ok u s1 =>
    rw [h1] at h
    obtain ⟨w, shape, buf, hbuf, haddr, hs1⟩ := GetInputAsWeights_returns env node s s1 h1
    subst hs1
    simp only [bind_apply, cacheIndex, mapFind_mapAssign_self, List.length_singleton,
      beq_self_eq_true, CHECK_apply, if_true, List.get?_cons_zero, pure_apply, hbuf,
      Option.map_some', defined_some, newFloatArray] at h
    cases attrs with
    | other => simp only [bind_apply, raise_apply] at h; cases h
    | transpose axes =>
      simp only [bind_apply, pure_apply] at h
      cases hax : readAxes shape axes with
      | none => rw [hax] at h; simp only [defined_none, raise_apply] at h; cases h
      | some pair =>
        obtain ⟨order, new_shape⟩ := pair
        rw [hax] at h
        simp only [defined_some, pure_apply] at h
        have hst := performTranspose_state order shape buf.data (List.replicate w.count 0)
          { s with allocated := s.allocated + 1 + 1, trt_weights_ := s.trt_weights_ ++ [w],
                   node_output_map_ :=
                     mapAssign s.node_output_map_ node.ptr [TrtOpInput.weight w shape],
                   cache_writes := s.cache_writes ++ [node.ptr] }
        revert h hst
        cases performTranspose order shape buf.data (List.replicate w.count 0)
          { s with allocated := s.allocated + 1 + 1, trt_weights_ := s.trt_weights_ ++ [w],
                   node_output_map_ :=
                     mapAssign s.node_output_map_ node.ptr [TrtOpInput.weight w shape],
                   cache_writes := s.cache_writes ++ [node.ptr] } with
        | error e s2 => intro h _; cases h
        | ok data s2 =>
          intro h hst
          simp only [Result.state] at hst
          subst hst
          simp only [modifyState_apply, cacheAssign, Result.ok.injEq, true_and] at h
          subst h
          exact ⟨w,
            { type := DataType.kFLOAT, values := some { addr := s.allocated + 1, data := data },
              count := w.count },
            buf, { addr := s.allocated + 1, data := data }, hbuf, haddr, rfl, rfl, rfl, by simp⟩

/-- C23 (counterexample). A byte copy that fails leaves the array that `GetDLTensorAsWeights`
has just allocated unregistered: one array is allocated, `trt_weights_` is still empty. An
unsupported permutation leaves the array that `GetInputAsTransposedWeights` allocated for the
transposed data unregistered: two arrays are allocated, only the first is in `trt_weights_`. -/
theorem failed_calls_leave_arrays_unregistered :
    (GetDLTensorAsWeights failingCopyEnv sampleTensor43 kDLCPU sampleBuilder).failed = true ∧
    sampleBuilder.allocated = 0 ∧ sampleBuilder.trt_weights_ = [] ∧
    (GetDLTensorAsWeights failingCopyEnv sampleTensor43 kDLCPU sampleBuilder).state.allocated
      = 1 ∧
    (GetDLTensorAsWeights failingCopyEnv sampleTensor43 kDLCPU sampleBuilder).state.trt_weights_
      = [] ∧
    (GetInputAsTransposedWeights sampleEnv 7 (Attrs.transpose [0, 1]) sampleVar2D
      sampleBuilder).failed = true ∧
    (GetInputAsTransposedWeights sampleEnv 7 (Attrs.transpose [0, 1]) sampleVar2D
      sampleBuilder).state.allocated = 2 ∧
    (GetInputAsTransposedWeights sampleEnv 7 (Attrs.transpose [0, 1]) sampleVar2D
      sampleBuilder).state.trt_weights_.map (fun w => w.values.map Buffer.addr) = [some 0] := by
  decide

/-- C23 (amended). Whenever `GetDLTensorAsWeights` returns, it has allocated exactly one array
and appended exactly one entry to `trt_weights_`, the returned weight, which holds that array.
Whenever `GetInputAsTransposedWeights` returns, it has allocated exactly two arrays and
appended exactly two entries, the source weight holding the first array and the transposed
weight holding the second. -/
theorem returned_weights_are_registered (env : Env) :
    (∀ (dptr : DLTensor) (src_device : Nat) (s s' : TensorRTBuilder) (w : Weights),
      GetDLTensorAsWeights env dptr src_device s = Result.ok w s' →
        s'.allocated = s.allocated + 1 ∧
        s'.trt_weights_ = s.trt_weights_ ++ [w] ∧
        w.values.map Buffer.addr = some s.allocated) ∧
    (∀ (transpose : Nat) (attrs : Attrs) (node : VarNode) (s s' : TensorRTBuilder),
      GetInputAsTransposedWeights env transpose attrs node s = Result.ok () s' →
        s'.allocated = s.allocated + 2 ∧
        ∃ w1 w2, s'.trt_weights_ = s.trt_weights_ ++ [w1, w2] ∧
          w1.values.map Buffer.addr = some s.allocated ∧
          w2.values.map Buffer.addr = some (s.allocated + 1)) := by
  refine ⟨?_, ?_⟩
  · intro dptr src_device s s' w h
    obtain ⟨hs, buf, hbuf, haddr⟩ := GetDLTensorAsWeights_returns env dptr src_device s s' w h
    subst hs
    exact ⟨rfl, rfl, by rw [hbuf, Option.map_some', haddr]⟩
  · intro transpose attrs node s s' h
    obtain ⟨w1, w2, b1, b2, h1, a1, h2, a2, hal, hw⟩ :=
      GetInputAsTransposedWeights_returns env transpose attrs node s s' h
    exact ⟨hal, w1, w2, hw, by rw [h1, Option.map_some', a1], by rw [h2, Option.map_some', a2]⟩

theorem returned_weights_are_registered_witness :
    ((GetDLTensorAsWeights sampleEnv sampleTensor43 kDLCPU sampleBuilder).state.allocated
        = sampleBuilder.allocated + 1) ∧
    ((GetInputAsTransposedWeights sampleEnv 7 (Attrs.transpose [1, 0]) sampleVar2D
        sampleBuilder).state.allocated = sampleBuilder.allocated + 2) :=
  ⟨((returned_weights_are_registered sampleEnv).1 sampleTensor43 kDLCPU sampleBuilder
      _ _ rfl).1,
   ((returned_weights_are_registered sampleEnv).2 7 (Attrs.transpose [1, 0]) sampleVar2D
      sampleBuilder _ rfl).1⟩


/-! ## The operator `topi::nn::dilate` (C21, C22, C26) -/

theorem dilate_rank_mismatch (ops : IndexOps) (x : Tensor) (strides : List IndexExpr)
    (h : x.shape.length ≠ strides.length) : dilate ops x strides = none := by
  unfold dilate
  simp only [h, ne_eq, not_false_eq_true, if_true]

theorem dilate_shape (ops : IndexOps) (x : Tensor) (strides : List IndexExpr)
    (h : x.shape.length = strides.length) :
    (dilate ops x strides).map (fun t => t.shape) = some (dilateOutShape x.shape strides) := by
  unfold dilate
  simp only [h, ne_eq, not_true_eq_false, if_false, Option.map_some']

/-- The output extent of a dimension of extent `n` (at most `2^30`) dilated with the constant
stride 1 is `2 * (n - 1)`. -/
theorem dilateOutShape_stride_one (n : Nat) (h1 : 1 ≤ n) (h2 : n ≤ 1073741824) :
    dilateOutShape [(n : Int)] [IndexExpr.imm 1] = [((2 * (n - 1) : Nat) : Int)] := by
  have e1 : wrapInt32 ((n : Int) - 1) = ((n - 1 : Nat) : Int) := by
    rw [wrapInt32_of_range] <;> omega
  have e2 : wrapInt32 ((1 : Int) + 1) = ((2 : Nat) : Int) := by decide
  simp only [dilateOutShape, List.zipWith_cons_cons, List.zipWith_nil_right, IndexExpr.value]
  rw [e1, e2, intMul_cast (n - 1) 2 (by omega)]
  congr 2
  ring

/-- With strides greater than 1 and extents of at least 2 the elements are placed as the
documentation says: a tensor `[10, 11, 12]` dilated with stride 2 gives `10, 0, 11, 0, 12, 0`
(the output has extent 6). -/
theorem dilate_stride_two_sample :
    (dilate sampleOps sampleTensor3 [IndexExpr.imm 2]).map (fun t =>
      (t.shape, [t.elem [0], t.elem [1], t.elem [2], t.elem [3], t.elem [4], t.elem [5]]))
      = some ([6], [some 10, some 0, some 11, some 0, some 12, some 0]) := by
  decide

/-- C21 (divergence). Dilating the tensor `[10, 11, 12]` of shape `[3]` with the constant
stride 1 gives a tensor of shape `[4]`, not `[3]`: the output extent is computed as
`(3 - 1) * (1 + 1)`. -/
theorem dilate_stride_one_changes_shape :
    (dilate sampleOps sampleTensor3 [IndexExpr.imm 1]).map (fun t => t.shape) = some [4] ∧
    sampleTensor3.shape = [3] ∧
    (dilate sampleOps sampleTensor3 [IndexExpr.imm 1]).map (fun t => t.shape)
      ≠ some sampleTensor3.shape := by
  decide

/-- C22 (divergence). Dilating the tensor `[10]` of shape `[1]` with the constant stride 2
gives a tensor of shape `[0]`: the index `0` of `x` is in range, but the strided position
`0 * 2` does not lie within the output shape, so the element of `x` does not appear in the
output. -/
theorem dilate_unit_extent_drops_element :
    (dilate sampleOps sampleTensor1 [IndexExpr.imm 2]).map (fun t => t.shape) = some [0] ∧
    inBounds sampleTensor1.shape [0] = true ∧
    inBounds [0] [0 * 2] = false := by
  decide

/-- C26 (divergence). Dilating the tensor of shape `[3]` with the constant stride 1 gives the
output shape `[4]`; at the output index `3`, which lies within that shape, the compute body has
no condition to check and reads `x` at the index `3`, which is not smaller than the extent `3`:
an out-of-bounds read. -/
theorem dilate_reads_out_of_bounds :
    (dilate sampleOps sampleTensor3 [IndexExpr.imm 1]).map (fun t => t.shape) = some [4] ∧
    inBounds [4] [3] = true ∧
    dilateNotZero sampleOps [IndexExpr.imm 1] [3] = [] ∧
    dilateIndexTuple sampleOps [IndexExpr.imm 1] [3] = [3] ∧
    inBounds sampleTensor3.shape [3] = false ∧
    ((dilate sampleOps sampleTensor3 [IndexExpr.imm 1]).bind fun t => t.elem [3]) = none := by
  decide

end TensorRT
